import Mathlib

/-!
# Loan-servicing ledger (`src/server.js`)

A shallow embedding of the request handlers of `src/server.js` that create customers,
create, edit and delete loans, toggle installment statuses, mark a loan as paid, report
the aggregates of a customer and sweep overdue installments, together with the
properties of the ledger that follow from the code.

Modelling conventions.

* The relational store is a record of three row lists (`clientes`, `emprestimos`,
  `parcelas`) plus their auto-increment counters.  A query is a filter or a map over a
  row list; the queries a handler issues through `Promise.all` are applied in loop order.
* The per-installment amount `parseFloat(valorpagar) / parseInt(parcelas)` is computed in
  JavaScript (binary64) arithmetic: `duplo` rounds to the nearest JavaScript number, and
  `toFixed(2)` rounds the exact value of that number to cents, half away from zero.  The
  other arithmetic on money (the customer rollups) and the SQL decimals are exact
  rationals.
* A JavaScript `Date` is its UTC calendar date plus the milliseconds elapsed in that day;
  the server runs with UTC as local time zone and request dates are date-only ISO texts.
  (`setMonth` and `setHours` act on local calendar fields: with a local time zone west of
  UTC they would act on the previous local day of a date-only text.)
* A handler runs at one instant: `new Date()` and the `NOW()` of the store read the same
  clock.
* Text comparison in the store is exact equality.
* The store never fails: the `catch` branches of the handlers are not modelled.
-/

namespace Backg

/-! ## Calendar dates and instants -/

/-- Calendar date: `mes` is 1..12 and `dia` is 1..31 as printed by `toISOString`. -/
structure Data where
  ano : Nat
  mes : Nat
  dia : Nat
deriving DecidableEq, Repr

/-- Instant: a calendar date and the milliseconds elapsed since its midnight. -/
structure Instante where
  data : Data
  ms : Nat
deriving DecidableEq, Repr

/-- Strict calendar order on dates (the order of `data_vencimento < ?` in the store). -/
def Data.antes (a b : Data) : Prop :=
  a.ano < b.ano ∨ (a.ano = b.ano ∧ (a.mes < b.mes ∨ (a.mes = b.mes ∧ a.dia < b.dia)))

instance (a b : Data) : Decidable (a.antes b) := by
  unfold Data.antes; infer_instance

/-- Strict order on instants (the order of `<` on two `Date` objects). -/
def Instante.antes (a b : Instante) : Prop :=
  a.data.antes b.data ∨ (a.data = b.data ∧ a.ms < b.ms)

instance (a b : Instante) : Decidable (a.antes b) := by
  unfold Instante.antes; infer_instance

/-- Midnight at the start of a date: what `new Date("YYYY-MM-DD")` denotes. -/
def Data.meiaNoite (d : Data) : Instante := { data := d, ms := 0 }

/-- Leap years of the Gregorian calendar. -/
def bissexto (ano : Nat) : Bool :=
  (ano % 4 == 0 && ano % 100 != 0) || ano % 400 == 0

/-- Number of days of month `mes0` (0 = January .. 11 = December) of year `ano`. -/
def diasNoMes (ano mes0 : Nat) : Nat :=
  match mes0 with
  | 1 => if bissexto ano then 29 else 28
  | 3 | 5 | 8 | 10 => 30
  | _ => 31

/-- Day `dia` counted from the first of month `mes0` of `ano`, carried forward into the
following months while it exceeds the month length (`MakeDay` followed by decoding the
day number).  Every step consumes at least 28 days, so `dia` steps of fuel suffice. -/
def rolarDia : Nat → Nat → Nat → Nat → Data
  | 0, ano, mes0, dia => { ano := ano, mes := mes0 + 1, dia := dia }
  | fuel + 1, ano, mes0, dia =>
    if dia ≤ diasNoMes ano mes0 then { ano := ano, mes := mes0 + 1, dia := dia }
    else if mes0 + 1 < 12 then rolarDia fuel ano (mes0 + 1) (dia - diasNoMes ano mes0)
    else rolarDia fuel (ano + 1) 0 (dia - diasNoMes ano mes0)

/-- The call `d.setMonth(m)` of JavaScript: month index `m` (0-based, may exceed 11)
of the year of `d`, keeping the day of the month and rolling an overflow forward. -/
def setMonth (d : Data) (m : Nat) : Data :=
  rolarDia d.dia (d.ano + m / 12) (m % 12) d.dia

/-- The call `d.getMonth()` of JavaScript (0-based month index). -/
def getMonth (d : Data) : Nat := d.mes - 1

/-! ## Binary floating point -/

/-- The power `2 ^ k` for an integer exponent `k`. -/
def doisElevado (k : ℤ) : ℚ :=
  if 0 ≤ k then ((2 ^ k.toNat : ℕ) : ℚ) else 1 / ((2 ^ (-k).toNat : ℕ) : ℚ)

/-- The integer nearest to `x`, the even one at a tie (the rounding rule of the
arithmetic of JavaScript numbers). -/
def arredondarPar (x : ℚ) : ℤ :=
  if x - ⌊x⌋ < 1 / 2 then ⌊x⌋
  else if 1 / 2 < x - ⌊x⌋ then ⌊x⌋ + 1
  else if ⌊x⌋ % 2 = 0 then ⌊x⌋ else ⌊x⌋ + 1

/-- Number of binary digits of `n` among the lowest `fuel` ones (0 for `n = 0`). -/
def contarBits : Nat → Nat → Nat
  | 0, _ => 0
  | fuel + 1, n => if n = 0 then 0 else contarBits fuel (n / 2) + 1

/-- Number of binary digits of `n`: `2 ^ (numBits n - 1) ≤ n < 2 ^ numBits n` for `n ≠ 0`
(a number has no more digits than its value, so `n` steps suffice). -/
def numBits (n : Nat) : Nat := contarBits n n

/-- Binary exponent of a positive `x`: the `e` with `2 ^ e ≤ x < 2 ^ (e + 1)`, found from
the bit lengths of numerator and denominator. -/
def expoente (x : ℚ) : ℤ :=
  if doisElevado ((numBits x.num.natAbs : ℤ) - (numBits x.den : ℤ)) ≤ x then
    (numBits x.num.natAbs : ℤ) - (numBits x.den : ℤ)
  else (numBits x.num.natAbs : ℤ) - (numBits x.den : ℤ) - 1

/-- The JavaScript number (binary64) nearest to `x ≥ 0`: `x` rounded to 53 significant
bits, and to a multiple of `2 ^ (-1074)` below `2 ^ (-1022)`. -/
def duploPos (x : ℚ) : ℚ :=
  if x = 0 then 0
  else (arredondarPar (x / doisElevado (max (expoente x) (-1022) - 52)) : ℚ) *
    doisElevado (max (expoente x) (-1022) - 52)

/-- The JavaScript number nearest to `x`, as the rational it denotes: what reading a
decimal text gives, and the result of an arithmetic operation whose exact value is `x`.
(Overflow to an infinity, from about `1.8e308`, is not modelled.) -/
def duplo (x : ℚ) : ℚ := if x < 0 then -duploPos (-x) else duploPos x

/-- The expression `parseFloat(valorpagar) / parseInt(parcelas)` (lines 413 and 583): the
repayable amount read as a JavaScript number and divided, in JavaScript arithmetic, by the
count (an integer below 2^53 is a JavaScript number itself). -/
def quocienteDuplo (valorpagar : ℚ) (parcelas : Nat) : ℚ :=
  duplo (duplo valorpagar / (parcelas : ℚ))

/-! ## Currency rounding -/

/-- The call `x.toFixed(2)` on the JavaScript number `x`, read back as a number: the
multiple of 0.01 nearest to `x`, ties away from zero.  (The exponent notation that
`toFixed` switches to from `1e21` is not modelled.) -/
def toFixed2 (x : ℚ) : ℚ :=
  if x < 0 then -((⌊-x * 100 + 1 / 2⌋ : ℤ) : ℚ) / 100
  else ((⌊x * 100 + 1 / 2⌋ : ℤ) : ℚ) / 100

/-! ## The ledger store -/

/-- Values written to `parcelas.status`. -/
inductive StatusParcela where
  | Pendente
  | Atrasada
  | Pago
deriving DecidableEq, Repr

/-- Values written to `emprestimos.statos`. -/
inductive StatusEmprestimo where
  | Pendente
  | EmAtraso
  | Pago
deriving DecidableEq, Repr

/-- Row of table `parcelas`. -/
structure Parcela where
  id : Nat
  id_emprestimo : Nat
  numero_parcela : Nat
  valor_parcela : ℚ
  data_vencimento : Data
  data_pagamento : Option Instante
  status : StatusParcela
deriving DecidableEq

/-- Row of table `emprestimos`; `cliente` holds the customer name. -/
structure Emprestimo where
  id : Nat
  cliente : String
  valoremprestado : ℚ
  valorpagar : ℚ
  parcelas : Nat
  dataemprestimo : Data
  obs : String
  statos : StatusEmprestimo
deriving DecidableEq

/-- Row of table `clientes`: identity, name, note and the stored rollups (the contact
columns, which no handler below reads or writes, are left out). -/
structure Cliente where
  id : Nat
  nome : String
  obs : String
  total_emprestimos_feitos : Int
  emprestimos_pendentes : Int
  emprestimos_pagos : Int
  emprestimos_atrasados : Int
  total_valor_emprestado : ℚ
  lucro_total : ℚ
  atrasos : Int
  maior_valor_emprestado : ℚ
deriving DecidableEq

/-- The store: the three tables and the auto-increment counters of `emprestimos`,
`parcelas` and `clientes` (the id the next inserted row receives). -/
structure DB where
  clientes : List Cliente
  emprestimos : List Emprestimo
  parcelas : List Parcela
  proxIdEmprestimo : Nat
  proxIdParcela : Nat
  proxIdCliente : Nat := 1
deriving DecidableEq

/-- Failure answers of the handlers (HTTP 400 and 404 bodies). -/
inductive Erro where
  | camposObrigatorios
  | clienteNaoEncontrado
  | emprestimoNaoEncontrado
  | parcelaNaoEncontrada
  | statusInvalido
  | parcelasNaoPagas
  | clienteJaExiste
deriving DecidableEq, Repr

/-- Request body of `POST /emprestimos` and `PUT /emprestimos/:id`. -/
structure CorpoEmprestimo where
  cliente : String
  valoremprestado : ℚ
  valorpagar : ℚ
  parcelas : Nat
  dataemprestimo : Data
  obs : String
deriving DecidableEq

/-- The guard `!cliente || !valoremprestado || !valorpagar || !parcelas || !dataemprestimo`
(an empty text and the number zero are falsy; a date text is never empty here). -/
def camposFaltando (c : CorpoEmprestimo) : Bool :=
  c.cliente == "" || c.valoremprestado == 0 || c.valorpagar == 0 || c.parcelas == 0

/-! ## `POST /emprestimos` (createLoan) -/

/-- One iteration of the loop of `POST /emprestimos` (lines 587-599): the row inserted
for installment number `i`; `id` is the auto-increment value it receives. -/
def novaParcelaCriacao (emprestimoId : Nat) (valorParcela : ℚ) (dataBase : Data)
    (hoje : Instante) (id i : Nat) : Parcela :=
  let dataVencimento := setMonth dataBase (getMonth dataBase + i)
  let statusParcela :=
    if dataVencimento.meiaNoite.antes hoje then StatusParcela.Atrasada
    else StatusParcela.Pendente
  { id := id, id_emprestimo := emprestimoId, numero_parcela := i,
    valor_parcela := toFixed2 valorParcela, data_vencimento := dataVencimento,
    data_pagamento := none, status := statusParcela }

/-- The loop `for (let i = ini; i <= fim; i++) acc = corpo(acc, i)`.  The first argument
bounds the number of iterations; `fim + 1 - ini` iterations always reach `i > fim`. -/
def lacoFor {α : Type} (fim : Nat) (corpo : α → Nat → α) : Nat → Nat → α → α
  | 0, _, acc => acc
  | fuel + 1, i, acc =>
    if i ≤ fim then lacoFor fim corpo fuel (i + 1) (corpo acc i) else acc

/-- The schedule `POST /emprestimos` generates (lines 582-601): the loop
`for (let i = 1; i <= parcelas; i++)` pushing one row per iteration; the rows receive
consecutive auto-increment ids from `proxId`. -/
def gerarParcelas (emprestimoId : Nat) (valorpagar : ℚ) (parcelas : Nat) (dataemprestimo : Data)
    (hoje : Instante) (proxId : Nat) : List Parcela :=
  let valorParcela := quocienteDuplo valorpagar parcelas
  lacoFor parcelas
    (fun acc i => acc ++ [novaParcelaCriacao emprestimoId valorParcela dataemprestimo hoje
      (proxId + acc.length) i])
    parcelas 1 []

/-- Rows of `emprestimos` with `cliente = nome`. -/
def emprestimosDe (db : DB) (nome : String) : List Emprestimo :=
  db.emprestimos.filter (fun e => decide (e.cliente = nome))

/-- Subquery `SELECT COUNT(*) FROM parcelas p2 WHERE p2.id_emprestimo = e.id AND
p2.status = 'Pago'`. -/
def parcelasPagasDe (db : DB) (idEmprestimo : Nat) : Nat :=
  (db.parcelas.filter
    (fun p => decide (p.id_emprestimo = idEmprestimo ∧ p.status = StatusParcela.Pago))).length

/-- Aggregate `IFNULL(MAX(x), 0)` over a column. -/
def maxOuZero : List ℚ → ℚ
  | [] => 0
  | x :: xs => xs.foldl max x

/-- Rows of the join `emprestimos e JOIN parcelas p ON e.id = p.id_emprestimo` with
`e.cliente = nome AND p.status = 'Atrasada' AND p.data_vencimento < NOW()`. -/
def juncaoAtrasadasAgora (db : DB) (agora : Instante) (nome : String) :
    List (Emprestimo × Parcela) :=
  (emprestimosDe db nome).flatMap (fun e =>
    (db.parcelas.filter (fun p => decide (e.id = p.id_emprestimo ∧
      p.status = StatusParcela.Atrasada ∧ p.data_vencimento.meiaNoite.antes agora))).map
      (fun p => (e, p)))

/-- The customer row written by the `UPDATE clientes c SET ...` of `POST /emprestimos`
(lines 611-644): every rollup recomputed by aggregation over the loans of the name. -/
def recalcularCliente (db : DB) (agora : Instante) (c : Cliente) : Cliente :=
  let es := emprestimosDe db c.nome
  { c with
    total_emprestimos_feitos := es.length
    emprestimos_pendentes :=
      (es.filter (fun e => decide (e.statos = StatusEmprestimo.Pendente))).length
    emprestimos_pagos :=
      (es.filter (fun e => decide (e.statos = StatusEmprestimo.Pago))).length
    total_valor_emprestado := (es.map (fun e => e.valoremprestado)).sum
    lucro_total :=
      (es.map (fun e => ((e.valorpagar - e.valoremprestado) / (e.parcelas : ℚ)) *
        (parcelasPagasDe db e.id : ℚ))).sum
    maior_valor_emprestado := maxOuZero (es.map (fun e => e.valoremprestado))
    emprestimos_atrasados :=
      (((juncaoAtrasadasAgora db agora c.nome).map (fun ep => ep.1.id)).dedup).length
    atrasos := (juncaoAtrasadasAgora db agora c.nome).length }

/-- Statement `UPDATE emprestimos SET statos = ? WHERE id = ?`. -/
def definirStatos (db : DB) (id : Nat) (st : StatusEmprestimo) : DB :=
  { db with emprestimos :=
      db.emprestimos.map (fun e => if e.id = id then { e with statos := st } else e) }

/-- Handler `POST /emprestimos` (createLoan) run at instant `agora`: the store afterwards
and the answer (the inserted loan row as read back, or the failure). -/
def postEmprestimos (db : DB) (agora : Instante) (c : CorpoEmprestimo) :
    DB × Except Erro (Option Emprestimo) :=
  if camposFaltando c then (db, .error .camposObrigatorios) else
  match db.clientes.filter (fun x => decide (x.nome = c.cliente)) with
  | [] => (db, .error .clienteNaoEncontrado)
  | clienteExistente :: _ =>
    let clienteId := clienteExistente.id
    let emprestimoId := db.proxIdEmprestimo
    let db1 : DB := { db with
      emprestimos := db.emprestimos ++ [{
        id := emprestimoId, cliente := c.cliente, valoremprestado := c.valoremprestado,
        valorpagar := c.valorpagar, parcelas := c.parcelas,
        dataemprestimo := c.dataemprestimo, obs := c.obs,
        statos := StatusEmprestimo.Pendente }]
      proxIdEmprestimo := emprestimoId + 1 }
    let novas := gerarParcelas emprestimoId c.valorpagar c.parcelas c.dataemprestimo agora
      db1.proxIdParcela
    let db2 : DB := { db1 with
      parcelas := db1.parcelas ++ novas
      proxIdParcela := db1.proxIdParcela + novas.length }
    let temAtraso := (db2.parcelas.filter (fun p => decide (p.id_emprestimo = emprestimoId ∧
      p.status = StatusParcela.Atrasada))).length
    let db3 := if temAtraso > 0 then definirStatos db2 emprestimoId StatusEmprestimo.EmAtraso
      else db2
    let clientes4 := db3.clientes.map
      (fun x => if x.id = clienteId then recalcularCliente db3 agora x else x)
    let db4 : DB := { db3 with clientes := clientes4 }
    (db4, .ok ((db4.emprestimos.filter (fun e => decide (e.id = emprestimoId))).head?))

/-! ## `PUT /emprestimos/:id` (editLoan) -/

/-- Query `SELECT * FROM parcelas WHERE id_emprestimo = ? ORDER BY numero_parcela ASC`. -/
def parcelasOrdenadas (db : DB) (idEmprestimo : Nat) : List Parcela :=
  (db.parcelas.filter (fun p => decide (p.id_emprestimo = idEmprestimo))).insertionSort
    (fun a b => a.numero_parcela ≤ b.numero_parcela)

/-- The call `xs.slice(-k)` of JavaScript: the last `k` elements (all of them when `k`
exceeds the length, and also when `k` is zero, since `-0` is `0`). -/
def sliceUltimos {α : Type} (k : Nat) (xs : List α) : List α :=
  if k = 0 then xs else xs.drop (xs.length - k)

/-- One iteration of the extension loop of `PUT /emprestimos/:id` (lines 436-455): the
row inserted for installment number `i`. -/
def novaParcelaEdicao (emprestimoId : Nat) (valorParcela : ℚ) (dataBase : Data)
    (id i : Nat) : Parcela :=
  let dataVencimento := setMonth dataBase (getMonth dataBase + i)
  { id := id, id_emprestimo := emprestimoId, numero_parcela := i,
    valor_parcela := toFixed2 valorParcela, data_vencimento := dataVencimento,
    data_pagamento := none, status := StatusParcela.Pendente }

/-- The rows the extension loop `for (let i = numeroParcelasAntigo + 1; i <= parcelas; i++)`
inserts. -/
def estenderParcelas (emprestimoId : Nat) (valorParcela : ℚ) (dataBase : Data)
    (numeroParcelasAntigo parcelas proxId : Nat) : List Parcela :=
  lacoFor parcelas
    (fun acc i => acc ++ [novaParcelaEdicao emprestimoId valorParcela dataBase
      (proxId + acc.length) i])
    (parcelas + 1 - (numeroParcelasAntigo + 1)) (numeroParcelasAntigo + 1) []

/-- Statement `UPDATE parcelas SET valor_parcela = ? WHERE id = ?`. -/
def definirValorParcela (valor : ℚ) (ps : List Parcela) (id : Nat) : List Parcela :=
  ps.map (fun p => if p.id = id then { p with valor_parcela := valor } else p)

/-- Lines 420-431 of the handler: when the new count is smaller, the rows whose ids are
those of the last `numeroParcelasAntigo - parcelas` rows in sequence order are deleted. -/
def removerUltimasParcelas (db : DB) (id numeroParcelasAntigo parcelas : Nat) : DB :=
  let parcelasExistentes := parcelasOrdenadas db id
  if parcelas < numeroParcelasAntigo then
    let parcelasParaRemover := numeroParcelasAntigo - parcelas
    let ultimasParcelas := (sliceUltimos parcelasParaRemover parcelasExistentes).map
      (fun p => p.id)
    if ultimasParcelas.length > 0 then
      { db with parcelas := db.parcelas.filter (fun p => decide (p.id ∉ ultimasParcelas)) }
    else db
  else db

/-- Lines 433-457 of the handler: when the new count is larger, the rows of the
extension loop are inserted. -/
def acrescentarParcelas (db : DB) (id : Nat) (valorParcela : ℚ) (dataBase : Data)
    (numeroParcelasAntigo parcelas : Nat) : DB :=
  if parcelas > numeroParcelasAntigo then
    let novas := estenderParcelas id valorParcela dataBase numeroParcelasAntigo parcelas
      db.proxIdParcela
    { db with parcelas := db.parcelas ++ novas,
              proxIdParcela := db.proxIdParcela + novas.length }
  else db

/-- Lines 459-471 of the handler: the amount of every row of the loan is overwritten,
one `UPDATE ... WHERE id = ?` per row id read back. -/
def atualizarValores (db : DB) (id : Nat) (valorParcela : ℚ) : DB :=
  let parcelasParaAtualizar := (parcelasOrdenadas db id).map (fun p => p.id)
  let parcelas4 := parcelasParaAtualizar.foldl (definirValorParcela (toFixed2 valorParcela))
    db.parcelas
  { db with parcelas := parcelas4 }

/-- Lines 401-411 of the handler: `UPDATE emprestimos SET cliente = ?, valoremprestado = ?,
valorpagar = ?, parcelas = ?, dataemprestimo = ?, obs = ? WHERE id = ?`. -/
def regravarEmprestimo (db : DB) (id : Nat) (c : CorpoEmprestimo) : DB :=
  { db with emprestimos := db.emprestimos.map (fun e =>
      if e.id = id then
        { e with cliente := c.cliente, valoremprestado := c.valoremprestado,
                 valorpagar := c.valorpagar, parcelas := c.parcelas,
                 dataemprestimo := c.dataemprestimo, obs := c.obs }
      else e) }

/-- First row of `SELECT * FROM emprestimos WHERE id = ?`, if any. -/
def emprestimoExistente (db : DB) (id : Nat) : Option Emprestimo :=
  (db.emprestimos.filter (fun e => decide (e.id = id))).head?

/-- Handler `PUT /emprestimos/:id` (editLoan): the store afterwards and the answer (the
loan row as read back, or the failure). -/
def putEmprestimo (db : DB) (id : Nat) (c : CorpoEmprestimo) :
    DB × Except Erro (Option Emprestimo) :=
  if camposFaltando c then (db, .error .camposObrigatorios) else
  match db.clientes.filter (fun x => decide (x.nome = c.cliente)) with
  | [] => (db, .error .clienteNaoEncontrado)
  | _ :: _ =>
    match db.emprestimos.filter (fun e => decide (e.id = id)) with
    | [] => (db, .error .emprestimoNaoEncontrado)
    | emprestimoExistente :: _ =>
      let numeroParcelasAntigo := emprestimoExistente.parcelas
      let db1 := regravarEmprestimo db id c
      let valorParcela := quocienteDuplo c.valorpagar c.parcelas
      let db2 := removerUltimasParcelas db1 id numeroParcelasAntigo c.parcelas
      let db3 := acrescentarParcelas db2 id valorParcela c.dataemprestimo numeroParcelasAntigo
        c.parcelas
      let db4 := atualizarValores db3 id valorParcela
      (db4, .ok ((db4.emprestimos.filter (fun e => decide (e.id = id))).head?))

/-! ## `PATCH /emprestimos/:id/pago` (markLoanPaid) -/

/-- Handler `PATCH /emprestimos/:id/pago` (markLoanPaid): the store afterwards and the
answer. -/
def patchEmprestimoPago (db : DB) (id : Nat) : DB × Except Erro Unit :=
  let naoPagas := (db.parcelas.filter (fun p => decide (p.id_emprestimo = id ∧
    p.status ≠ StatusParcela.Pago))).length
  if naoPagas > 0 then (db, .error .parcelasNaoPagas)
  else (definirStatos db id StatusEmprestimo.Pago, .ok ())

/-! ## `PATCH /parcelas/:idParcela/status` (setInstallmentStatus) -/

/-- The number the store reads in a text that it compares with an integer column: leading
blanks are skipped and the decimal digits that follow are read; a text that does not
start with a digit counts as 0.  (Sign, fraction and exponent are not modelled, and the
store is taken in its permissive mode, where such a comparison is not an error.) -/
def textoComoNumero (s : String) : Nat :=
  ((s.toList.dropWhile (fun ch => ch == ' ')).takeWhile Char.isDigit).foldl
    (fun n ch => 10 * n + (ch.toNat - 48)) 0

/-- Rows selected by `UPDATE clientes ... WHERE id = ?` when the parameter is the text
`cliente` read from `emprestimos.cliente` (lines 977 and 983-989). -/
def clienteSelecionado (cliente : String) (c : Cliente) : Bool :=
  c.id == textoComoNumero cliente

/-- Statement `UPDATE parcelas SET status = ?, data_pagamento = ? WHERE id = ?`. -/
def definirStatusParcela (db : DB) (idParcela : Nat) (st : StatusParcela)
    (pagamento : Option Instante) : DB :=
  { db with parcelas := db.parcelas.map (fun p =>
      if p.id = idParcela then { p with status := st, data_pagamento := pagamento } else p) }

/-- Lines 965-992 of the handler: the adjustment of the customer rollups, given the loan
row read back (`emprestimo[0]`). -/
def ajustarCliente (db : DB) (emp : Emprestimo) (idEmprestimo : Nat)
    (status statusAtualizadoParcela : StatusParcela) : DB :=
  let lucroParcela := (emp.valorpagar - emp.valoremprestado) / (emp.parcelas : ℚ)
  if status = StatusParcela.Pago then
    let restantesAtrasadas := (db.parcelas.filter (fun p => decide
      (p.id_emprestimo = idEmprestimo ∧ p.status = StatusParcela.Atrasada))).length
    let clientes1 :=
      if restantesAtrasadas = 0 then
        db.clientes.map (fun c =>
          if clienteSelecionado emp.cliente c then
            { c with emprestimos_atrasados := max (c.emprestimos_atrasados - 1) 0 }
          else c)
      else db.clientes
    let clientes2 := clientes1.map (fun c =>
      if clienteSelecionado emp.cliente c then
        { c with lucro_total := c.lucro_total + lucroParcela }
      else c)
    { db with clientes := clientes2 }
  else if statusAtualizadoParcela = StatusParcela.Pendente ∨
      statusAtualizadoParcela = StatusParcela.Atrasada then
    let clientes1 := db.clientes.map (fun c =>
      if clienteSelecionado emp.cliente c then
        { c with lucro_total := max (c.lucro_total - lucroParcela) 0 }
      else c)
    { db with clientes := clientes1 }
  else db

/-- First row of `SELECT ... FROM parcelas WHERE id = ?`, if any. -/
def parcelaExistente (db : DB) (idParcela : Nat) : Option Parcela :=
  (db.parcelas.filter (fun p => decide (p.id = idParcela))).head?

/-- Lines 908-935 of the handler: the write to the installment row and the value of
`statusAtualizadoParcela`; `none` is the 404 answer of the `Pendente` branch. -/
def alterarParcela (db : DB) (agora : Instante) (idParcela : Nat) (status : StatusParcela) :
    Option (DB × StatusParcela) :=
  if status = StatusParcela.Pago then
    some (definirStatusParcela db idParcela StatusParcela.Pago (some agora),
      StatusParcela.Pago)
  else
    match db.parcelas.filter (fun p => decide (p.id = idParcela)) with
    | [] => none
    | row :: _ =>
      let statusAtualizadoParcela :=
        if row.data_vencimento.antes agora.data then StatusParcela.Atrasada
        else StatusParcela.Pendente
      some (definirStatusParcela db idParcela statusAtualizadoParcela none,
        statusAtualizadoParcela)

/-- Lines 945-953 of the handler: the loan status derived from the rows of the loan. -/
def derivarStatos (db : DB) (idEmprestimo : Nat) : StatusEmprestimo :=
  let parcelasEmprestimo :=
    db.parcelas.filter (fun p => decide (p.id_emprestimo = idEmprestimo))
  if parcelasEmprestimo.any (fun p => decide (p.status = StatusParcela.Atrasada)) then
    StatusEmprestimo.EmAtraso
  else StatusEmprestimo.Pendente

/-- Handler `PATCH /parcelas/:idParcela/status` (setInstallmentStatus) run at instant
`agora` with requested `status`: the store afterwards and the answer, the pair
(`statusParcela`, `statusEmprestimo`) or the failure.  A requested status other than
`Pago` and `Pendente` is refused. -/
def patchParcelaStatus (db : DB) (agora : Instante) (idParcela : Nat) (status : StatusParcela) :
    DB × Except Erro (StatusParcela × StatusEmprestimo) :=
  if status ≠ StatusParcela.Pago ∧ status ≠ StatusParcela.Pendente then
    (db, .error .statusInvalido)
  else
    match alterarParcela db agora idParcela status with
    | none => (db, .error .parcelaNaoEncontrada)
    | some (db1, statusAtualizadoParcela) =>
      match db1.parcelas.filter (fun p => decide (p.id = idParcela)) with
      | [] => (db1, .error .parcelaNaoEncontrada)
      | parcela :: _ =>
        let idEmprestimo := parcela.id_emprestimo
        let novoStatusEmprestimo := derivarStatos db1 idEmprestimo
        let db2 := definirStatos db1 idEmprestimo novoStatusEmprestimo
        let db3 :=
          match db2.emprestimos.filter (fun e => decide (e.id = idEmprestimo)) with
          | [] => db2
          | emp :: _ => ajustarCliente db2 emp idEmprestimo status statusAtualizadoParcela
        (db3, .ok (statusAtualizadoParcela, novoStatusEmprestimo))

/-! ## `atualizarParcelasAtrasadas` (the overdue sweep) -/

/-- First statement of the sweep (lines 34-39): `Pendente` rows due before `hoje`
become `Atrasada`. -/
def marcarParcelasAtrasadas (hoje : Data) (db : DB) : DB :=
  { db with parcelas := db.parcelas.map (fun p =>
      if p.status = StatusParcela.Pendente ∧ p.data_vencimento.antes hoje then
        { p with status := StatusParcela.Atrasada }
      else p) }

/-- Second statement of the sweep (lines 41-46): loans joined with an `Atrasada` row
become `Em Atraso`. -/
def marcarEmprestimosEmAtraso (db : DB) : DB :=
  { db with emprestimos := db.emprestimos.map (fun e =>
      if db.parcelas.any (fun p => decide (e.id = p.id_emprestimo ∧
          p.status = StatusParcela.Atrasada)) then
        { e with statos := StatusEmprestimo.EmAtraso }
      else e) }

/-- Rows of the join `parcelas p2 JOIN emprestimos e2 ON p2.id_emprestimo = e2.id` with
`e2.cliente = nome AND p2.status = 'Atrasada'`. -/
def juncaoAtrasadas (db : DB) (nome : String) : List (Emprestimo × Parcela) :=
  (emprestimosDe db nome).flatMap (fun e =>
    (db.parcelas.filter (fun p => decide (p.id_emprestimo = e.id ∧
      p.status = StatusParcela.Atrasada))).map (fun p => (e, p)))

/-- Third statement of the sweep (lines 48-58): customers joined with a loan that has a
row in `parcelas` get `atrasos` recounted. -/
def recontarAtrasos (db : DB) : DB :=
  { db with clientes := db.clientes.map (fun c =>
      if db.emprestimos.any (fun e => decide (e.cliente = c.nome) &&
          db.parcelas.any (fun p => decide (p.id_emprestimo = e.id))) then
        { c with atrasos := (juncaoAtrasadas db c.nome).length }
      else c) }

/-- Fourth statement of the sweep (lines 60-69): customers joined with a loan get
`emprestimos_atrasados` recounted. -/
def recontarEmprestimosAtrasados (db : DB) : DB :=
  { db with clientes := db.clientes.map (fun c =>
      if db.emprestimos.any (fun e => decide (e.cliente = c.nome)) then
        { c with emprestimos_atrasados :=
            (((juncaoAtrasadas db c.nome).map (fun ep => ep.1.id)).dedup).length }
      else c) }

/-- The four statements of the sweep, run for the current date `hoje`. -/
def varrerAtrasos (hoje : Data) (db : DB) : DB :=
  recontarEmprestimosAtrasados (recontarAtrasos (marcarEmprestimosEmAtraso
    (marcarParcelasAtrasadas hoje db)))

/-- The server: the store and the module variable `atualizandoParcelas`. -/
structure Servidor where
  db : DB
  atualizandoParcelas : Bool
deriving DecidableEq

/-- Function `atualizarParcelasAtrasadas` called at instant `agora`, up to the moment
its promise settles: the flag is still set then (the timer clears it 500 ms later). -/
def atualizarParcelasAtrasadas (s : Servidor) (agora : Instante) : Servidor :=
  if s.atualizandoParcelas then s
  else
    let s1 : Servidor := { s with atualizandoParcelas := true }
    { s1 with db := varrerAtrasos agora.data s1.db }

/-- The timer callback `() => { atualizandoParcelas = false }` set in `finally`. -/
def liberarAtualizacao (s : Servidor) : Servidor :=
  { s with atualizandoParcelas := false }

/-- The states `atualizarParcelasAtrasadas` goes through when called at instant `agora`,
in order: the assignment `atualizandoParcelas = true` and then each of the four awaited
statements.  No state when the flag is found set (the function returns at once). -/
def tracoAtualizacao (s : Servidor) (agora : Instante) : List Servidor :=
  if s.atualizandoParcelas then []
  else
    let s1 : Servidor := { s with atualizandoParcelas := true }
    let s2 : Servidor := { s1 with db := marcarParcelasAtrasadas agora.data s1.db }
    let s3 : Servidor := { s2 with db := marcarEmprestimosEmAtraso s2.db }
    let s4 : Servidor := { s3 with db := recontarAtrasos s3.db }
    let s5 : Servidor := { s4 with db := recontarEmprestimosAtrasados s4.db }
    [s1, s2, s3, s4, s5]

/-! ## `POST /clientes` (createCustomer) -/

/-- Modelled from the spec: the column defaults of table `clientes`, whose schema is not
part of the sources.  A customer row is created with every rollup at zero
("Customer aggregates are created at zero on customer creation"). -/
def novoCliente (id : Nat) (nome obs : String) : Cliente :=
  { id := id, nome := nome, obs := obs, total_emprestimos_feitos := 0,
    emprestimos_pendentes := 0, emprestimos_pagos := 0, emprestimos_atrasados := 0,
    total_valor_emprestado := 0, lucro_total := 0, atrasos := 0,
    maior_valor_emprestado := 0 }

/-- Answer of `POST /clientes`: the row read back and the figures the handler computes
from the loans of that name (lines 151-157). -/
structure RespostaCliente where
  cliente : Option Cliente
  total_emprestimos_feitos : Nat
  emprestimos_pendentes : Nat
  emprestimos_pagos : Nat
  total_valor_emprestado : ℚ
  lucro_total : ℚ
  maior_valor_emprestado : ℚ
  atrasos : Nat
deriving DecidableEq

/-- Handler `POST /clientes` (createCustomer): the store afterwards and the answer.  The
filters of lines 152, 153 and 157 compare `statos` with the lower-case texts "pendente",
"pago" and "atrasado", which no stored status equals. -/
def postClientes (db : DB) (nome obs : String) : DB × Except Erro RespostaCliente :=
  match db.clientes.filter (fun x => decide (x.nome = nome)) with
  | _ :: _ => (db, .error .clienteJaExiste)
  | [] =>
    let insertId := db.proxIdCliente
    let db1 : DB := { db with
      clientes := db.clientes ++ [novoCliente insertId nome obs]
      proxIdCliente := insertId + 1 }
    let clienteBase := (db1.clientes.filter (fun x => decide (x.id = insertId))).head?
    let emprestimos := emprestimosDe db1 nome
    (db1, .ok {
      cliente := clienteBase
      total_emprestimos_feitos := emprestimos.length
      emprestimos_pendentes := 0
      emprestimos_pagos := 0
      total_valor_emprestado := (emprestimos.map (fun e => e.valoremprestado)).sum
      lucro_total := (emprestimos.map (fun e => e.valorpagar - e.valoremprestado)).sum
      maior_valor_emprestado := (emprestimos.map (fun e => e.valoremprestado)).foldl max 0
      atrasos := 0 })

/-! ## `GET /clientes/stats/:id` (getCustomerAggregates) -/

/-- Answer of `GET /clientes/stats/:id`: identity and the seven figures the query
computes. -/
structure Estatisticas where
  id : Nat
  nome : String
  obs : String
  total_emprestimos_feitos : Int
  emprestimos_pendentes : Int
  emprestimos_pagos : Int
  total_valor_emprestado : ℚ
  lucro_total : ℚ
  maior_valor_emprestado : ℚ
  emprestimos_atrasados : Int
deriving DecidableEq

/-- Handler `GET /clientes/stats/:id` (getCustomerAggregates) run at instant `agora`:
the first row of the query of lines 665-710, or the 404 answer. -/
def getClienteStats (db : DB) (agora : Instante) (clienteId : Nat) : Except Erro Estatisticas :=
  match db.clientes.filter (fun c => decide (c.id = clienteId)) with
  | [] => .error .clienteNaoEncontrado
  | c :: _ =>
    let es := emprestimosDe db c.nome
    .ok {
      id := c.id
      nome := c.nome
      obs := c.obs
      total_emprestimos_feitos := es.length
      emprestimos_pendentes :=
        (es.filter (fun e => decide (e.statos = StatusEmprestimo.Pendente))).length
      emprestimos_pagos :=
        (es.filter (fun e => decide (e.statos = StatusEmprestimo.Pago))).length
      total_valor_emprestado := (es.map (fun e => e.valoremprestado)).sum
      lucro_total :=
        (es.map (fun e => ((e.valorpagar - e.valoremprestado) / (e.parcelas : ℚ)) *
          (parcelasPagasDe db e.id : ℚ))).sum
      maior_valor_emprestado := maxOuZero (es.map (fun e => e.valoremprestado))
      emprestimos_atrasados :=
        (((juncaoAtrasadasAgora db agora c.nome).map (fun ep => ep.1.id)).dedup).length }

/-! ## `DELETE /emprestimos/:id` (deleteLoan) -/

/-- Lines 1034-1071 of the handler: the object `novosValores`, as a customer row whose
rollup fields are the values to write.  `cliente` is the customer row read by name,
`parcelas` the rows of the loan.  The quotient by `emprestimo.parcelas` is the exact one;
for a count of 0 JavaScript yields an infinity or NaN, which this model does not
represent, so the statements about it assume a positive count. -/
def novosValores (db : DB) (id : Nat) (emprestimo : Emprestimo) (cliente : Cliente)
    (parcelas : List Parcela) : Cliente :=
  let parcelasPagas :=
    (parcelas.filter (fun p => decide (p.status = StatusParcela.Pago))).length
  let lucroPorParcela :=
    (emprestimo.valorpagar - emprestimo.valoremprestado) / (emprestimo.parcelas : ℚ)
  let lucroGerado := lucroPorParcela * (parcelasPagas : ℚ)
  let v0 : Cliente := { cliente with
    total_emprestimos_feitos := max (cliente.total_emprestimos_feitos - 1) 0
    total_valor_emprestado := max (cliente.total_valor_emprestado - emprestimo.valoremprestado) 0
    lucro_total := max (cliente.lucro_total - lucroGerado) 0 }
  let v1 : Cliente :=
    if emprestimo.statos = StatusEmprestimo.Pendente ∨
        emprestimo.statos = StatusEmprestimo.EmAtraso then
      { v0 with emprestimos_pendentes := max (cliente.emprestimos_pendentes - 1) 0 }
    else v0
  let v2 : Cliente :=
    if emprestimo.statos = StatusEmprestimo.Pago then
      { v1 with emprestimos_pagos := max (cliente.emprestimos_pagos - 1) 0 }
    else v1
  let parcelasAtrasadas :=
    (parcelas.filter (fun p => decide (p.status = StatusParcela.Atrasada))).length
  let v3 : Cliente :=
    if parcelasAtrasadas > 0 then
      { v2 with
        atrasos := max (cliente.atrasos - (parcelasAtrasadas : Int)) 0
        emprestimos_atrasados := max (cliente.emprestimos_atrasados - 1) 0 }
    else v2
  if emprestimo.valoremprestado = cliente.maior_valor_emprestado then
    { v3 with maior_valor_emprestado :=
        maxOuZero ((db.emprestimos.filter (fun e => decide
          (e.cliente = emprestimo.cliente ∧ e.id ≠ id))).map (fun e => e.valoremprestado)) }
  else v3

/-- Statement `UPDATE clientes SET total_emprestimos_feitos = ?, ... WHERE id = ?` of
lines 1073-1095: the eight rollup columns of the rows with that id are overwritten. -/
def gravarRollups (v : Cliente) (idCliente : Nat) (c : Cliente) : Cliente :=
  if c.id = idCliente then
    { c with
      total_emprestimos_feitos := v.total_emprestimos_feitos
      emprestimos_pendentes := v.emprestimos_pendentes
      emprestimos_pagos := v.emprestimos_pagos
      emprestimos_atrasados := v.emprestimos_atrasados
      total_valor_emprestado := v.total_valor_emprestado
      lucro_total := v.lucro_total
      atrasos := v.atrasos
      maior_valor_emprestado := v.maior_valor_emprestado }
  else c

/-- Handler `DELETE /emprestimos/:id` (deleteLoan): the store afterwards and the answer. -/
def deleteEmprestimo (db : DB) (id : Nat) : DB × Except Erro Unit :=
  match db.emprestimos.filter (fun e => decide (e.id = id)) with
  | [] => (db, .error .emprestimoNaoEncontrado)
  | emprestimo :: _ =>
    match db.clientes.filter (fun c => decide (c.nome = emprestimo.cliente)) with
    | [] => (db, .error .clienteNaoEncontrado)
    | cliente :: _ =>
      let parcelas := db.parcelas.filter (fun p => decide (p.id_emprestimo = id))
      let v := novosValores db id emprestimo cliente parcelas
      let db1 : DB := { db with clientes := db.clientes.map (gravarRollups v cliente.id) }
      let db2 : DB := { db1 with
        parcelas := db1.parcelas.filter (fun p => decide (p.id_emprestimo ≠ id)) }
      let db3 : DB := { db2 with
        emprestimos := db2.emprestimos.filter (fun e => decide (e.id ≠ id)) }
      (db3, .ok ())

/-! ## Histories of requests -/

/-- A request to one of the seven operations that write the ledger. -/
inductive Pedido where
  | criarCliente (nome obs : String)
  | criarEmprestimo (c : CorpoEmprestimo)
  | editarEmprestimo (id : Nat) (c : CorpoEmprestimo)
  | apagarEmprestimo (id : Nat)
  | alterarStatusParcela (idParcela : Nat) (status : StatusParcela)
  | marcarPago (id : Nat)
  | varrer
deriving DecidableEq

/-- The store once request `p`, received at instant `agora`, has been answered (a
request answered with a failure leaves the store as it was).  The sweep is called with
its flag clear. -/
def atender (db : DB) (agora : Instante) : Pedido → DB
  | .criarCliente nome obs => (postClientes db nome obs).1
  | .criarEmprestimo c => (postEmprestimos db agora c).1
  | .editarEmprestimo id c => (putEmprestimo db id c).1
  | .apagarEmprestimo id => (deleteEmprestimo db id).1
  | .alterarStatusParcela idParcela status => (patchParcelaStatus db agora idParcela status).1
  | .marcarPago id => (patchEmprestimoPago db id).1
  | .varrer => (atualizarParcelasAtrasadas ⟨db, false⟩ agora).db

/-- The store after the requests of a history have been answered one after the other. -/
def executar (db : DB) : List (Instante × Pedido) → DB
  | [] => db
  | x :: r => executar (atender db x.1 x.2) r

/-- The empty ledger: no rows, every auto-increment counter at 1. -/
def dbVazio : DB :=
  { clientes := [], emprestimos := [], parcelas := [], proxIdEmprestimo := 1,
    proxIdParcela := 1, proxIdCliente := 1 }

/-! ## Reference descriptions and store invariants -/

/-- A date of the calendar: month 1..12 and a day that the month has. -/
def Data.valida (d : Data) : Prop :=
  1 ≤ d.mes ∧ d.mes ≤ 12 ∧ 1 ≤ d.dia ∧ d.dia ≤ diasNoMes d.ano (d.mes - 1)

instance (d : Data) : Decidable d.valida := by
  unfold Data.valida; infer_instance

/-- Reference due-date rule: the date `i` calendar months after `d`.  The month advances
by `i` (carrying into the year) and the day of the month is kept; a day the target month
does not have rolls over into the month that follows. -/
def avancarMeses (d : Data) (i : Nat) : Data :=
  let m := d.mes - 1 + i
  let ano := d.ano + m / 12
  let mes0 := m % 12
  if d.dia ≤ diasNoMes ano mes0 then { ano := ano, mes := mes0 + 1, dia := d.dia }
  else if mes0 = 11 then { ano := ano + 1, mes := 1, dia := d.dia - diasNoMes ano mes0 }
  else { ano := ano, mes := mes0 + 2, dia := d.dia - diasNoMes ano mes0 }

/-- Reference schedule of a loan: for each `i` in `1..n` the sequence number `i`, the
due date `i` calendar months after the origination date and the amount `R / n`, the exact
quotient, rounded to cents (half away from zero). -/
def cronogramaReferencia (dataemprestimo : Data) (R : ℚ) (n : Nat) : List (Nat × Data × ℚ) :=
  (List.range' 1 n).map (fun i => (i, avancarMeses dataemprestimo i, toFixed2 (R / (n : ℚ))))

/-- The columns of an installment row the reference schedule speaks about. -/
def Parcela.resumo (p : Parcela) : Nat × Data × ℚ :=
  (p.numero_parcela, p.data_vencimento, p.valor_parcela)

/-- Key discipline of table `parcelas`: `id` is a primary key handed out by the
auto-increment counter. -/
def DB.chavesParcelas (db : DB) : Prop :=
  (db.parcelas.map (fun p => p.id)).Nodup ∧ ∀ p ∈ db.parcelas, p.id < db.proxIdParcela

instance (db : DB) : Decidable db.chavesParcelas := by
  unfold DB.chavesParcelas; infer_instance

/-- The installments of loan `idEmprestimo` carry the sequence numbers `1..n`, each once. -/
def DB.numeradas (db : DB) (idEmprestimo n : Nat) : Prop :=
  ((db.parcelas.filter (fun p => decide (p.id_emprestimo = idEmprestimo))).map
    (fun p => p.numero_parcela)).Perm (List.range' 1 n)

instance (db : DB) (idEmprestimo n : Nat) : Decidable (db.numeradas idEmprestimo n) := by
  unfold DB.numeradas; infer_instance

/-- The rows `POST /emprestimos` appended to table `parcelas`. -/
def parcelasCriadas (db : DB) (agora : Instante) (c : CorpoEmprestimo) : List Parcela :=
  (postEmprestimos db agora c).1.parcelas.drop db.parcelas.length

/-- Loan `idEmprestimo` has at least one installment row with status `Atrasada`. -/
def DB.temAtrasada (db : DB) (idEmprestimo : Nat) : Prop :=
  ∃ q ∈ db.parcelas, q.id_emprestimo = idEmprestimo ∧ q.status = StatusParcela.Atrasada

instance (db : DB) (idEmprestimo : Nat) : Decidable (db.temAtrasada idEmprestimo) := by
  unfold DB.temAtrasada; infer_instance

/-- Reference derivation of the loan status from the installments: `Em Atraso` when at
least one installment is `Atrasada`, `Pendente` otherwise. -/
def statosDerivado (db : DB) (idEmprestimo : Nat) : StatusEmprestimo :=
  if db.temAtrasada idEmprestimo then StatusEmprestimo.EmAtraso else StatusEmprestimo.Pendente

/-- The eight rollups of a customer. -/
structure Agregados where
  total_emprestimos_feitos : Int
  emprestimos_pendentes : Int
  emprestimos_pagos : Int
  emprestimos_atrasados : Int
  total_valor_emprestado : ℚ
  lucro_total : ℚ
  atrasos : Int
  maior_valor_emprestado : ℚ
deriving DecidableEq

/-- The rollups stored in a customer row. -/
def Cliente.agregados (c : Cliente) : Agregados :=
  { total_emprestimos_feitos := c.total_emprestimos_feitos
    emprestimos_pendentes := c.emprestimos_pendentes
    emprestimos_pagos := c.emprestimos_pagos
    emprestimos_atrasados := c.emprestimos_atrasados
    total_valor_emprestado := c.total_valor_emprestado
    lucro_total := c.lucro_total
    atrasos := c.atrasos
    maior_valor_emprestado := c.maior_valor_emprestado }

/-- Reference count: the `Atrasada` installments on the loans of customer `nome`. -/
def atrasosDe (db : DB) (nome : String) : Nat :=
  (db.parcelas.filter (fun p => decide (p.status = StatusParcela.Atrasada ∧
    ∃ e ∈ emprestimosDe db nome, e.id = p.id_emprestimo))).length

/-- Reference count: the distinct loans of customer `nome` that have at least one
`Atrasada` installment. -/
def emprestimosAtrasadosDe (db : DB) (nome : String) : Nat :=
  ((((emprestimosDe db nome).filter (fun e => decide (db.temAtrasada e.id))).map
    (fun e => e.id)).dedup).length

/-- Reference full aggregation over the loans and installments of customer `nome`:
counts by loan status, sum of principals, profit as the sum over the loans of
`(repayable - principal) / count` times the number of `Pago` installments of the loan,
largest principal (0 without loans), number of distinct loans with an `Atrasada`
installment, number of `Atrasada` installments. -/
def agregacao (db : DB) (nome : String) : Agregados :=
  let es := emprestimosDe db nome
  { total_emprestimos_feitos := es.length
    emprestimos_pendentes :=
      (es.filter (fun e => decide (e.statos = StatusEmprestimo.Pendente))).length
    emprestimos_pagos :=
      (es.filter (fun e => decide (e.statos = StatusEmprestimo.Pago))).length
    emprestimos_atrasados := emprestimosAtrasadosDe db nome
    total_valor_emprestado := (es.map (fun e => e.valoremprestado)).sum
    lucro_total :=
      (es.map (fun e => ((e.valorpagar - e.valoremprestado) / (e.parcelas : ℚ)) *
        (parcelasPagasDe db e.id : ℚ))).sum
    atrasos := atrasosDe db nome
    maior_valor_emprestado := maxOuZero (es.map (fun e => e.valoremprestado)) }

/-- Key discipline of table `emprestimos`: `id` is a primary key handed out by the
auto-increment counter. -/
def DB.chavesEmprestimos (db : DB) : Prop :=
  (db.emprestimos.map (fun e => e.id)).Nodup ∧
    ∀ e ∈ db.emprestimos, e.id < db.proxIdEmprestimo

instance (db : DB) : Decidable db.chavesEmprestimos := by
  unfold DB.chavesEmprestimos; infer_instance

/-- Customer `nome` has at least one loan. -/
def DB.temEmprestimo (db : DB) (nome : String) : Prop :=
  ∃ e ∈ db.emprestimos, e.cliente = nome

instance (db : DB) (nome : String) : Decidable (db.temEmprestimo nome) := by
  unfold DB.temEmprestimo; infer_instance

/-- Customer `nome` has at least one loan with at least one installment row. -/
def DB.temParcela (db : DB) (nome : String) : Prop :=
  ∃ e ∈ db.emprestimos, e.cliente = nome ∧ ∃ p ∈ db.parcelas, p.id_emprestimo = e.id

instance (db : DB) (nome : String) : Decidable (db.temParcela nome) := by
  unfold DB.temParcela; infer_instance

/-- First row of `SELECT * FROM clientes WHERE nome = ?`, if any. -/
def clienteDoNome (db : DB) (nome : String) : Option Cliente :=
  (db.clientes.filter (fun c => decide (c.nome = nome))).head?

/-- None of the eight rollups is negative. -/
def Agregados.naoNegativo (a : Agregados) : Prop :=
  0 ≤ a.total_emprestimos_feitos ∧ 0 ≤ a.emprestimos_pendentes ∧ 0 ≤ a.emprestimos_pagos ∧
  0 ≤ a.emprestimos_atrasados ∧ 0 ≤ a.total_valor_emprestado ∧ 0 ≤ a.lucro_total ∧
  0 ≤ a.atrasos ∧ 0 ≤ a.maior_valor_emprestado

/-- Every `Atrasada` installment is due before the instant `agora` (a status becomes
`Atrasada` only for a due date that has passed). -/
def DB.atrasadasVencidas (db : DB) (agora : Instante) : Prop :=
  ∀ p ∈ db.parcelas, p.status = StatusParcela.Atrasada →
    p.data_vencimento.meiaNoite.antes agora

instance (db : DB) (agora : Instante) : Decidable (db.atrasadasVencidas agora) := by
  unfold DB.atrasadasVencidas; infer_instance

/-- The loan row `POST /emprestimos` leaves in the store for request `c`, with status
`st`. -/
def novoEmprestimo (db : DB) (c : CorpoEmprestimo) (st : StatusEmprestimo) : Emprestimo :=
  { id := db.proxIdEmprestimo, cliente := c.cliente, valoremprestado := c.valoremprestado,
    valorpagar := c.valorpagar, parcelas := c.parcelas, dataemprestimo := c.dataemprestimo,
    obs := c.obs, statos := st }

/-- Reference store "as if loan `id` had never existed": the loans with that id and the
installments that point to it are left out. -/
def DB.semEmprestimo (db : DB) (id : Nat) : DB :=
  { db with
    parcelas := db.parcelas.filter (fun p => decide (p.id_emprestimo ≠ id))
    emprestimos := db.emprestimos.filter (fun e => decide (e.id ≠ id)) }

/-- The stored row of a customer read as an answer of `GET /clientes/stats/:id`: identity
and the seven stored rollups that the answer reports. -/
def Cliente.estatisticas (c : Cliente) : Estatisticas :=
  { id := c.id, nome := c.nome, obs := c.obs,
    total_emprestimos_feitos := c.total_emprestimos_feitos
    emprestimos_pendentes := c.emprestimos_pendentes
    emprestimos_pagos := c.emprestimos_pagos
    total_valor_emprestado := c.total_valor_emprestado
    lucro_total := c.lucro_total
    maior_valor_emprestado := c.maior_valor_emprestado
    emprestimos_atrasados := c.emprestimos_atrasados }

/-- Customer-aggregate consistency at instant `agora`: for every customer row,
`GET /clientes/stats/:id` answers with exactly the stored values. -/
def DB.consistente (db : DB) (agora : Instante) : Prop :=
  ∀ c ∈ db.clientes, (getClienteStats db agora c.id).toOption = some c.estatisticas

instance (db : DB) (agora : Instante) : Decidable (db.consistente agora) := by
  unfold DB.consistente; infer_instance

/-- The request is a createCustomer or a createLoan. -/
def Pedido.criacao : Pedido → Bool
  | .criarCliente _ _ => true
  | .criarEmprestimo _ => true
  | _ => false

/-- Instant `a` is not after instant `b`. -/
def Instante.ateOuIgual (a b : Instante) : Prop := ¬ b.antes a

instance (a b : Instante) : Decidable (a.ateOuIgual b) := by
  unfold Instante.ateOuIgual; infer_instance

/-- The requests of the history were received in the order of the list, and the instant
`fim` is not before any of them. -/
def cronologica (h : List (Instante × Pedido)) (fim : Instante) : Prop :=
  (h.map (fun x => x.1) ++ [fim]).Pairwise Instante.ateOuIgual

instance (h : List (Instante × Pedido)) (fim : Instante) : Decidable (cronologica h fim) := by
  unfold cronologica; infer_instance

/-- Integrity of the store: customer ids are unique and counter-issued, customer names
are unique, loan ids are unique and counter-issued, every loan names an existing
customer, and every customer row stores the full aggregation over its loans and
installments. -/
def DB.integro (db : DB) : Prop :=
  (db.clientes.map (fun c => c.id)).Nodup ∧
  (∀ c ∈ db.clientes, c.id < db.proxIdCliente) ∧
  (db.clientes.map (fun c => c.nome)).Nodup ∧
  db.chavesEmprestimos ∧
  (∀ e ∈ db.emprestimos, ∃ c ∈ db.clientes, c.nome = e.cliente) ∧
  (∀ c ∈ db.clientes, c.agregados = agregacao db c.nome)

instance (db : DB) : Decidable db.integro := by
  unfold DB.integro; infer_instance

/-- Row-level reading of the first statement of the sweep. -/
def parcelaVarrida (hoje : Data) (p : Parcela) : Parcela :=
  if p.status = StatusParcela.Pendente ∧ p.data_vencimento.antes hoje then
    { p with status := StatusParcela.Atrasada }
  else p

/-- Row-level reading of the second statement of the sweep, over the rows `ps` of
`parcelas`. -/
def emprestimoVarrido (ps : List Parcela) (e : Emprestimo) : Emprestimo :=
  if ps.any (fun p => decide (e.id = p.id_emprestimo ∧ p.status = StatusParcela.Atrasada)) then
    { e with statos := StatusEmprestimo.EmAtraso }
  else e

/-- Row-level reading of the third and fourth statements of the sweep, over the loans and
installments of `db`. -/
def clienteVarrido (db : DB) (c : Cliente) : Cliente :=
  let c3 : Cliente :=
    if db.emprestimos.any (fun e => decide (e.cliente = c.nome) &&
        db.parcelas.any (fun p => decide (p.id_emprestimo = e.id))) then
      { c with atrasos := (juncaoAtrasadas db c.nome).length }
    else c
  if db.emprestimos.any (fun e => decide (e.cliente = c3.nome)) then
    { c3 with emprestimos_atrasados :=
        (((juncaoAtrasadas db c3.nome).map (fun ep => ep.1.id)).dedup).length }
  else c3

/-! ## Example ledger -/

/-- A customer row with all rollups at zero. -/
def clienteZerado (id : Nat) (nome : String) : Cliente :=
  { id := id, nome := nome, obs := "", total_emprestimos_feitos := 0,
    emprestimos_pendentes := 0, emprestimos_pagos := 0, emprestimos_atrasados := 0,
    total_valor_emprestado := 0, lucro_total := 0, atrasos := 0,
    maior_valor_emprestado := 0 }

/-- A store with the single customer "Ana" and no loans. -/
def dbAna : DB :=
  { clientes := [clienteZerado 1 "Ana"], emprestimos := [], parcelas := [],
    proxIdEmprestimo := 1, proxIdParcela := 1 }

/-- Request of the example of the specification: principal 1000, repayable 1200, four
installments, origination 2024-01-01. -/
def corpoAna : CorpoEmprestimo :=
  { cliente := "Ana", valoremprestado := 1000, valorpagar := 1200, parcelas := 4,
    dataemprestimo := ⟨2024, 1, 1⟩, obs := "" }

/-- Noon of 2024-01-01. -/
def meioDia0101 : Instante := { data := ⟨2024, 1, 1⟩, ms := 43200000 }

/-- Noon of 2024-03-15. -/
def meioDia1503 : Instante := { data := ⟨2024, 3, 15⟩, ms := 43200000 }

/-- First installment of the example loan when it is created on 2024-03-15: due on
2024-02-01, hence already overdue. -/
def parcelaAna1 : Parcela :=
  { id := 1, id_emprestimo := 1, numero_parcela := 1, valor_parcela := 300,
    data_vencimento := ⟨2024, 2, 1⟩, data_pagamento := none,
    status := StatusParcela.Atrasada }

/-- A row of loan 1 with sequence number `n`, amount 200.00 and due on the first day of
month `n + 1` of 2024. -/
def parcelaSeis (n : Nat) (st : StatusParcela) : Parcela :=
  { id := n, id_emprestimo := 1, numero_parcela := n, valor_parcela := 200,
    data_vencimento := ⟨2024, n + 1, 1⟩, data_pagamento := none, status := st }

/-- The loan of `dbSeis`: principal 1000, repayable 1200, six installments. -/
def emprestimoSeis : Emprestimo :=
  { id := 1, cliente := "Ana", valoremprestado := 1000, valorpagar := 1200, parcelas := 6,
    dataemprestimo := ⟨2024, 1, 1⟩, obs := "", statos := StatusEmprestimo.Pendente }

/-- A store with customer "Ana" and one loan of six installments, of which the first and
the fifth are paid. -/
def dbSeis : DB :=
  { clientes := [clienteZerado 1 "Ana"],
    emprestimos := [emprestimoSeis],
    parcelas := [parcelaSeis 1 StatusParcela.Pago, parcelaSeis 2 StatusParcela.Pendente,
      parcelaSeis 3 StatusParcela.Pendente, parcelaSeis 4 StatusParcela.Pendente,
      parcelaSeis 5 StatusParcela.Pago, parcelaSeis 6 StatusParcela.Pendente],
    proxIdEmprestimo := 2, proxIdParcela := 7 }

/-- The example request with the count raised to eight installments. -/
def corpoOito : CorpoEmprestimo := { corpoAna with parcelas := 8 }

/-- A row of loan 1 with sequence number `n`, amount 300.00 and due on the first day of
month `n + 1` of 2024. -/
def parcelaQuatro (n : Nat) (st : StatusParcela) : Parcela :=
  { id := n, id_emprestimo := 1, numero_parcela := n, valor_parcela := 300,
    data_vencimento := ⟨2024, n + 1, 1⟩, data_pagamento := none, status := st }

/-- The loan of the example of the specification with a given status. -/
def emprestimoQuatro (st : StatusEmprestimo) : Emprestimo :=
  { id := 1, cliente := "Ana", valoremprestado := 1000, valorpagar := 1200, parcelas := 4,
    dataemprestimo := ⟨2024, 1, 1⟩, obs := "", statos := st }

/-- The example of the specification after creation: four pending installments. -/
def dbQuatro : DB :=
  { clientes := [clienteZerado 1 "Ana"],
    emprestimos := [emprestimoQuatro StatusEmprestimo.Pendente],
    parcelas := [parcelaQuatro 1 StatusParcela.Pendente, parcelaQuatro 2 StatusParcela.Pendente,
      parcelaQuatro 3 StatusParcela.Pendente, parcelaQuatro 4 StatusParcela.Pendente],
    proxIdEmprestimo := 2, proxIdParcela := 5 }

/-- The example loan once its four installments are paid and it is marked `Pago`. -/
def dbQuitado : DB :=
  { clientes := [clienteZerado 1 "Ana"],
    emprestimos := [emprestimoQuatro StatusEmprestimo.Pago],
    parcelas := [parcelaQuatro 1 StatusParcela.Pago, parcelaQuatro 2 StatusParcela.Pago,
      parcelaQuatro 3 StatusParcela.Pago, parcelaQuatro 4 StatusParcela.Pago],
    proxIdEmprestimo := 2, proxIdParcela := 5 }

/-- The example request with the count raised to five installments. -/
def corpoCinco : CorpoEmprestimo := { corpoAna with parcelas := 5 }

/-- The paid-off example loan after `PUT /emprestimos/1` raised its count to five: a
fifth installment, pending and due on 2024-06-01, has been appended. -/
def dbQuitadoCinco : DB := (putEmprestimo dbQuitado 1 corpoCinco).1

/-- Noon of 2024-07-15. -/
def meioDia1507 : Instante := { data := ⟨2024, 7, 15⟩, ms := 43200000 }

/-- Noon of 2024-06-01. -/
def meioDia0106 : Instante := { data := ⟨2024, 6, 1⟩, ms := 43200000 }

/-- The example store after this history: a sweep on 2024-06-01 (the four installments
become `Atrasada`), the four installments paid one by one, the loan deleted. -/
def dbAposQuitarEApagar : DB :=
  let db1 := (atualizarParcelasAtrasadas ⟨dbQuatro, false⟩ meioDia0106).db
  let db2 := (patchParcelaStatus db1 meioDia0106 1 StatusParcela.Pago).1
  let db3 := (patchParcelaStatus db2 meioDia0106 2 StatusParcela.Pago).1
  let db4 := (patchParcelaStatus db3 meioDia0106 3 StatusParcela.Pago).1
  let db5 := (patchParcelaStatus db4 meioDia0106 4 StatusParcela.Pago).1
  (deleteEmprestimo db5 1).1

/-- Noon of 2024-02-15. -/
def meioDia1502 : Instante := { data := ⟨2024, 2, 15⟩, ms := 43200000 }

/-- The example store after a sweep on 2024-02-15: installment 1 is `Atrasada`, the loan
is `Em Atraso` and the counters of "Ana" are 1 overdue installment and 1 overdue loan. -/
def dbUmaAtrasada : DB := (atualizarParcelasAtrasadas ⟨dbQuatro, false⟩ meioDia1502).db

/-- The example store with installment 1 paid and the profit share of 50.00 booked to
"Ana". -/
def dbUmaPaga : DB :=
  { dbQuatro with
    clientes := [{ clienteZerado 1 "Ana" with lucro_total := 50 }]
    parcelas := [{ parcelaQuatro 1 StatusParcela.Pago with data_pagamento := some meioDia0101 },
      parcelaQuatro 2 StatusParcela.Pendente, parcelaQuatro 3 StatusParcela.Pendente,
      parcelaQuatro 4 StatusParcela.Pendente] }

/-- A second loan of "Ana": principal 500, repayable 600, two installments, origination
2024-02-15. -/
def emprestimoDois : Emprestimo :=
  { id := 2, cliente := "Ana", valoremprestado := 500, valorpagar := 600, parcelas := 2,
    dataemprestimo := ⟨2024, 2, 15⟩, obs := "", statos := StatusEmprestimo.Pendente }

/-- Installment `n` of the second loan: amount 300.00, due on the 15th of month `n + 2` of
2024, pending. -/
def parcelaDois (n : Nat) : Parcela :=
  { id := n + 4, id_emprestimo := 2, numero_parcela := n, valor_parcela := 300,
    data_vencimento := ⟨2024, n + 2, 15⟩, data_pagamento := none,
    status := StatusParcela.Pendente }

/-- The ledger of "Ana" on 2024-02-15 with two loans: the example loan, `Em Atraso` with
its first installment `Atrasada`, and a second loan created that day.  The stored rollups
are the ones the recompute of `POST /emprestimos` wrote: 2 loans, 1 pending, 0 paid, 1
overdue loan, 1500 lent, profit 0, 1 overdue installment, largest amount 1000. -/
def dbDuas : DB :=
  { clientes := [{ clienteZerado 1 "Ana" with
      total_emprestimos_feitos := 2, emprestimos_pendentes := 1, emprestimos_atrasados := 1,
      total_valor_emprestado := 1500, atrasos := 1, maior_valor_emprestado := 1000 }],
    emprestimos := [emprestimoQuatro StatusEmprestimo.EmAtraso, emprestimoDois],
    parcelas := [parcelaQuatro 1 StatusParcela.Atrasada, parcelaQuatro 2 StatusParcela.Pendente,
      parcelaQuatro 3 StatusParcela.Pendente, parcelaQuatro 4 StatusParcela.Pendente,
      parcelaDois 1, parcelaDois 2],
    proxIdEmprestimo := 3, proxIdParcela := 7, proxIdCliente := 2 }

/-- A ledger in which "Ana" has a loan booked with principal -100 and repayable -200 (one
installment, paid: profit -100) and a loan of 1000 repayable 1200 (one installment, paid:
profit 200); the stored rollups are the full aggregation: 900 lent, profit 100. -/
def dbPrejuizo : DB :=
  { clientes := [{ clienteZerado 1 "Ana" with
      total_emprestimos_feitos := 2, emprestimos_pendentes := 2,
      total_valor_emprestado := 900, lucro_total := 100, maior_valor_emprestado := 1000 }],
    emprestimos := [
      { id := 1, cliente := "Ana", valoremprestado := -100, valorpagar := -200, parcelas := 1,
        dataemprestimo := ⟨2024, 1, 1⟩, obs := "", statos := StatusEmprestimo.Pendente },
      { id := 2, cliente := "Ana", valoremprestado := 1000, valorpagar := 1200, parcelas := 1,
        dataemprestimo := ⟨2024, 1, 1⟩, obs := "", statos := StatusEmprestimo.Pendente }],
    parcelas := [
      { id := 1, id_emprestimo := 1, numero_parcela := 1, valor_parcela := -200,
        data_vencimento := ⟨2024, 2, 1⟩, data_pagamento := some meioDia0101,
        status := StatusParcela.Pago },
      { id := 2, id_emprestimo := 2, numero_parcela := 1, valor_parcela := 1200,
        data_vencimento := ⟨2024, 2, 1⟩, data_pagamento := some meioDia0101,
        status := StatusParcela.Pago }],
    proxIdEmprestimo := 3, proxIdParcela := 3, proxIdCliente := 2 }

/-- The request of a second loan for "Ana": principal 500, repayable 600, two
installments, origination 2024-02-15. -/
def corpoDois : CorpoEmprestimo :=
  { cliente := "Ana", valoremprestado := 500, valorpagar := 600, parcelas := 2,
    dataemprestimo := ⟨2024, 2, 15⟩, obs := "" }

/-- The request of a loan without profit: principal and repayable 1000, one installment,
origination 2024-01-01. -/
def corpoSemLucro : CorpoEmprestimo :=
  { cliente := "Ana", valoremprestado := 1000, valorpagar := 1000, parcelas := 1,
    dataemprestimo := ⟨2024, 1, 1⟩, obs := "" }

/-- The example request with the principal raised to 2000. -/
def corpoDobro : CorpoEmprestimo := { corpoAna with valoremprestado := 2000 }

/-- History: customer "Ana" and the example loan are created on 2024-01-01. -/
def historiaCriacao : List (Instante × Pedido) :=
  [(meioDia0101, .criarCliente "Ana" ""), (meioDia0101, .criarEmprestimo corpoAna)]

/-- History: customer "Ana" and the example loan are created on 2024-02-15, when the
first installment (due 2024-02-01) is already overdue, so that the loan is created
`Em Atraso`. -/
def historiaTardia : List (Instante × Pedido) :=
  [(meioDia1502, .criarCliente "Ana" ""), (meioDia1502, .criarEmprestimo corpoAna)]

/-- History: customer "Ana" and a loan without profit are created on 2024-01-01 and the
single installment is paid that day. -/
def historiaQuitada : List (Instante × Pedido) :=
  [(meioDia0101, .criarCliente "Ana" ""), (meioDia0101, .criarEmprestimo corpoSemLucro),
   (meioDia0101, .alterarStatusParcela 1 StatusParcela.Pago)]

/-- History: after the late creation a second loan is created on the same day. -/
def historiaDuas : List (Instante × Pedido) :=
  historiaTardia ++ [(meioDia1502, .criarEmprestimo corpoDois)]

/-- The example request with origination 2024-01-15: the installments are due on the 15th
of the months from February to May 2024. -/
def corpoDia15 : CorpoEmprestimo := { corpoAna with dataemprestimo := ⟨2024, 1, 15⟩ }

/-- The store after the loan of `corpoDia15` has been created for "Ana" at noon of
2024-02-15, the due date of its first installment. -/
def dbDia15 : DB := atender dbAna meioDia1502 (.criarEmprestimo corpoDia15)

/-- The example request with repayable amount 2.01 in two installments: the exact quotient
is 1.005, half a cent above 1.00. -/
def corpoMeioCentavo : CorpoEmprestimo :=
  { corpoAna with valorpagar := 201 / 100, parcelas := 2 }

/-- The example request with repayable amount 0.01 in two installments: the exact quotient
is 0.005, half a cent above 0.00. -/
def corpoUmCentavo : CorpoEmprestimo :=
  { corpoAna with valorpagar := 1 / 100, parcelas := 2 }

/-- The example request with repayable amount 1.0050000000000000001, not a whole number
of cents, in one installment. -/
def corpoQuaseMeio : CorpoEmprestimo :=
  { corpoAna with valorpagar := 10050000000000000001 / 10000000000000000000, parcelas := 1 }

/-- The example request with repayable amount 10^15 in three installments. -/
def corpoQuatrilhao : CorpoEmprestimo :=
  { corpoAna with valorpagar := 10 ^ 15, parcelas := 3 }

/-- The example request with repayable amount 1000.01 in two installments: the exact
quotient is 500.005. -/
def corpoMil : CorpoEmprestimo :=
  { corpoAna with valorpagar := 100001 / 100, parcelas := 2 }

/-! ## Auxiliary facts -/

theorem toFixed2_of_nonneg (x : ℚ) (c : ℤ) (h0 : 0 ≤ x) (h1 : (c : ℚ) ≤ x * 100 + 1 / 2)
    (h2 : x * 100 + 1 / 2 < c + 1) : toFixed2 x = c / 100 := by
  have hf : ⌊x * 100 + 1 / 2⌋ = c := Int.floor_eq_iff.mpr ⟨h1, h2⟩
  unfold toFixed2; rw [if_neg (not_lt.mpr h0), hf]

theorem lacoFor_eq_foldl {α : Type} (fim : Nat) (corpo : α → Nat → α) :
    ∀ (fuel ini : Nat) (acc : α), ini + fuel ≤ fim + 1 →
      lacoFor fim corpo fuel ini acc = (List.range' ini fuel).foldl corpo acc := by
  intro fuel
  induction fuel with
  | zero => intro ini acc _; rfl
  | succ k ih =>
    intro ini acc h
    have hi : ini ≤ fim := by omega
    simp only [lacoFor, if_pos hi, List.range'_succ, List.foldl_cons]
    exact ih (ini + 1) (corpo acc ini) (by omega)

theorem foldl_push_eq_map {β : Type} (f : Nat → Nat → β) :
    ∀ (k ini : Nat) (acc : List β),
      (List.range' ini k).foldl (fun acc i => acc ++ [f acc.length i]) acc =
        acc ++ (List.range k).map (fun j => f (acc.length + j) (ini + j)) := by
  intro k
  induction k with
  | zero => intro ini acc; simp
  | succ k ih =>
    intro ini acc
    rw [List.range'_succ, List.foldl_cons, ih, List.range_succ_eq_map]
    simp [Nat.add_assoc, Nat.add_comm 1, Function.comp_def]

theorem lacoFor_push {β : Type} (f : Nat → Nat → β) (fim ini : Nat) :
    lacoFor fim (fun acc i => acc ++ [f acc.length i]) (fim + 1 - ini) ini [] =
      (List.range (fim + 1 - ini)).map (fun j => f j (ini + j)) := by
  by_cases h : ini ≤ fim + 1
  · rw [lacoFor_eq_foldl fim _ (fim + 1 - ini) ini [] (by omega), foldl_push_eq_map]
    simp
  · have h0 : fim + 1 - ini = 0 := by omega
    rw [h0]
    rfl

theorem diasNoMes_ge (ano mes0 : Nat) : 28 ≤ diasNoMes ano mes0 := by
  unfold diasNoMes
  split <;> try split
  all_goals omega

theorem diasNoMes_le (ano mes0 : Nat) : diasNoMes ano mes0 ≤ 31 := by
  unfold diasNoMes
  split <;> try split
  all_goals omega

theorem setMonth_eq_avancarMeses (d : Data) (i : Nat) (hd : d.valida) :
    setMonth d (getMonth d + i) = avancarMeses d i := by
  obtain ⟨_, _, h1, h2⟩ := hd
  have h31 : d.dia ≤ 31 := le_trans h2 (diasNoMes_le _ _)
  unfold setMonth getMonth avancarMeses
  obtain ⟨k, hk⟩ : ∃ k, d.dia = k + 1 := ⟨d.dia - 1, by omega⟩
  simp only []
  generalize d.ano + (d.mes - 1 + i) / 12 = ano
  have hm : (d.mes - 1 + i) % 12 < 12 := Nat.mod_lt _ (by omega)
  generalize (d.mes - 1 + i) % 12 = mes0 at hm
  rw [hk] at h31 ⊢
  by_cases hle : k + 1 ≤ diasNoMes ano mes0
  · simp [rolarDia, hle]
  · have hge := diasNoMes_ge ano mes0
    obtain ⟨k2, hk2⟩ : ∃ k2, k = k2 + 1 := ⟨k - 1, by omega⟩
    subst hk2
    by_cases h11 : mes0 = 11
    · subst h11
      have hge2 := diasNoMes_ge (ano + 1) 0
      have hr : k2 + 1 + 1 - diasNoMes ano 11 ≤ diasNoMes (ano + 1) 0 := by omega
      simp [rolarDia, hle, hr]
    · have hlt : mes0 + 1 < 12 := by omega
      have hge2 := diasNoMes_ge ano (mes0 + 1)
      have hr : k2 + 1 + 1 - diasNoMes ano mes0 ≤ diasNoMes ano (mes0 + 1) := by omega
      simp [rolarDia, hle, hr, hlt, h11]

theorem gerarParcelas_eq_map (emprestimoId : Nat) (R : ℚ) (n : Nat) (base : Data)
    (hoje : Instante) (proxId : Nat) :
    gerarParcelas emprestimoId R n base hoje proxId =
      (List.range n).map (fun j =>
        novaParcelaCriacao emprestimoId (quocienteDuplo R n) base hoje (proxId + j) (1 + j)) := by
  have h := lacoFor_push
    (fun k i => novaParcelaCriacao emprestimoId (quocienteDuplo R n) base hoje (proxId + k) i) n 1
  simpa [gerarParcelas] using h

theorem postEmprestimos_parcelas (db : DB) (agora : Instante) (c : CorpoEmprestimo)
    (hc : camposFaltando c = false) (hcli : ∃ x ∈ db.clientes, x.nome = c.cliente) :
    (postEmprestimos db agora c).1.parcelas =
        db.parcelas ++ gerarParcelas db.proxIdEmprestimo c.valorpagar c.parcelas
          c.dataemprestimo agora db.proxIdParcela ∧
      ∃ r, (postEmprestimos db agora c).2 = .ok r := by
  obtain ⟨x, hx, hn⟩ := hcli
  have hne : db.clientes.filter (fun x => decide (x.nome = c.cliente)) ≠ [] := by
    intro h
    have : x ∈ db.clientes.filter (fun x => decide (x.nome = c.cliente)) := by
      simp [List.mem_filter, hx, hn]
    rw [h] at this
    simp at this
  unfold postEmprestimos
  rw [hc]
  simp only [Bool.false_eq_true, if_false]
  split
  · rename_i h; exact absurd h hne
  · constructor
    · simp only []
      split <;> simp [definirStatos]
    · exact ⟨_, rfl⟩

theorem parcelasCriadas_eq (db : DB) (agora : Instante) (c : CorpoEmprestimo)
    (hc : camposFaltando c = false) (hcli : ∃ x ∈ db.clientes, x.nome = c.cliente) :
    parcelasCriadas db agora c =
      (List.range c.parcelas).map (fun j =>
        novaParcelaCriacao db.proxIdEmprestimo (quocienteDuplo c.valorpagar c.parcelas)
          c.dataemprestimo agora (db.proxIdParcela + j) (1 + j)) := by
  unfold parcelasCriadas
  rw [(postEmprestimos_parcelas db agora c hc hcli).1, List.drop_left, gerarParcelas_eq_map]

theorem camposFaltando_corpoAna : camposFaltando corpoAna = false := by
  simp [camposFaltando, corpoAna]

theorem cliente_corpoAna : ∃ x ∈ dbAna.clientes, x.nome = corpoAna.cliente :=
  ⟨clienteZerado 1 "Ana", by simp [dbAna], rfl⟩

theorem toFixed2_300 : toFixed2 (quocienteDuplo 1200 4) = 300 := by decide!

theorem abs_toFixed2_sub_le (x : ℚ) : |toFixed2 x - x| ≤ 1 / 200 := by
  unfold toFixed2
  split
  · have h1 := Int.floor_le (-x * 100 + 1 / 2)
    have h2 := Int.lt_floor_add_one (-x * 100 + 1 / 2)
    rw [abs_le]
    constructor <;> linarith
  · have h1 := Int.floor_le (x * 100 + 1 / 2)
    have h2 := Int.lt_floor_add_one (x * 100 + 1 / 2)
    rw [abs_le]
    constructor <;> linarith

theorem doisElevado_eq (k : ℤ) : doisElevado k = (2 : ℚ) ^ k := by
  unfold doisElevado
  split
  · rename_i h
    have : k = (k.toNat : ℤ) := (Int.toNat_of_nonneg h).symm
    conv_rhs => rw [this]
    rw [zpow_natCast]
    push_cast
    rfl
  · rename_i h
    have h0 : 0 ≤ -k := by omega
    have : k = -((-k).toNat : ℤ) := by rw [Int.toNat_of_nonneg h0]; ring
    conv_rhs => rw [this]
    rw [zpow_neg, zpow_natCast]
    push_cast
    rw [one_div]

theorem doisElevado_pos (k : ℤ) : 0 < doisElevado k := by
  rw [doisElevado_eq]; positivity

theorem abs_arredondarPar_sub_le (x : ℚ) : |(arredondarPar x : ℚ) - x| ≤ 1 / 2 := by
  have h1 := Int.floor_le x
  have h2 := Int.lt_floor_add_one x
  unfold arredondarPar
  rw [abs_le]
  split_ifs with ha hb hc
  · constructor <;> linarith
  · push_cast; constructor <;> linarith
  · constructor <;> linarith
  · push_cast; constructor <;> linarith

theorem contarBits_spec : ∀ (fuel n : Nat), n ≤ fuel → n ≠ 0 →
    2 ^ contarBits fuel n ≤ 2 * n ∧ n < 2 ^ contarBits fuel n := by
  intro fuel
  induction fuel with
  | zero => intro n h1 h2; omega
  | succ f ih =>
    intro n h1 h2
    rw [contarBits, if_neg h2]
    by_cases h : n / 2 = 0
    · have hn1 : n = 1 := by omega
      subst hn1
      cases f with
      | zero => simp [contarBits]
      | succ g => simp [contarBits]
    · obtain ⟨i1, i2⟩ := ih (n / 2) (by omega) h
      rw [pow_succ]
      generalize 2 ^ contarBits f (n / 2) = P at i1 i2
      constructor <;> omega

theorem numBits_spec (n : Nat) (hn : n ≠ 0) : 2 ^ numBits n ≤ 2 * n ∧ n < 2 ^ numBits n :=
  contarBits_spec n n (le_refl n) hn

theorem expoente_le (x : ℚ) (hx : 0 < x) : doisElevado (expoente x) ≤ x := by
  unfold expoente
  split
  · assumption
  · rw [doisElevado_eq]
    have hnum : 0 < x.num := Rat.num_pos.mpr hx
    have hp : x.num.natAbs ≠ 0 := by
      intro h
      have := Int.natAbs_eq_zero.mp h
      omega
    have h1 := (numBits_spec x.num.natAbs hp).1
    have h2 := (numBits_spec x.den x.den_nz).2
    have hcast : (x.num.natAbs : ℚ) = (x.num : ℚ) := by
      rw [← Int.cast_natCast, Int.natAbs_of_nonneg hnum.le]
    have hxe : (x.num.natAbs : ℚ) / (x.den : ℚ) = x := by
      rw [hcast]
      exact Rat.num_div_den x
    have hden : (0 : ℚ) < (x.den : ℚ) := by exact_mod_cast x.den_pos
    have h1q : ((2 : ℚ) ^ numBits x.num.natAbs) ≤ 2 * (x.num.natAbs : ℚ) := by exact_mod_cast h1
    have h2q : (x.den : ℚ) ≤ (2 : ℚ) ^ numBits x.den := by exact_mod_cast h2.le
    have e1 : ((2 : ℚ) ^ ((numBits x.num.natAbs : ℤ) - (numBits x.den : ℤ) - 1)) =
        (2 : ℚ) ^ (numBits x.num.natAbs) / (2 : ℚ) ^ (numBits x.den + 1) := by
      rw [show ((numBits x.num.natAbs : ℤ) - (numBits x.den : ℤ) - 1) =
        (numBits x.num.natAbs : ℤ) - ((numBits x.den + 1 : ℕ) : ℤ) by push_cast; ring]
      rw [zpow_sub₀ (by norm_num), zpow_natCast, zpow_natCast]
    rw [e1]
    have hpos : (0 : ℚ) < (2 : ℚ) ^ (numBits x.den + 1) := by positivity
    have h0 : (0 : ℚ) ≤ (x.num.natAbs : ℚ) := by positivity
    calc (2 : ℚ) ^ numBits x.num.natAbs / (2 : ℚ) ^ (numBits x.den + 1)
        ≤ (x.num.natAbs : ℚ) / (x.den : ℚ) := by
          rw [div_le_div_iff₀ hpos hden, pow_succ]
          nlinarith
      _ = x := hxe

theorem abs_duploPos_sub_le (x : ℚ) (hx : 0 ≤ x) :
    |duploPos x - x| ≤ x / 2 ^ 53 + 1 / 2 ^ 1075 := by
  unfold duploPos
  split
  · rename_i h
    rw [h]
    norm_num
  · rename_i h
    have hx0 : 0 < x := lt_of_le_of_ne hx (Ne.symm h)
    have hq := doisElevado_pos (max (expoente x) (-1022) - 52)
    have hr := abs_arredondarPar_sub_le (x / doisElevado (max (expoente x) (-1022) - 52))
    have hfac : (arredondarPar (x / doisElevado (max (expoente x) (-1022) - 52)) : ℚ) *
        doisElevado (max (expoente x) (-1022) - 52) - x =
        ((arredondarPar (x / doisElevado (max (expoente x) (-1022) - 52)) : ℚ) -
          x / doisElevado (max (expoente x) (-1022) - 52)) *
          doisElevado (max (expoente x) (-1022) - 52) := by
      field_simp
    rw [hfac, abs_mul, abs_of_pos hq]
    have hmeio : doisElevado (max (expoente x) (-1022) - 52) / 2 ≤ x / 2 ^ 53 + 1 / 2 ^ 1075 := by
      rw [doisElevado_eq]
      rcases le_total (expoente x) (-1022) with he | he
      · rw [max_eq_right he]
        have : (2 : ℚ) ^ ((-1022 : ℤ) - 52) / 2 = 1 / 2 ^ 1075 := by
          rw [show ((-1022 : ℤ) - 52) = -((1074 : ℕ) : ℤ) by norm_num, zpow_neg, zpow_natCast]
          rw [pow_succ (2 : ℚ) 1074]
          field_simp
        rw [this]
        have : 0 ≤ x / 2 ^ 53 := by positivity
        linarith
      · rw [max_eq_left he]
        have hle := expoente_le x hx0
        rw [doisElevado_eq] at hle
        have : (2 : ℚ) ^ (expoente x - 52) / 2 = (2 : ℚ) ^ (expoente x) / 2 ^ 53 := by
          rw [show expoente x - 52 = expoente x - ((52 : ℕ) : ℤ) by norm_num,
            zpow_sub₀ (by norm_num), zpow_natCast, pow_succ (2 : ℚ) 52]
          field_simp
        rw [this]
        have h1 : (2 : ℚ) ^ (expoente x) / 2 ^ 53 ≤ x / 2 ^ 53 :=
          div_le_div_of_nonneg_right hle (by positivity)
        have : (0 : ℚ) ≤ 1 / 2 ^ 1075 := by positivity
        linarith
    calc |(arredondarPar (x / doisElevado (max (expoente x) (-1022) - 52)) : ℚ) -
          x / doisElevado (max (expoente x) (-1022) - 52)| *
          doisElevado (max (expoente x) (-1022) - 52)
        ≤ 1 / 2 * doisElevado (max (expoente x) (-1022) - 52) :=
          mul_le_mul_of_nonneg_right hr hq.le
      _ = doisElevado (max (expoente x) (-1022) - 52) / 2 := by ring
      _ ≤ x / 2 ^ 53 + 1 / 2 ^ 1075 := hmeio

theorem abs_duplo_sub_le (x : ℚ) : |duplo x - x| ≤ |x| / 2 ^ 53 + 1 / 2 ^ 1075 := by
  unfold duplo
  split
  · rename_i h
    have h0 : 0 ≤ -x := by linarith
    have := abs_duploPos_sub_le (-x) h0
    rw [abs_of_neg h]
    have e : -duploPos (-x) - x = -(duploPos (-x) - -x) := by ring
    rw [e, abs_neg]
    exact this
  · rename_i h
    have h0 : 0 ≤ x := not_lt.mp h
    rw [abs_of_nonneg h0]
    exact abs_duploPos_sub_le x h0

theorem abs_quocienteDuplo_sub_le (R : ℚ) (n : ℕ) (hn : 0 < n) :
    (n : ℚ) * |quocienteDuplo R n - R / (n : ℚ)| ≤
      |R| * (2 / 2 ^ 53 + 1 / 2 ^ 106) + (1 / 2 ^ 1075) * (1 + 1 / 2 ^ 53 + (n : ℚ)) := by
  have hn0 : (0 : ℚ) < (n : ℚ) := by exact_mod_cast hn
  have ha := abs_duplo_sub_le R
  have hb := abs_duplo_sub_le (duplo R / (n : ℚ))
  unfold quocienteDuplo
  have habs : |duplo R| ≤ |R| + (|R| / 2 ^ 53 + 1 / 2 ^ 1075) := by
    have := abs_sub_abs_le_abs_sub (duplo R) R
    linarith
  have htri : |duplo (duplo R / (n : ℚ)) - R / (n : ℚ)| ≤
      |duplo (duplo R / (n : ℚ)) - duplo R / (n : ℚ)| + |duplo R / (n : ℚ) - R / (n : ℚ)| := by
    have := abs_sub_le (duplo (duplo R / (n : ℚ))) (duplo R / (n : ℚ)) (R / (n : ℚ))
    exact this
  have h2 : (n : ℚ) * |duplo R / (n : ℚ) - R / (n : ℚ)| = |duplo R - R| := by
    rw [← sub_div, abs_div, abs_of_pos hn0]
    field_simp
  have h3 : (n : ℚ) * |duplo R / (n : ℚ)| = |duplo R| := by
    rw [abs_div, abs_of_pos hn0]
    field_simp
  have h4 : (n : ℚ) * |duplo (duplo R / (n : ℚ)) - duplo R / (n : ℚ)| ≤
      |duplo R| / 2 ^ 53 + (n : ℚ) * (1 / 2 ^ 1075) := by
    have := mul_le_mul_of_nonneg_left hb hn0.le
    rw [mul_add, ← mul_div_assoc, h3] at this
    exact this
  have h5 : (n : ℚ) * |duplo (duplo R / (n : ℚ)) - R / (n : ℚ)| ≤
      (n : ℚ) * |duplo (duplo R / (n : ℚ)) - duplo R / (n : ℚ)| +
        (n : ℚ) * |duplo R / (n : ℚ) - R / (n : ℚ)| := by
    rw [← mul_add]
    exact mul_le_mul_of_nonneg_left htri hn0.le
  rw [h2] at h5
  have h6 : |duplo R| / 2 ^ 53 ≤ (|R| + (|R| / 2 ^ 53 + 1 / 2 ^ 1075)) / 2 ^ 53 :=
    div_le_div_of_nonneg_right habs (by positivity)
  have hR := abs_nonneg R
  have e : (|R| + (|R| / 2 ^ 53 + 1 / 2 ^ 1075)) / 2 ^ 53 + (n : ℚ) * (1 / 2 ^ 1075) +
      (|R| / 2 ^ 53 + 1 / 2 ^ 1075) =
      |R| * (2 / 2 ^ 53 + 1 / 2 ^ 106) + (1 / 2 ^ 1075) * (1 + 1 / 2 ^ 53 + (n : ℚ)) := by
    ring
  linarith

theorem quocienteDuplo_soma (R : ℚ) (n : ℕ) (hn : 0 < n) (hR : |R| ≤ 10 ^ 13) :
    (n : ℚ) * |quocienteDuplo R n - R / (n : ℚ)| ≤ (n : ℚ) / 200 := by
  have h := abs_quocienteDuplo_sub_le R n hn
  have hn1 : (1 : ℚ) ≤ (n : ℚ) := by exact_mod_cast hn
  have h1 : |R| * (2 / 2 ^ 53 + 1 / 2 ^ 106) ≤ 10 ^ 13 * (2 / 2 ^ 53 + 1 / 2 ^ 106) :=
    mul_le_mul_of_nonneg_right hR (by positivity)
  have h2 : (10 : ℚ) ^ 13 * (2 / 2 ^ 53 + 1 / 2 ^ 106) ≤ 1 / 400 := by norm_num
  have h3 : (1 : ℚ) / 2 ^ 1075 ≤ 1 / 2 ^ 60 := by norm_num
  have h4 : (1 / 2 ^ 1075 : ℚ) * (1 + 1 / 2 ^ 53 + (n : ℚ)) ≤
      (1 / 2 ^ 60) * (1 + 1 / 2 ^ 53 + (n : ℚ)) :=
    mul_le_mul_of_nonneg_right h3 (by positivity)
  have h5 : (1 / 2 ^ 60 : ℚ) * (1 + 1 / 2 ^ 53 + (n : ℚ)) ≤ (n : ℚ) / 400 := by
    have e : (1 / 2 ^ 60 : ℚ) * (1 + 1 / 2 ^ 53 + (n : ℚ)) =
        (1 / 2 ^ 60) * (1 + 1 / 2 ^ 53) + (1 / 2 ^ 60) * (n : ℚ) := by ring
    have e1 : (1 / 2 ^ 60 : ℚ) * (1 + 1 / 2 ^ 53) ≤ 1 / 800 := by norm_num
    have e2 : (1 / 2 ^ 60 : ℚ) * (n : ℚ) ≤ (1 / 800) * (n : ℚ) :=
      mul_le_mul_of_nonneg_right (by norm_num) (by positivity)
    rw [e]
    linarith
  linarith

theorem quocienteDuplo_perto (R : ℚ) (n : ℕ) (hn : 0 < n) (hR : |R| ≤ 10 ^ 13)
    (hlim : n < 2 ^ 53) :
    (n : ℚ) * |quocienteDuplo R n - R / (n : ℚ)| < 1 / 200 := by
  have h := abs_quocienteDuplo_sub_le R n hn
  have hnq : (n : ℚ) ≤ 2 ^ 53 := by exact_mod_cast hlim.le
  have h1 : |R| * (2 / 2 ^ 53 + 1 / 2 ^ 106) ≤ 10 ^ 13 * (2 / 2 ^ 53 + 1 / 2 ^ 106) :=
    mul_le_mul_of_nonneg_right hR (by positivity)
  have h2 : (10 : ℚ) ^ 13 * (2 / 2 ^ 53 + 1 / 2 ^ 106) ≤ 1 / 400 := by norm_num
  have h4 : (1 / 2 ^ 1075 : ℚ) * (1 + 1 / 2 ^ 53 + (n : ℚ)) ≤
      (1 / 2 ^ 1075) * (1 + 1 / 2 ^ 53 + 2 ^ 53) :=
    mul_le_mul_of_nonneg_left (by linarith) (by positivity)
  have h5 : (1 / 2 ^ 1075 : ℚ) * (1 + 1 / 2 ^ 53 + 2 ^ 53) < 1 / 400 := by norm_num
  linarith

theorem toFixed2_centavos (x : ℚ) : ∃ m : ℤ, toFixed2 x = (m : ℚ) / 100 := by
  unfold toFixed2
  split
  · exact ⟨-⌊-x * 100 + 1 / 2⌋, by push_cast; ring⟩
  · exact ⟨⌊x * 100 + 1 / 2⌋, rfl⟩

theorem toFixed2_proximo (r : ℤ) (n : ℕ) (hn : 0 < n) (y : ℚ)
    (hy : (n : ℚ) * |y - ((r : ℚ) / 100) / (n : ℚ)| < 1 / 200) :
    |toFixed2 y - ((r : ℚ) / 100) / (n : ℚ)| ≤ 1 / 200 := by
  have hn0 : (0 : ℚ) < (n : ℚ) := by exact_mod_cast hn
  obtain ⟨m, hm⟩ := toFixed2_centavos y
  have h1 := abs_toFixed2_sub_le y
  rw [hm] at h1 ⊢
  have hy2 : |y - ((r : ℚ) / 100) / (n : ℚ)| < 1 / (200 * (n : ℚ)) := by
    rw [lt_div_iff₀ (by positivity)]
    calc |y - ((r : ℚ) / 100) / (n : ℚ)| * (200 * (n : ℚ))
        = 200 * ((n : ℚ) * |y - ((r : ℚ) / 100) / (n : ℚ)|) := by ring
      _ < 200 * (1 / 200) := by linarith
      _ = 1 := by norm_num
  have htri : |(m : ℚ) / 100 - ((r : ℚ) / 100) / (n : ℚ)| < 1 / 200 + 1 / (200 * (n : ℚ)) := by
    have := abs_sub_le ((m : ℚ) / 100) y (((r : ℚ) / 100) / (n : ℚ))
    linarith
  have hscale : |(m : ℚ) / 100 - ((r : ℚ) / 100) / (n : ℚ)| =
      |((2 * m * n - 2 * r : ℤ) : ℚ)| / (200 * (n : ℚ)) := by
    rw [← abs_of_pos (show (0 : ℚ) < 200 * (n : ℚ) by positivity), ← abs_div]
    congr 1
    push_cast
    field_simp
    ring
  rw [hscale] at htri ⊢
  have hpos : (0 : ℚ) < 200 * (n : ℚ) := by positivity
  have hlt : |((2 * m * n - 2 * r : ℤ) : ℚ)| < (n : ℚ) + 1 := by
    rw [div_lt_iff₀ hpos] at htri
    have e : (1 / 200 + 1 / (200 * (n : ℚ))) * (200 * (n : ℚ)) = (n : ℚ) + 1 := by
      field_simp
    rw [e] at htri
    exact htri
  have hint : |(2 * m * n - 2 * r : ℤ)| < (n : ℤ) + 1 := by
    have : ((|(2 * m * n - 2 * r : ℤ)| : ℤ) : ℚ) < (((n : ℤ) + 1 : ℤ) : ℚ) := by
      push_cast
      rw [← Int.cast_abs] at hlt
      push_cast at hlt
      exact hlt
    exact_mod_cast this
  have hle : |(2 * m * n - 2 * r : ℤ)| ≤ (n : ℤ) := by omega
  have hleq : |((2 * m * n - 2 * r : ℤ) : ℚ)| ≤ (n : ℚ) := by
    rw [← Int.cast_abs]
    exact_mod_cast hle
  rw [div_le_iff₀ hpos]
  have e2 : (1 : ℚ) / 200 * (200 * (n : ℚ)) = (n : ℚ) := by field_simp
  rw [e2]
  exact hleq

theorem foldl_definirValorParcela (v : ℚ) :
    ∀ (ids : List Nat) (ps : List Parcela),
      ids.foldl (definirValorParcela v) ps =
        ps.map (fun p => if p.id ∈ ids then { p with valor_parcela := v } else p) := by
  intro ids
  induction ids with
  | nil => intro ps; simp
  | cons i ids ih =>
    intro ps
    rw [List.foldl_cons, ih, definirValorParcela, List.map_map]
    apply List.map_congr_left
    intro p _
    by_cases h1 : p.id = i
    · by_cases h2 : p.id ∈ ids <;> simp [h1, h2]
    · by_cases h2 : p.id ∈ ids <;> simp [h1, h2]

theorem mem_ids_parcelasOrdenadas (db : DB) (id : Nat)
    (hnd : (db.parcelas.map (fun p => p.id)).Nodup) (p : Parcela) (hp : p ∈ db.parcelas) :
    p.id ∈ (parcelasOrdenadas db id).map (fun q => q.id) ↔ p.id_emprestimo = id := by
  unfold parcelasOrdenadas
  simp only [List.mem_map, List.mem_insertionSort, List.mem_filter, decide_eq_true_eq]
  constructor
  · rintro ⟨q, ⟨hq, hqe⟩, hqi⟩
    have := List.inj_on_of_nodup_map hnd hq hp hqi
    rw [← this]; exact hqe
  · intro h
    exact ⟨p, ⟨hp, h⟩, rfl⟩

theorem atualizarValores_parcelas (db : DB) (id : Nat) (vp : ℚ)
    (hnd : (db.parcelas.map (fun p => p.id)).Nodup) :
    (atualizarValores db id vp).parcelas =
      db.parcelas.map (fun p =>
        if p.id_emprestimo = id then { p with valor_parcela := toFixed2 vp } else p) := by
  unfold atualizarValores
  simp only []
  rw [foldl_definirValorParcela]
  apply List.map_congr_left
  intro p hp
  simp only [mem_ids_parcelasOrdenadas db id hnd p hp]

theorem parcelasOrdenadas_subset (db : DB) (id : Nat) (p : Parcela)
    (hp : p ∈ parcelasOrdenadas db id) : p ∈ db.parcelas ∧ p.id_emprestimo = id := by
  unfold parcelasOrdenadas at hp
  simpa [List.mem_insertionSort, List.mem_filter] using hp

theorem sliceUltimos_subset {α : Type} (k : Nat) (xs : List α) (x : α)
    (hx : x ∈ sliceUltimos k xs) : x ∈ xs := by
  unfold sliceUltimos at hx
  split at hx
  · exact hx
  · exact List.mem_of_mem_drop hx

theorem mem_ids_iff_mem (db : DB) (us : List Parcela)
    (hnd : (db.parcelas.map (fun p => p.id)).Nodup) (hus : ∀ q ∈ us, q ∈ db.parcelas)
    (p : Parcela) (hp : p ∈ db.parcelas) :
    p.id ∈ us.map (fun q => q.id) ↔ p ∈ us := by
  simp only [List.mem_map]
  constructor
  · rintro ⟨q, hq, hqi⟩
    have := List.inj_on_of_nodup_map hnd (hus q hq) hp hqi
    rw [← this]; exact hq
  · intro h
    exact ⟨p, h, rfl⟩

theorem removerUltimasParcelas_outros (db : DB) (id antigo novo : Nat)
    (hnd : (db.parcelas.map (fun p => p.id)).Nodup) :
    (removerUltimasParcelas db id antigo novo).parcelas.filter
        (fun p => decide (p.id_emprestimo ≠ id)) =
      db.parcelas.filter (fun p => decide (p.id_emprestimo ≠ id)) := by
  unfold removerUltimasParcelas
  simp only []
  split
  · split
    · simp only [List.filter_filter]
      apply List.filter_congr
      intro p hp
      have hsub : ∀ q ∈ sliceUltimos (antigo - novo) (parcelasOrdenadas db id),
          q ∈ db.parcelas := fun q hq =>
        (parcelasOrdenadas_subset db id q (sliceUltimos_subset _ _ q hq)).1
      by_cases hl : p.id_emprestimo = id
      · simp [hl]
      · have : p.id ∉ (sliceUltimos (antigo - novo) (parcelasOrdenadas db id)).map
            (fun q => q.id) := by
          rw [mem_ids_iff_mem db _ hnd hsub p hp]
          intro hm
          exact hl (parcelasOrdenadas_subset db id p (sliceUltimos_subset _ _ p hm)).2
        simp [hl, this]
    · rfl
  · rfl

theorem removerUltimasParcelas_sublist (db : DB) (id antigo novo : Nat) :
    (removerUltimasParcelas db id antigo novo).parcelas.Sublist db.parcelas ∧
      (removerUltimasParcelas db id antigo novo).proxIdParcela = db.proxIdParcela ∧
      (removerUltimasParcelas db id antigo novo).emprestimos = db.emprestimos ∧
      (removerUltimasParcelas db id antigo novo).clientes = db.clientes := by
  unfold removerUltimasParcelas
  simp only []
  split
  · split
    · exact ⟨List.filter_sublist _, rfl, rfl, rfl⟩
    · exact ⟨List.Sublist.refl _, rfl, rfl, rfl⟩
  · exact ⟨List.Sublist.refl _, rfl, rfl, rfl⟩

theorem parcelasOrdenadas_numeros (db : DB) (id n : Nat) (hnum : db.numeradas id n) :
    (parcelasOrdenadas db id).map (fun p => p.numero_parcela) = List.range' 1 n := by
  have hperm : ((parcelasOrdenadas db id).map (fun p => p.numero_parcela)).Perm
      (List.range' 1 n) :=
    ((List.perm_insertionSort _ _).map _).trans hnum
  have hs1 : List.Sorted (fun a b : Nat => a ≤ b)
      ((parcelasOrdenadas db id).map (fun p => p.numero_parcela)) := by
    unfold parcelasOrdenadas
    haveI : IsTotal Parcela (fun a b => a.numero_parcela ≤ b.numero_parcela) :=
      ⟨fun a b => Nat.le_total a.numero_parcela b.numero_parcela⟩
    haveI : IsTrans Parcela (fun a b => a.numero_parcela ≤ b.numero_parcela) :=
      ⟨fun _ _ _ h1 h2 => Nat.le_trans h1 h2⟩
    exact List.pairwise_map.mpr
      (List.sorted_insertionSort (fun a b : Parcela => a.numero_parcela ≤ b.numero_parcela) _)
  have hs2 : List.Sorted (fun a b : Nat => a ≤ b) (List.range' 1 n) :=
    (List.pairwise_lt_range' 1 n).imp (fun h => Nat.le_of_lt h)
  exact List.eq_of_perm_of_sorted hperm hs1 hs2

theorem mem_drop_parcelasOrdenadas (db : DB) (id antigo novo : Nat)
    (hnum : db.numeradas id antigo) (hlt : novo < antigo) (p : Parcela) :
    p ∈ (parcelasOrdenadas db id).drop novo ↔
      p ∈ parcelasOrdenadas db id ∧ novo < p.numero_parcela := by
  have hn := parcelasOrdenadas_numeros db id antigo hnum
  have hsplit : List.range' 1 antigo =
      List.range' 1 novo ++ List.range' (1 + novo) (antigo - novo) := by
    rw [List.range'_append_1]; congr 1; omega
  constructor
  · intro h
    refine ⟨List.mem_of_mem_drop h, ?_⟩
    have h1 : p.numero_parcela ∈
        ((parcelasOrdenadas db id).drop novo).map (fun p => p.numero_parcela) :=
      List.mem_map_of_mem _ h
    rw [List.map_drop, hn, hsplit, List.drop_left' (by simp)] at h1
    have := List.mem_range'_1.mp h1
    omega
  · rintro ⟨h, hgt⟩
    rw [← List.take_append_drop novo (parcelasOrdenadas db id)] at h
    rcases List.mem_append.mp h with h | h
    · have h1 : p.numero_parcela ∈
          ((parcelasOrdenadas db id).take novo).map (fun p => p.numero_parcela) :=
        List.mem_map_of_mem _ h
      rw [List.map_take, hn, hsplit, List.take_left' (by simp)] at h1
      have := List.mem_range'_1.mp h1
      omega
    · exact h

theorem removerUltimasParcelas_numeradas (db : DB) (id antigo novo : Nat)
    (hnd : (db.parcelas.map (fun p => p.id)).Nodup) (hnum : db.numeradas id antigo)
    (hlt : novo < antigo) :
    (removerUltimasParcelas db id antigo novo).parcelas =
      db.parcelas.filter (fun p => decide (¬ (p.id_emprestimo = id ∧ novo < p.numero_parcela))) := by
  have hlen : (parcelasOrdenadas db id).length = antigo := by
    have := congrArg List.length (parcelasOrdenadas_numeros db id antigo hnum)
    simpa using this
  have hslice : sliceUltimos (antigo - novo) (parcelasOrdenadas db id) =
      (parcelasOrdenadas db id).drop novo := by
    unfold sliceUltimos
    rw [if_neg (by omega), hlen]
    congr 1; omega
  unfold removerUltimasParcelas
  simp only []
  rw [if_pos hlt, hslice, if_pos (by simp [hlen]; omega)]
  apply List.filter_congr
  intro p hp
  have hsub : ∀ q ∈ (parcelasOrdenadas db id).drop novo, q ∈ db.parcelas := fun q hq =>
    (parcelasOrdenadas_subset db id q (List.mem_of_mem_drop hq)).1
  have hiff : p.id ∈ ((parcelasOrdenadas db id).drop novo).map (fun q => q.id) ↔
      (p.id_emprestimo = id ∧ novo < p.numero_parcela) := by
    rw [mem_ids_iff_mem db _ hnd hsub p hp, mem_drop_parcelasOrdenadas db id antigo novo hnum hlt]
    constructor
    · rintro ⟨h1, h2⟩
      exact ⟨(parcelasOrdenadas_subset db id p h1).2, h2⟩
    · rintro ⟨h1, h2⟩
      refine ⟨?_, h2⟩
      unfold parcelasOrdenadas
      simp [List.mem_insertionSort, List.mem_filter, hp, h1]
  simp only [hiff]

theorem putEmprestimo_eq (db : DB) (id : Nat) (c : CorpoEmprestimo) (e0 : Emprestimo)
    (hc : camposFaltando c = false) (hcli : ∃ x ∈ db.clientes, x.nome = c.cliente)
    (hemp : emprestimoExistente db id = some e0) :
    (putEmprestimo db id c).1 =
        atualizarValores (acrescentarParcelas
          (removerUltimasParcelas (regravarEmprestimo db id c) id e0.parcelas c.parcelas)
          id (quocienteDuplo c.valorpagar c.parcelas) c.dataemprestimo e0.parcelas c.parcelas)
          id (quocienteDuplo c.valorpagar c.parcelas) ∧
      ∃ r, (putEmprestimo db id c).2 = .ok r := by
  obtain ⟨x, hx, hn⟩ := hcli
  have hne : db.clientes.filter (fun x => decide (x.nome = c.cliente)) ≠ [] := by
    intro h
    have : x ∈ db.clientes.filter (fun x => decide (x.nome = c.cliente)) := by
      simp [List.mem_filter, hx, hn]
    rw [h] at this
    simp at this
  unfold emprestimoExistente at hemp
  unfold putEmprestimo
  rw [hc]
  simp only [Bool.false_eq_true, if_false]
  split
  · rename_i h; exact absurd h hne
  · split
    · rename_i h; rw [h] at hemp; simp at hemp
    · rename_i e1 rest h
      rw [h] at hemp
      simp only [List.head?_cons, Option.some.injEq] at hemp
      subst hemp
      exact ⟨rfl, _, rfl⟩

theorem estenderParcelas_eq_map (id : Nat) (vp : ℚ) (base : Data) (antigo novo proxId : Nat) :
    estenderParcelas id vp base antigo novo proxId =
      (List.range (novo - antigo)).map (fun j =>
        novaParcelaEdicao id vp base (proxId + j) (antigo + 1 + j)) := by
  have h := lacoFor_push (fun k i => novaParcelaEdicao id vp base (proxId + k) i) novo
    (antigo + 1)
  have hk : novo + 1 - (antigo + 1) = novo - antigo := by omega
  rw [hk] at h
  unfold estenderParcelas
  rw [hk]
  exact h

theorem acrescentarParcelas_parcelas (db : DB) (id : Nat) (vp : ℚ) (base : Data)
    (antigo novo : Nat) :
    (acrescentarParcelas db id vp base antigo novo).parcelas =
      db.parcelas ++ (List.range (novo - antigo)).map (fun j =>
        novaParcelaEdicao id vp base (db.proxIdParcela + j) (antigo + 1 + j)) ∧
    (acrescentarParcelas db id vp base antigo novo).emprestimos = db.emprestimos ∧
    (acrescentarParcelas db id vp base antigo novo).clientes = db.clientes := by
  unfold acrescentarParcelas
  split
  · simp [estenderParcelas_eq_map]
  · rename_i h
    have h0 : novo - antigo = 0 := by omega
    simp [h0]

theorem acrescentarParcelas_nodup (db : DB) (id : Nat) (vp : ℚ) (base : Data)
    (antigo novo : Nat) (hk : db.chavesParcelas) :
    ((acrescentarParcelas db id vp base antigo novo).parcelas.map (fun p => p.id)).Nodup := by
  obtain ⟨hnd, hlt⟩ := hk
  rw [(acrescentarParcelas_parcelas db id vp base antigo novo).1, List.map_append,
    List.map_map]
  have hids : ((fun p : Parcela => p.id) ∘ fun j =>
      novaParcelaEdicao id vp base (db.proxIdParcela + j) (antigo + 1 + j)) =
      fun j => db.proxIdParcela + j := by
    funext j; rfl
  rw [hids, List.nodup_append]
  refine ⟨hnd, ?_, ?_⟩
  · exact (List.nodup_range _).map (fun a b h => Nat.add_left_cancel h)
  · intro a ha hb
    simp only [List.mem_map] at ha hb
    obtain ⟨p, hp, rfl⟩ := ha
    obtain ⟨j, _, hj⟩ := hb
    have := hlt p hp
    omega

theorem removerUltimasParcelas_chaves (db : DB) (id antigo novo : Nat)
    (hk : db.chavesParcelas) : (removerUltimasParcelas db id antigo novo).chavesParcelas := by
  obtain ⟨hnd, hlt⟩ := hk
  obtain ⟨hs, hp, _, _⟩ := removerUltimasParcelas_sublist db id antigo novo
  refine ⟨hnd.sublist (hs.map _), ?_⟩
  intro p hpm
  rw [hp]
  exact hlt p (hs.subset hpm)

theorem putEmprestimo_parcelas (db : DB) (id : Nat) (c : CorpoEmprestimo) (e0 : Emprestimo)
    (hc : camposFaltando c = false) (hcli : ∃ x ∈ db.clientes, x.nome = c.cliente)
    (hemp : emprestimoExistente db id = some e0) (hk : db.chavesParcelas) :
    (putEmprestimo db id c).1.parcelas =
      ((removerUltimasParcelas (regravarEmprestimo db id c) id e0.parcelas c.parcelas).parcelas
        ++ (List.range (c.parcelas - e0.parcelas)).map (fun j =>
          novaParcelaEdicao id (quocienteDuplo c.valorpagar c.parcelas) c.dataemprestimo
            (db.proxIdParcela + j) (e0.parcelas + 1 + j))).map
        (fun p => if p.id_emprestimo = id then
          { p with valor_parcela := toFixed2 (quocienteDuplo c.valorpagar c.parcelas) } else p) := by
  have hk1 : (regravarEmprestimo db id c).chavesParcelas := hk
  have hk2 := removerUltimasParcelas_chaves _ id e0.parcelas c.parcelas hk1
  rw [(putEmprestimo_eq db id c e0 hc hcli hemp).1,
    atualizarValores_parcelas _ _ _ (acrescentarParcelas_nodup _ _ _ _ _ _ hk2),
    (acrescentarParcelas_parcelas _ _ _ _ _ _).1,
    (removerUltimasParcelas_sublist _ id e0.parcelas c.parcelas).2.1]
  rfl

/-! ## Schedule generation (`POST /emprestimos`) -/

/-- C1: when `POST /emprestimos` is given the required fields, an existing customer and a
calendar origination date, it succeeds and appends exactly `parcelas` rows of the new loan
to table `parcelas`; their sequence numbers and due dates are those of the reference
schedule (number `i` and the origination date advanced by `i` calendar months, for `i` in
`1..parcelas`), and all carry the same amount, a whole number of cents: the quotient of
`valorpagar` by `parcelas` computed in JavaScript arithmetic and rounded to cents.  When
`valorpagar` is a whole number of cents of magnitude at most 10^13 and `parcelas` is
below 2^53, that amount is within half a cent of `valorpagar / parcelas`. -/
theorem postEmprestimos_cronograma (db : DB) (agora : Instante) (c : CorpoEmprestimo)
    (hc : camposFaltando c = false) (hcli : ∃ x ∈ db.clientes, x.nome = c.cliente)
    (hd : c.dataemprestimo.valida) :
    (∃ r, (postEmprestimos db agora c).2 = .ok r) ∧
    (postEmprestimos db agora c).1.parcelas = db.parcelas ++ parcelasCriadas db agora c ∧
    (parcelasCriadas db agora c).length = c.parcelas ∧
    (∀ p ∈ parcelasCriadas db agora c, p.id_emprestimo = db.proxIdEmprestimo) ∧
    (parcelasCriadas db agora c).map (fun p => (p.numero_parcela, p.data_vencimento)) =
      (cronogramaReferencia c.dataemprestimo c.valorpagar c.parcelas).map
        (fun x => (x.1, x.2.1)) ∧
    (∀ p ∈ parcelasCriadas db agora c,
      p.valor_parcela = toFixed2 (quocienteDuplo c.valorpagar c.parcelas)) ∧
    (∃ m : ℤ, toFixed2 (quocienteDuplo c.valorpagar c.parcelas) = (m : ℚ) / 100) ∧
    ((∃ r : ℤ, c.valorpagar = (r : ℚ) / 100) → |c.valorpagar| ≤ 10 ^ 13 →
      c.parcelas < 2 ^ 53 →
      |toFixed2 (quocienteDuplo c.valorpagar c.parcelas) -
        c.valorpagar / (c.parcelas : ℚ)| ≤ 1 / 200) := by
  have hp := postEmprestimos_parcelas db agora c hc hcli
  have he := parcelasCriadas_eq db agora c hc hcli
  have hn : 0 < c.parcelas := by
    apply Nat.pos_of_ne_zero
    intro h
    simp [camposFaltando, h] at hc
  refine ⟨hp.2, ?_, ?_, ?_, ?_, ?_, toFixed2_centavos _, ?_⟩
  · unfold parcelasCriadas
    rw [hp.1, List.drop_left]
  · rw [he]; simp
  · rw [he]
    intro p hp
    simp only [List.mem_map, List.mem_range] at hp
    obtain ⟨j, _, rfl⟩ := hp
    rfl
  · rw [he]
    unfold cronogramaReferencia
    rw [List.range'_eq_map_range]
    simp only [List.map_map]
    apply List.map_congr_left
    intro j _
    simp [novaParcelaCriacao, setMonth_eq_avancarMeses _ _ hd]
  · rw [he]
    intro p hp
    simp only [List.mem_map, List.mem_range] at hp
    obtain ⟨j, _, rfl⟩ := hp
    rfl
  · rintro ⟨r, hr⟩ hR hlim
    rw [hr] at hR ⊢
    exact toFixed2_proximo r c.parcelas hn _
      (by rw [← hr]; rw [← hr] at hR; exact quocienteDuplo_perto c.valorpagar c.parcelas hn hR hlim)

/-- C1, the example of the specification: repayable 1200 in 4 installments from
2024-01-01 gives due dates 2024-02-01 .. 2024-05-01, each of amount 300.00, which is
within half a cent of 1200 / 4. -/
theorem postEmprestimos_cronograma_exemplo :
    camposFaltando corpoAna = false ∧ (∃ x ∈ dbAna.clientes, x.nome = corpoAna.cliente) ∧
      corpoAna.dataemprestimo.valida ∧
      (parcelasCriadas dbAna meioDia0101 corpoAna).map Parcela.resumo =
        [(1, ⟨2024, 2, 1⟩, 300), (2, ⟨2024, 3, 1⟩, 300), (3, ⟨2024, 4, 1⟩, 300),
         (4, ⟨2024, 5, 1⟩, 300)] ∧
      |toFixed2 (quocienteDuplo corpoAna.valorpagar corpoAna.parcelas) -
        corpoAna.valorpagar / (corpoAna.parcelas : ℚ)| ≤ 1 / 200 := by
  have h := postEmprestimos_cronograma dbAna meioDia0101 corpoAna camposFaltando_corpoAna
    cliente_corpoAna (by decide)
  refine ⟨camposFaltando_corpoAna, cliente_corpoAna, by decide, by decide!, ?_⟩
  exact h.2.2.2.2.2.2.2 ⟨120000, by norm_num [corpoAna]⟩ (by norm_num [corpoAna])
    (by norm_num [corpoAna])

/-- C1 does not hold as stated: the amount is not always the exact quotient rounded to
two decimals.  For repayable 2.01 in 2 installments the rows carry 1.00, where the
reference schedule has 1.01; for repayable 0.01 in 2 installments they carry 0.01, the
upper neighbour of the half cent; for repayable 1.0050000000000000001 in 1 installment
the row carries 1.00, more than half a cent from the amount; for repayable 10^15 in 3
installments the rows carry 333333333333333.31, two cents below the quotient. -/
theorem cronograma_difere_da_referencia :
    ((parcelasCriadas dbAna meioDia0101 corpoMeioCentavo).map Parcela.resumo =
        [(1, ⟨2024, 2, 1⟩, 1), (2, ⟨2024, 3, 1⟩, 1)] ∧
      cronogramaReferencia corpoMeioCentavo.dataemprestimo corpoMeioCentavo.valorpagar
        corpoMeioCentavo.parcelas =
        [(1, ⟨2024, 2, 1⟩, 101 / 100), (2, ⟨2024, 3, 1⟩, 101 / 100)]) ∧
    ((parcelasCriadas dbAna meioDia0101 corpoUmCentavo).map (fun p => p.valor_parcela) =
        [1 / 100, 1 / 100] ∧
      corpoUmCentavo.valorpagar / (corpoUmCentavo.parcelas : ℚ) = 1 / 200) ∧
    ((parcelasCriadas dbAna meioDia0101 corpoQuaseMeio).map (fun p => p.valor_parcela) = [1] ∧
      1 / 200 < |1 - corpoQuaseMeio.valorpagar / (corpoQuaseMeio.parcelas : ℚ)|) ∧
    ((parcelasCriadas dbAna meioDia0101 corpoQuatrilhao).map (fun p => p.valor_parcela) =
        [33333333333333331 / 100, 33333333333333331 / 100, 33333333333333331 / 100] ∧
      1 / 200 < |33333333333333331 / 100 -
        corpoQuatrilhao.valorpagar / (corpoQuatrilhao.parcelas : ℚ)|) := by
  refine ⟨⟨by decide!, by decide!⟩, ⟨by decide!, by decide!⟩, ⟨by decide!, by decide!⟩,
    ⟨by decide!, by decide!⟩⟩

/-- C2: for a repayable amount of magnitude at most 10^13 (of either sign), the amounts
of the rows `POST /emprestimos` creates add up to `valorpagar` within one cent per
installment: the sum differs from `valorpagar` by at most `parcelas * 0.01`. -/
theorem postEmprestimos_soma_parcelas (db : DB) (agora : Instante) (c : CorpoEmprestimo)
    (hc : camposFaltando c = false) (hcli : ∃ x ∈ db.clientes, x.nome = c.cliente)
    (hR : |c.valorpagar| ≤ 10 ^ 13) :
    |((parcelasCriadas db agora c).map (fun p => p.valor_parcela)).sum - c.valorpagar| ≤
      (c.parcelas : ℚ) * (1 / 100) := by
  rw [parcelasCriadas_eq db agora c hc hcli]
  have hn : c.parcelas ≠ 0 := by
    intro h
    simp [camposFaltando, h] at hc
  have hn0 : (0 : ℚ) < (c.parcelas : ℚ) := by exact_mod_cast Nat.pos_of_ne_zero hn
  have hsum : (((List.range c.parcelas).map (fun j =>
        novaParcelaCriacao db.proxIdEmprestimo (quocienteDuplo c.valorpagar c.parcelas)
          c.dataemprestimo agora (db.proxIdParcela + j) (1 + j))).map
        (fun p => p.valor_parcela)).sum =
      (c.parcelas : ℚ) * toFixed2 (quocienteDuplo c.valorpagar c.parcelas) := by
    simp [novaParcelaCriacao, Function.comp_def]
  rw [hsum]
  have hr := abs_toFixed2_sub_le (quocienteDuplo c.valorpagar c.parcelas)
  have hq := quocienteDuplo_soma c.valorpagar c.parcelas (Nat.pos_of_ne_zero hn) hR
  have hR2 : (c.parcelas : ℚ) * toFixed2 (quocienteDuplo c.valorpagar c.parcelas) -
      c.valorpagar =
      (c.parcelas : ℚ) * (toFixed2 (quocienteDuplo c.valorpagar c.parcelas) -
        quocienteDuplo c.valorpagar c.parcelas) +
      (c.parcelas : ℚ) * (quocienteDuplo c.valorpagar c.parcelas -
        c.valorpagar / (c.parcelas : ℚ)) := by
    field_simp
    ring
  rw [hR2]
  have h1 : |(c.parcelas : ℚ) * (toFixed2 (quocienteDuplo c.valorpagar c.parcelas) -
      quocienteDuplo c.valorpagar c.parcelas)| ≤ (c.parcelas : ℚ) * (1 / 200) := by
    rw [abs_mul, abs_of_pos hn0]
    exact mul_le_mul_of_nonneg_left hr hn0.le
  have h2 : |(c.parcelas : ℚ) * (quocienteDuplo c.valorpagar c.parcelas -
      c.valorpagar / (c.parcelas : ℚ))| ≤ (c.parcelas : ℚ) / 200 := by
    rw [abs_mul, abs_of_pos hn0]
    exact hq
  have h3 := abs_add ((c.parcelas : ℚ) * (toFixed2 (quocienteDuplo c.valorpagar c.parcelas) -
      quocienteDuplo c.valorpagar c.parcelas))
    ((c.parcelas : ℚ) * (quocienteDuplo c.valorpagar c.parcelas -
      c.valorpagar / (c.parcelas : ℚ)))
  linarith

/-- C2 at the example of the specification: four installments of 300.00 add up to the
repayable amount 1200 within four cents. -/
theorem postEmprestimos_soma_parcelas_exemplo :
    camposFaltando corpoAna = false ∧ (∃ x ∈ dbAna.clientes, x.nome = corpoAna.cliente) ∧
      |corpoAna.valorpagar| ≤ 10 ^ 13 ∧
      |((parcelasCriadas dbAna meioDia0101 corpoAna).map (fun p => p.valor_parcela)).sum -
        corpoAna.valorpagar| ≤ ((corpoAna.parcelas : Nat) : ℚ) * (1 / 100) :=
  ⟨camposFaltando_corpoAna, cliente_corpoAna, by norm_num [corpoAna],
    postEmprestimos_soma_parcelas dbAna meioDia0101 corpoAna camposFaltando_corpoAna
      cliente_corpoAna (by norm_num [corpoAna])⟩

/-- C2 does not hold for every repayable amount: for 10^15 in 3 installments the three
rows carry 333333333333333.31 each, so their sum is 999999999999999.93, which is 7 cents
from the repayable amount, more than the 3 cents of the bound. -/
theorem soma_parcelas_excede :
    camposFaltando corpoQuatrilhao = false ∧
    (parcelasCriadas dbAna meioDia0101 corpoQuatrilhao).map (fun p => p.valor_parcela) =
      [33333333333333331 / 100, 33333333333333331 / 100, 33333333333333331 / 100] ∧
    ((parcelasCriadas dbAna meioDia0101 corpoQuatrilhao).map (fun p => p.valor_parcela)).sum -
      corpoQuatrilhao.valorpagar = -(7 / 100) ∧
    (corpoQuatrilhao.parcelas : ℚ) * (1 / 100) <
      |((parcelasCriadas dbAna meioDia0101 corpoQuatrilhao).map
        (fun p => p.valor_parcela)).sum - corpoQuatrilhao.valorpagar| := by
  refine ⟨by decide!, by decide!, by decide!, by decide!⟩

theorem Data.not_antes_of_antes (a b : Data) (h : a.antes b) : ¬ b.antes a ∧ a ≠ b := by
  unfold Data.antes at h ⊢
  constructor
  · omega
  · intro hab
    subst hab
    omega

/-- C3: every row `POST /emprestimos` creates at instant `agora` has status `Atrasada`
when its due date (the midnight that starts it) lies before `agora` and `Pendente`
otherwise; none is created `Pago`.  In calendar terms: a row due on a day before the day
of `agora` is `Atrasada` and a row due on a later day is `Pendente`. -/
theorem postEmprestimos_status_inicial (db : DB) (agora : Instante) (c : CorpoEmprestimo)
    (hc : camposFaltando c = false) (hcli : ∃ x ∈ db.clientes, x.nome = c.cliente)
    (p : Parcela) (hp : p ∈ parcelasCriadas db agora c) :
    p.status = (if p.data_vencimento.meiaNoite.antes agora then StatusParcela.Atrasada
      else StatusParcela.Pendente) ∧ p.status ≠ StatusParcela.Pago ∧
    (p.data_vencimento.antes agora.data → p.status = StatusParcela.Atrasada) ∧
    (agora.data.antes p.data_vencimento → p.status = StatusParcela.Pendente) := by
  rw [parcelasCriadas_eq db agora c hc hcli] at hp
  simp only [List.mem_map, List.mem_range] at hp
  obtain ⟨j, _, rfl⟩ := hp
  have hst : (novaParcelaCriacao db.proxIdEmprestimo (quocienteDuplo c.valorpagar c.parcelas)
      c.dataemprestimo agora (db.proxIdParcela + j) (1 + j)).status =
      (if (novaParcelaCriacao db.proxIdEmprestimo (quocienteDuplo c.valorpagar c.parcelas)
        c.dataemprestimo agora (db.proxIdParcela + j) (1 + j)).data_vencimento.meiaNoite.antes
        agora then StatusParcela.Atrasada else StatusParcela.Pendente) := rfl
  generalize novaParcelaCriacao db.proxIdEmprestimo (quocienteDuplo c.valorpagar c.parcelas)
    c.dataemprestimo agora (db.proxIdParcela + j) (1 + j) = q at hst ⊢
  refine ⟨hst, ?_, ?_, ?_⟩
  · rw [hst]; split <;> simp
  · intro h
    have hb : q.data_vencimento.meiaNoite.antes agora := Or.inl h
    rw [hst, if_pos hb]
  · intro h
    have hn := Data.not_antes_of_antes _ _ h
    have hb : ¬ q.data_vencimento.meiaNoite.antes agora := by
      rintro (h1 | ⟨h1, _⟩)
      · exact hn.1 h1
      · exact hn.2 h1.symm
    rw [hst, if_neg hb]

/-- C3 at the example loan created at noon of 2024-03-15: the first installment, due
on 2024-02-01, is created `Atrasada`. -/
theorem postEmprestimos_status_inicial_exemplo :
    camposFaltando corpoAna = false ∧ (∃ x ∈ dbAna.clientes, x.nome = corpoAna.cliente) ∧
      parcelaAna1 ∈ parcelasCriadas dbAna meioDia1503 corpoAna ∧
      parcelaAna1.status = (if parcelaAna1.data_vencimento.meiaNoite.antes meioDia1503 then
        StatusParcela.Atrasada else StatusParcela.Pendente) ∧
      parcelaAna1.status ≠ StatusParcela.Pago := by
  have hm : parcelaAna1 ∈ parcelasCriadas dbAna meioDia1503 corpoAna := by
    rw [parcelasCriadas_eq dbAna meioDia1503 corpoAna camposFaltando_corpoAna cliente_corpoAna]
    refine List.mem_map.mpr ⟨0, by simp [corpoAna], ?_⟩
    simp [novaParcelaCriacao, parcelaAna1, dbAna, corpoAna, toFixed2_300, setMonth, getMonth,
      rolarDia, diasNoMes, bissexto, meioDia1503, Data.meiaNoite, Instante.antes, Data.antes]
  have h := postEmprestimos_status_inicial dbAna meioDia1503 corpoAna camposFaltando_corpoAna
    cliente_corpoAna parcelaAna1 hm
  exact ⟨camposFaltando_corpoAna, cliente_corpoAna, hm, h.1, h.2.1⟩

/-! ## Editing the installment count (`PUT /emprestimos/:id`) -/

theorem length_filter_numeros_acima (db : DB) (id antigo novo : Nat)
    (hnum : db.numeradas id antigo) (hlt : novo < antigo) :
    (db.parcelas.filter
      (fun p => decide (p.id_emprestimo = id ∧ novo < p.numero_parcela))).length =
      antigo - novo := by
  have h1 : db.parcelas.filter
      (fun p => decide (p.id_emprestimo = id ∧ novo < p.numero_parcela)) =
      (db.parcelas.filter (fun p => decide (p.id_emprestimo = id))).filter
        (fun p => decide (novo < p.numero_parcela)) := by
    rw [List.filter_filter]
    apply List.filter_congr
    intro p _
    by_cases ha : p.id_emprestimo = id <;> by_cases hb : novo < p.numero_parcela <;>
      simp [ha, hb]
  have h2 : (((db.parcelas.filter (fun p => decide (p.id_emprestimo = id))).map
      (fun p => p.numero_parcela)).filter (fun m => decide (novo < m))).Perm
      ((List.range' 1 antigo).filter (fun m => decide (novo < m))) := hnum.filter _
  have hsplit : List.range' 1 antigo =
      List.range' 1 novo ++ List.range' (1 + novo) (antigo - novo) := by
    rw [List.range'_append_1]; congr 1; omega
  have h3 : (List.range' 1 antigo).filter (fun m => decide (novo < m)) =
      List.range' (1 + novo) (antigo - novo) := by
    rw [hsplit, List.filter_append]
    have ha : (List.range' 1 novo).filter (fun m => decide (novo < m)) = [] := by
      rw [List.filter_eq_nil_iff]
      intro m hm
      have := List.mem_range'_1.mp hm
      simp; omega
    have hb : (List.range' (1 + novo) (antigo - novo)).filter (fun m => decide (novo < m)) =
        List.range' (1 + novo) (antigo - novo) := by
      rw [List.filter_eq_self]
      intro m hm
      have := List.mem_range'_1.mp hm
      simp; omega
    rw [ha, hb, List.nil_append]
  have h4 := h2.length_eq
  rw [h3, List.length_range', List.filter_map, List.length_map] at h4
  rw [h1]
  exact h4

/-- C4: when `PUT /emprestimos/:id` lowers the count of a loan whose rows carry the
sequence numbers `1..old` (`old` being the stored count) to `new < old`, the rows deleted
from `parcelas` are exactly the rows of that loan with sequence number above `new`,
whatever their status; there are `old - new` of them, and every other row stays (with the
amount of the rows of the loan overwritten). -/
theorem putEmprestimo_reduz (db : DB) (id : Nat) (c : CorpoEmprestimo) (e0 : Emprestimo)
    (hc : camposFaltando c = false) (hcli : ∃ x ∈ db.clientes, x.nome = c.cliente)
    (hemp : emprestimoExistente db id = some e0) (hk : db.chavesParcelas)
    (hnum : db.numeradas id e0.parcelas) (hlt : c.parcelas < e0.parcelas) :
    (∃ r, (putEmprestimo db id c).2 = .ok r) ∧
    (putEmprestimo db id c).1.parcelas =
      (db.parcelas.filter (fun p => decide
        (¬ (p.id_emprestimo = id ∧ c.parcelas < p.numero_parcela)))).map
        (fun p => if p.id_emprestimo = id then
          { p with valor_parcela := toFixed2 (quocienteDuplo c.valorpagar c.parcelas) } else p) ∧
    (db.parcelas.filter (fun p => decide
      (p.id_emprestimo = id ∧ c.parcelas < p.numero_parcela))).length =
      e0.parcelas - c.parcelas := by
  refine ⟨(putEmprestimo_eq db id c e0 hc hcli hemp).2, ?_,
    length_filter_numeros_acima db id e0.parcelas c.parcelas hnum hlt⟩
  have h0 : c.parcelas - e0.parcelas = 0 := by omega
  have hnum1 : (regravarEmprestimo db id c).numeradas id e0.parcelas := hnum
  have hnd1 : ((regravarEmprestimo db id c).parcelas.map (fun p => p.id)).Nodup := hk.1
  rw [putEmprestimo_parcelas db id c e0 hc hcli hemp hk, h0,
    removerUltimasParcelas_numeradas _ id e0.parcelas c.parcelas hnd1 hnum1 hlt]
  simp [regravarEmprestimo]

theorem emprestimoExistente_dbSeis : emprestimoExistente dbSeis 1 = some emprestimoSeis := by
  rfl

theorem cliente_dbSeis : ∃ x ∈ dbSeis.clientes, x.nome = corpoAna.cliente :=
  ⟨clienteZerado 1 "Ana", by simp [dbSeis], rfl⟩

theorem chavesParcelas_dbSeis : dbSeis.chavesParcelas := by
  unfold DB.chavesParcelas
  simp [dbSeis, parcelaSeis]

theorem numeradas_dbSeis : dbSeis.numeradas 1 emprestimoSeis.parcelas := by
  unfold DB.numeradas
  simp [dbSeis, parcelaSeis, emprestimoSeis, List.range']

/-- C4 at the example of the specification: shrinking the loan of `dbSeis` from 6 to 4
installments removes exactly installments 5 (paid) and 6 (pending). -/
theorem putEmprestimo_reduz_exemplo :
    camposFaltando corpoAna = false ∧ emprestimoExistente dbSeis 1 = some emprestimoSeis ∧
      dbSeis.chavesParcelas ∧ dbSeis.numeradas 1 6 ∧ corpoAna.parcelas < 6 ∧
      (putEmprestimo dbSeis 1 corpoAna).1.parcelas =
        [{ parcelaSeis 1 StatusParcela.Pago with valor_parcela := 300 },
         { parcelaSeis 2 StatusParcela.Pendente with valor_parcela := 300 },
         { parcelaSeis 3 StatusParcela.Pendente with valor_parcela := 300 },
         { parcelaSeis 4 StatusParcela.Pendente with valor_parcela := 300 }] := by
  have hlt : corpoAna.parcelas < emprestimoSeis.parcelas := by decide
  refine ⟨camposFaltando_corpoAna, emprestimoExistente_dbSeis, chavesParcelas_dbSeis,
    numeradas_dbSeis, hlt, ?_⟩
  rw [(putEmprestimo_reduz dbSeis 1 corpoAna emprestimoSeis camposFaltando_corpoAna
    cliente_dbSeis emprestimoExistente_dbSeis chavesParcelas_dbSeis numeradas_dbSeis hlt).2.1]
  simp [dbSeis, parcelaSeis, corpoAna, toFixed2_300]

theorem putEmprestimo_emprestimos (db : DB) (id : Nat) (c : CorpoEmprestimo) (e0 : Emprestimo)
    (hc : camposFaltando c = false) (hcli : ∃ x ∈ db.clientes, x.nome = c.cliente)
    (hemp : emprestimoExistente db id = some e0) :
    (putEmprestimo db id c).1.emprestimos = (regravarEmprestimo db id c).emprestimos := by
  rw [(putEmprestimo_eq db id c e0 hc hcli hemp).1]
  unfold atualizarValores
  simp only []
  rw [(acrescentarParcelas_parcelas _ _ _ _ _ _).2.1,
    (removerUltimasParcelas_sublist _ _ _ _).2.2.1]

theorem sobrescrever_id_emprestimo (id : Nat) (v : ℚ) (p : Parcela) :
    (if p.id_emprestimo = id then { p with valor_parcela := v } else p).id_emprestimo =
      p.id_emprestimo := by
  split <;> rfl

theorem sobrescrever_numero (id : Nat) (v : ℚ) (p : Parcela) :
    (if p.id_emprestimo = id then { p with valor_parcela := v } else p).numero_parcela =
      p.numero_parcela := by
  split <;> rfl

/-- C5: when `PUT /emprestimos/:id` raises the count of a loan whose rows carry the
sequence numbers `1..old` (`old` being the stored count) to `new > old`, every existing
row is kept (the amount of the rows of the loan overwritten) and exactly one row is
appended for each sequence number `i` in `old+1..new`, due `i` calendar months after the
origination date of the request, which is the origination date the loan has after the
edit; afterwards the rows of the loan carry the sequence numbers `1..new`. -/
theorem putEmprestimo_amplia (db : DB) (id : Nat) (c : CorpoEmprestimo) (e0 : Emprestimo)
    (hc : camposFaltando c = false) (hcli : ∃ x ∈ db.clientes, x.nome = c.cliente)
    (hemp : emprestimoExistente db id = some e0) (hk : db.chavesParcelas)
    (hnum : db.numeradas id e0.parcelas) (hgt : e0.parcelas < c.parcelas)
    (hd : c.dataemprestimo.valida) :
    (∃ r, (putEmprestimo db id c).2 = .ok r) ∧
    (∃ novas, (putEmprestimo db id c).1.parcelas =
        db.parcelas.map (fun p => if p.id_emprestimo = id then
          { p with valor_parcela := toFixed2 (quocienteDuplo c.valorpagar c.parcelas) } else p)
        ++ novas ∧
      novas.map (fun p => (p.id_emprestimo, p.numero_parcela, p.data_vencimento)) =
        (List.range' (e0.parcelas + 1) (c.parcelas - e0.parcelas)).map
          (fun i => (id, i, avancarMeses c.dataemprestimo i))) ∧
    (∀ e ∈ (putEmprestimo db id c).1.emprestimos, e.id = id →
      e.dataemprestimo = c.dataemprestimo) ∧
    (putEmprestimo db id c).1.numeradas id c.parcelas := by
  have hpar := putEmprestimo_parcelas db id c e0 hc hcli hemp hk
  have hrem : (removerUltimasParcelas (regravarEmprestimo db id c) id e0.parcelas
      c.parcelas).parcelas = db.parcelas := by
    unfold removerUltimasParcelas
    simp only []
    rw [if_neg (by omega)]
    rfl
  rw [hrem, List.map_append, List.map_map] at hpar
  have hnovas : ((fun p : Parcela => if p.id_emprestimo = id then
        { p with valor_parcela := toFixed2 (quocienteDuplo c.valorpagar c.parcelas) } else p) ∘
      fun j => novaParcelaEdicao id (quocienteDuplo c.valorpagar c.parcelas) c.dataemprestimo
        (db.proxIdParcela + j) (e0.parcelas + 1 + j)) =
      fun j => novaParcelaEdicao id (quocienteDuplo c.valorpagar c.parcelas) c.dataemprestimo
        (db.proxIdParcela + j) (e0.parcelas + 1 + j) := by
    funext j
    simp [novaParcelaEdicao]
  rw [hnovas] at hpar
  refine ⟨(putEmprestimo_eq db id c e0 hc hcli hemp).2, ⟨_, hpar, ?_⟩, ?_, ?_⟩
  · rw [List.range'_eq_map_range, List.map_map, List.map_map]
    apply List.map_congr_left
    intro j _
    simp [novaParcelaEdicao, setMonth_eq_avancarMeses _ _ hd]
  · intro e he hid
    rw [putEmprestimo_emprestimos db id c e0 hc hcli hemp] at he
    simp only [regravarEmprestimo, List.mem_map] at he
    obtain ⟨e1, _, rfl⟩ := he
    by_cases h1 : e1.id = id
    · simp [h1]
    · simp [h1] at hid
  · unfold DB.numeradas at hnum ⊢
    rw [hpar, List.filter_append, List.map_append, List.filter_map, List.map_map]
    have hf : ((fun p : Parcela => decide (p.id_emprestimo = id)) ∘
        fun p : Parcela => if p.id_emprestimo = id then
          { p with valor_parcela := toFixed2 (quocienteDuplo c.valorpagar c.parcelas) } else p) =
        fun p : Parcela => decide (p.id_emprestimo = id) := by
      funext p
      simp only [Function.comp, sobrescrever_id_emprestimo]
    have hg : ((fun p : Parcela => p.numero_parcela) ∘
        fun p : Parcela => if p.id_emprestimo = id then
          { p with valor_parcela := toFixed2 (quocienteDuplo c.valorpagar c.parcelas) } else p) =
        fun p : Parcela => p.numero_parcela := by
      funext p
      simp only [Function.comp, sobrescrever_numero]
    rw [hf, hg]
    have hall : (List.map (fun j => novaParcelaEdicao id (quocienteDuplo c.valorpagar c.parcelas)
          c.dataemprestimo (db.proxIdParcela + j) (e0.parcelas + 1 + j))
          (List.range (c.parcelas - e0.parcelas))).filter
          (fun p => decide (p.id_emprestimo = id)) =
        List.map (fun j => novaParcelaEdicao id (quocienteDuplo c.valorpagar c.parcelas)
          c.dataemprestimo (db.proxIdParcela + j) (e0.parcelas + 1 + j))
          (List.range (c.parcelas - e0.parcelas)) := by
      rw [List.filter_eq_self]
      intro p hp
      simp only [List.mem_map] at hp
      obtain ⟨j, _, rfl⟩ := hp
      simp [novaParcelaEdicao]
    rw [hall, List.map_map]
    have hsplit : List.range' 1 c.parcelas =
        List.range' 1 e0.parcelas ++ List.range' (1 + e0.parcelas) (c.parcelas - e0.parcelas) := by
      rw [List.range'_append_1]; congr 1; omega
    rw [hsplit]
    refine hnum.append ?_
    rw [List.range'_eq_map_range]
    apply List.Perm.of_eq
    apply List.map_congr_left
    intro j _
    simp [novaParcelaEdicao]
    omega

/-- C5 at the loan of `dbSeis` extended from 6 to 8 installments: the rows appended are
numbers 7 and 8, due on 2024-08-01 and 2024-09-01. -/
theorem putEmprestimo_amplia_exemplo :
    camposFaltando corpoOito = false ∧ emprestimoExistente dbSeis 1 = some emprestimoSeis ∧
      dbSeis.chavesParcelas ∧ dbSeis.numeradas 1 6 ∧ 6 < corpoOito.parcelas ∧
      corpoOito.dataemprestimo.valida ∧
      ((putEmprestimo dbSeis 1 corpoOito).1.parcelas.drop 6).map
        (fun p => (p.id_emprestimo, p.numero_parcela, p.data_vencimento)) =
        [(1, 7, ⟨2024, 8, 1⟩), (1, 8, ⟨2024, 9, 1⟩)] ∧
      (putEmprestimo dbSeis 1 corpoOito).1.numeradas 1 8 := by
  have hc : camposFaltando corpoOito = false := by simp [camposFaltando, corpoOito, corpoAna]
  have hgt : emprestimoSeis.parcelas < corpoOito.parcelas := by decide
  have hd : corpoOito.dataemprestimo.valida := by decide
  obtain ⟨_, ⟨novas, h1, h2⟩, _, h4⟩ := putEmprestimo_amplia dbSeis 1 corpoOito emprestimoSeis hc
    cliente_dbSeis emprestimoExistente_dbSeis chavesParcelas_dbSeis numeradas_dbSeis hgt hd
  refine ⟨hc, emprestimoExistente_dbSeis, chavesParcelas_dbSeis, numeradas_dbSeis, hgt, hd,
    ?_, h4⟩
  rw [h1, List.drop_left' (by simp [dbSeis]), h2]
  simp [emprestimoSeis, corpoOito, corpoAna, List.range', avancarMeses, diasNoMes]

/-- C6: after `PUT /emprestimos/:id` succeeds with repayable amount `valorpagar` and
count `parcelas`, every row of that loan left in `parcelas`, whatever its status, has the
same amount, a whole number of cents: the quotient of `valorpagar` by `parcelas` computed
in JavaScript arithmetic and rounded to cents; the rows of the other loans are unchanged.
When `valorpagar` is a whole number of cents of magnitude at most 10^13 and `parcelas` is
below 2^53, that amount is within half a cent of `valorpagar / parcelas`. -/
theorem putEmprestimo_valores (db : DB) (id : Nat) (c : CorpoEmprestimo) (e0 : Emprestimo)
    (hc : camposFaltando c = false) (hcli : ∃ x ∈ db.clientes, x.nome = c.cliente)
    (hemp : emprestimoExistente db id = some e0) (hk : db.chavesParcelas) :
    (∃ r, (putEmprestimo db id c).2 = .ok r) ∧
    (∀ q ∈ (putEmprestimo db id c).1.parcelas, q.id_emprestimo = id →
      q.valor_parcela = toFixed2 (quocienteDuplo c.valorpagar c.parcelas)) ∧
    (putEmprestimo db id c).1.parcelas.filter (fun p => decide (p.id_emprestimo ≠ id)) =
      db.parcelas.filter (fun p => decide (p.id_emprestimo ≠ id)) ∧
    (∃ m : ℤ, toFixed2 (quocienteDuplo c.valorpagar c.parcelas) = (m : ℚ) / 100) ∧
    ((∃ r : ℤ, c.valorpagar = (r : ℚ) / 100) → |c.valorpagar| ≤ 10 ^ 13 →
      c.parcelas < 2 ^ 53 →
      |toFixed2 (quocienteDuplo c.valorpagar c.parcelas) -
        c.valorpagar / (c.parcelas : ℚ)| ≤ 1 / 200) := by
  have hpar := putEmprestimo_parcelas db id c e0 hc hcli hemp hk
  have hn : 0 < c.parcelas := by
    apply Nat.pos_of_ne_zero
    intro h
    simp [camposFaltando, h] at hc
  have hcent : (∃ r : ℤ, c.valorpagar = (r : ℚ) / 100) → |c.valorpagar| ≤ 10 ^ 13 →
      c.parcelas < 2 ^ 53 →
      |toFixed2 (quocienteDuplo c.valorpagar c.parcelas) -
        c.valorpagar / (c.parcelas : ℚ)| ≤ 1 / 200 := by
    rintro ⟨r, hr⟩ hR hlim
    have hq := quocienteDuplo_perto c.valorpagar c.parcelas hn hR hlim
    rw [hr] at hq ⊢
    exact toFixed2_proximo r c.parcelas hn _ hq
  refine ⟨(putEmprestimo_eq db id c e0 hc hcli hemp).2, ?_, ?_, toFixed2_centavos _, hcent⟩
  · intro q hq hid
    rw [hpar, List.mem_map] at hq
    obtain ⟨p, _, rfl⟩ := hq
    rw [sobrescrever_id_emprestimo] at hid
    simp [hid]
  · rw [hpar, List.filter_map]
    have hf : ((fun p : Parcela => decide (p.id_emprestimo ≠ id)) ∘
        fun p : Parcela => if p.id_emprestimo = id then
          { p with valor_parcela := toFixed2 (quocienteDuplo c.valorpagar c.parcelas) } else p) =
        fun p : Parcela => decide (p.id_emprestimo ≠ id) := by
      funext p
      simp only [Function.comp, sobrescrever_id_emprestimo]
    rw [hf, List.filter_append]
    have hnovas : (List.map (fun j => novaParcelaEdicao id (quocienteDuplo c.valorpagar c.parcelas)
          c.dataemprestimo (db.proxIdParcela + j) (e0.parcelas + 1 + j))
          (List.range (c.parcelas - e0.parcelas))).filter
          (fun p => decide (p.id_emprestimo ≠ id)) = [] := by
      rw [List.filter_eq_nil_iff]
      intro p hp
      simp only [List.mem_map] at hp
      obtain ⟨j, _, rfl⟩ := hp
      simp [novaParcelaEdicao]
    have hnd1 : ((regravarEmprestimo db id c).parcelas.map (fun p => p.id)).Nodup := hk.1
    rw [hnovas, List.append_nil,
      removerUltimasParcelas_outros _ id e0.parcelas c.parcelas hnd1]
    have hid : ∀ p ∈ (regravarEmprestimo db id c).parcelas.filter
        (fun p => decide (p.id_emprestimo ≠ id)),
        (if p.id_emprestimo = id then
          { p with valor_parcela := toFixed2 (quocienteDuplo c.valorpagar c.parcelas) } else p) = p := by
      intro p hp
      have := (List.mem_filter.mp hp).2
      simp only [ne_eq, decide_not, Bool.not_eq_true', decide_eq_false_iff_not] at this
      simp [this]
    rw [List.map_congr_left hid, List.map_id']
    rfl

/-- C6 at the loan of `dbSeis` edited to 4 installments of repayable 1200: the first
installment, which is paid and had amount 200.00, now has amount 300.00, which is within
half a cent of 1200 / 4. -/
theorem putEmprestimo_valores_exemplo :
    camposFaltando corpoAna = false ∧ emprestimoExistente dbSeis 1 = some emprestimoSeis ∧
      dbSeis.chavesParcelas ∧
      |toFixed2 (quocienteDuplo corpoAna.valorpagar corpoAna.parcelas) -
        corpoAna.valorpagar / (corpoAna.parcelas : ℚ)| ≤ 1 / 200 ∧
      { parcelaSeis 1 StatusParcela.Pago with valor_parcela := 300 } ∈
        (putEmprestimo dbSeis 1 corpoAna).1.parcelas ∧
      ∀ q ∈ (putEmprestimo dbSeis 1 corpoAna).1.parcelas, q.id_emprestimo = 1 →
        q.valor_parcela = 300 := by
  have h := putEmprestimo_valores dbSeis 1 corpoAna emprestimoSeis camposFaltando_corpoAna
    cliente_dbSeis emprestimoExistente_dbSeis chavesParcelas_dbSeis
  refine ⟨camposFaltando_corpoAna, emprestimoExistente_dbSeis, chavesParcelas_dbSeis,
    h.2.2.2.2 ⟨120000, by norm_num [corpoAna]⟩ (by norm_num [corpoAna])
      (by norm_num [corpoAna]), ?_, ?_⟩
  · rw [putEmprestimo_parcelas dbSeis 1 corpoAna emprestimoSeis camposFaltando_corpoAna
      cliente_dbSeis emprestimoExistente_dbSeis chavesParcelas_dbSeis]
    refine List.mem_map.mpr ⟨parcelaSeis 1 StatusParcela.Pago, ?_, ?_⟩
    · refine List.mem_append_left _ ?_
      have hnd1 : ((regravarEmprestimo dbSeis 1 corpoAna).parcelas.map (fun p => p.id)).Nodup :=
        chavesParcelas_dbSeis.1
      have hnum1 : (regravarEmprestimo dbSeis 1 corpoAna).numeradas 1 emprestimoSeis.parcelas :=
        numeradas_dbSeis
      rw [removerUltimasParcelas_numeradas (regravarEmprestimo dbSeis 1 corpoAna) 1
        emprestimoSeis.parcelas corpoAna.parcelas hnd1 hnum1 (by decide)]
      simp [regravarEmprestimo, dbSeis, parcelaSeis, corpoAna]
    · simp [parcelaSeis, corpoAna, toFixed2_300]
  · intro q hq hid
    have := h.2.1 q hq hid
    rw [this]
    simp [corpoAna, toFixed2_300]

/-- C6 does not hold as stated: the amount is not always the exact quotient rounded to
two decimals.  After the loan of `dbQuatro` is edited to repayable 1000.01 in 2
installments, its two rows carry 500.00, where the exact quotient 500.005 rounded half
away from zero is 500.01; after it is edited to repayable 10^15 in 3 installments, its
three rows carry 333333333333333.31, more than half a cent from the quotient. -/
theorem valores_diferem_do_quociente :
    (((putEmprestimo dbQuatro 1 corpoMil).1.parcelas.filter
        (fun p => decide (p.id_emprestimo = 1))).map
        (fun p => (p.numero_parcela, p.valor_parcela)) = [(1, 500), (2, 500)] ∧
      toFixed2 (corpoMil.valorpagar / (corpoMil.parcelas : ℚ)) = 50001 / 100) ∧
    (((putEmprestimo dbQuatro 1 corpoQuatrilhao).1.parcelas.filter
        (fun p => decide (p.id_emprestimo = 1))).map
        (fun p => (p.numero_parcela, p.valor_parcela)) =
        [(1, 33333333333333331 / 100), (2, 33333333333333331 / 100),
         (3, 33333333333333331 / 100)] ∧
      1 / 200 < |33333333333333331 / 100 -
        corpoQuatrilhao.valorpagar / (corpoQuatrilhao.parcelas : ℚ)|) := by
  refine ⟨⟨by decide!, by decide!⟩, ⟨by decide!, by decide!⟩⟩

/-! ## Toggling an installment (`PATCH /parcelas/:idParcela/status`) -/

theorem ajustarCliente_parcelas (db : DB) (emp : Emprestimo) (idEmprestimo : Nat)
    (status st : StatusParcela) :
    (ajustarCliente db emp idEmprestimo status st).parcelas = db.parcelas ∧
      (ajustarCliente db emp idEmprestimo status st).emprestimos = db.emprestimos := by
  unfold ajustarCliente
  simp only []
  split
  · exact ⟨rfl, rfl⟩
  · split <;> exact ⟨rfl, rfl⟩

theorem parcelaExistente_definirStatusParcela (db : DB) (idParcela : Nat) (p0 : Parcela)
    (st : StatusParcela) (pg : Option Instante)
    (hp0 : parcelaExistente db idParcela = some p0) :
    parcelaExistente (definirStatusParcela db idParcela st pg) idParcela =
      some { p0 with status := st, data_pagamento := pg } := by
  unfold parcelaExistente at hp0 ⊢
  unfold definirStatusParcela
  simp only []
  rw [List.filter_map]
  have hf : ((fun p : Parcela => decide (p.id = idParcela)) ∘ fun p : Parcela =>
      if p.id = idParcela then { p with status := st, data_pagamento := pg } else p) =
      fun p : Parcela => decide (p.id = idParcela) := by
    funext p
    by_cases h : p.id = idParcela <;> simp [h]
  rw [hf, List.head?_map, hp0]
  have hid : p0.id = idParcela := by
    have := List.mem_of_mem_head? hp0
    simpa using (List.mem_filter.mp this).2
  simp [hid]

theorem patchParcelaStatus_de_alterar (db : DB) (agora : Instante) (idParcela : Nat)
    (status : StatusParcela) (p0 : Parcela) (st : StatusParcela) (pg : Option Instante)
    (hs : status = StatusParcela.Pago ∨ status = StatusParcela.Pendente)
    (hp0 : parcelaExistente db idParcela = some p0)
    (ha : alterarParcela db agora idParcela status =
      some (definirStatusParcela db idParcela st pg, st)) :
    (patchParcelaStatus db agora idParcela status).2 =
        .ok (st, derivarStatos (definirStatusParcela db idParcela st pg) p0.id_emprestimo) ∧
      (patchParcelaStatus db agora idParcela status).1.parcelas =
        (definirStatusParcela db idParcela st pg).parcelas ∧
      (patchParcelaStatus db agora idParcela status).1.emprestimos =
        (definirStatos (definirStatusParcela db idParcela st pg) p0.id_emprestimo
          (derivarStatos (definirStatusParcela db idParcela st pg) p0.id_emprestimo)).emprestimos := by
  have h1 := parcelaExistente_definirStatusParcela db idParcela p0 st pg hp0
  unfold parcelaExistente at h1
  have hguard : ¬ (status ≠ StatusParcela.Pago ∧ status ≠ StatusParcela.Pendente) := by
    rcases hs with h | h <;> simp [h]
  unfold patchParcelaStatus
  rw [if_neg hguard, ha]
  simp only []
  split
  · rename_i h; rw [h] at h1; simp at h1
  · rename_i p1 rest h
    rw [h] at h1
    simp only [List.head?_cons, Option.some.injEq] at h1
    subst h1
    refine ⟨rfl, ?_, ?_⟩
    · simp only []
      split
      · rfl
      · rw [(ajustarCliente_parcelas _ _ _ _ _).1]; rfl
    · simp only []
      split
      · rfl
      · rw [(ajustarCliente_parcelas _ _ _ _ _).2]

theorem alterarParcela_pago (db : DB) (agora : Instante) (idParcela : Nat) :
    alterarParcela db agora idParcela StatusParcela.Pago =
      some (definirStatusParcela db idParcela StatusParcela.Pago (some agora),
        StatusParcela.Pago) := by
  simp [alterarParcela]

theorem alterarParcela_pendente (db : DB) (agora : Instante) (idParcela : Nat) (p0 : Parcela)
    (hp0 : parcelaExistente db idParcela = some p0) :
    alterarParcela db agora idParcela StatusParcela.Pendente =
      some (definirStatusParcela db idParcela
        (if p0.data_vencimento.antes agora.data then StatusParcela.Atrasada
          else StatusParcela.Pendente) none,
        (if p0.data_vencimento.antes agora.data then StatusParcela.Atrasada
          else StatusParcela.Pendente)) := by
  unfold parcelaExistente at hp0
  unfold alterarParcela
  rw [if_neg (by decide)]
  split
  · rename_i h; rw [h] at hp0; simp at hp0
  · rename_i p1 rest h
    rw [h] at hp0
    simp only [List.head?_cons, Option.some.injEq] at hp0
    subst hp0
    rfl

theorem eq_of_parcelaExistente (db : DB) (idParcela : Nat) (p0 p : Parcela)
    (hnd : (db.parcelas.map (fun p => p.id)).Nodup)
    (hp0 : parcelaExistente db idParcela = some p0) (hp : p ∈ db.parcelas)
    (hid : p.id = idParcela) : p = p0 := by
  have hm := List.mem_of_mem_head? hp0
  rw [List.mem_filter] at hm
  have h0 : p0.id = idParcela := by simpa using hm.2
  exact List.inj_on_of_nodup_map hnd hp hm.1 (hid.trans h0.symm)

/-- C7: for an installment row that exists (row ids being unique), the handler with
target `Pago` sets its status to `Pago` and its paid date to the current instant; with
target `Pendente` it sets the status to `Atrasada` when the due date is strictly before
the current date and to `Pendente` otherwise, and clears the paid date.  No other row of
`parcelas` changes and no due date changes; in both cases the handler succeeds and the
`statusParcela` it returns is the status stored in the row. -/
theorem patchParcelaStatus_transicao (db : DB) (agora : Instante) (idParcela : Nat)
    (p0 : Parcela) (hnd : (db.parcelas.map (fun p => p.id)).Nodup)
    (hp0 : parcelaExistente db idParcela = some p0) :
    ((patchParcelaStatus db agora idParcela StatusParcela.Pago).1.parcelas =
        db.parcelas.map (fun p => if p.id = idParcela then
          { p with status := StatusParcela.Pago, data_pagamento := some agora } else p) ∧
      ∃ l, (patchParcelaStatus db agora idParcela StatusParcela.Pago).2 =
        .ok (StatusParcela.Pago, l)) ∧
    ((patchParcelaStatus db agora idParcela StatusParcela.Pendente).1.parcelas =
        db.parcelas.map (fun p => if p.id = idParcela then
          { p with
            status := (if p.data_vencimento.antes agora.data then StatusParcela.Atrasada
              else StatusParcela.Pendente),
            data_pagamento := none } else p) ∧
      ∃ l, (patchParcelaStatus db agora idParcela StatusParcela.Pendente).2 =
        .ok ((if p0.data_vencimento.antes agora.data then StatusParcela.Atrasada
          else StatusParcela.Pendente), l)) ∧
    (∀ status st l, (patchParcelaStatus db agora idParcela status).2 = .ok (st, l) →
      ∀ q ∈ (patchParcelaStatus db agora idParcela status).1.parcelas,
        q.id = idParcela → q.status = st) := by
  have hA := patchParcelaStatus_de_alterar db agora idParcela StatusParcela.Pago p0
    StatusParcela.Pago (some agora) (Or.inl rfl) hp0 (alterarParcela_pago db agora idParcela)
  have hB := patchParcelaStatus_de_alterar db agora idParcela StatusParcela.Pendente p0
    (if p0.data_vencimento.antes agora.data then StatusParcela.Atrasada
      else StatusParcela.Pendente) none (Or.inr rfl) hp0
    (alterarParcela_pendente db agora idParcela p0 hp0)
  have hmapB : (patchParcelaStatus db agora idParcela StatusParcela.Pendente).1.parcelas =
      db.parcelas.map (fun p => if p.id = idParcela then
        { p with
          status := (if p.data_vencimento.antes agora.data then StatusParcela.Atrasada
            else StatusParcela.Pendente),
          data_pagamento := none } else p) := by
    rw [hB.2.1]
    unfold definirStatusParcela
    simp only []
    apply List.map_congr_left
    intro p hp
    by_cases hid : p.id = idParcela
    · rw [eq_of_parcelaExistente db idParcela p0 p hnd hp0 hp hid]
    · simp [hid]
  refine ⟨⟨hA.2.1, _, hA.1⟩, ⟨hmapB, _, hB.1⟩, ?_⟩
  intro status st l hok q hq hid
  cases status with
  | Pago =>
    rw [hA.1] at hok
    rw [hA.2.1] at hq
    simp only [Except.ok.injEq, Prod.mk.injEq] at hok
    simp only [definirStatusParcela, List.mem_map] at hq
    obtain ⟨p, _, rfl⟩ := hq
    by_cases h : p.id = idParcela
    · simp [h, ← hok.1]
    · simp [h] at hid
  | Pendente =>
    rw [hB.1] at hok
    rw [hB.2.1] at hq
    simp only [Except.ok.injEq, Prod.mk.injEq] at hok
    simp only [definirStatusParcela, List.mem_map] at hq
    obtain ⟨p, _, rfl⟩ := hq
    by_cases h : p.id = idParcela
    · simp [h, ← hok.1]
    · simp [h] at hid
  | Atrasada =>
    simp [patchParcelaStatus] at hok

/-- C7 at the paid-off example loan on 2024-03-15: un-paying installment 1, due on
2024-02-01, stores `Atrasada` with no paid date and leaves the other rows alone. -/
theorem patchParcelaStatus_transicao_exemplo :
    (dbQuitado.parcelas.map (fun p => p.id)).Nodup ∧
      parcelaExistente dbQuitado 1 = some (parcelaQuatro 1 StatusParcela.Pago) ∧
      (patchParcelaStatus dbQuitado meioDia1503 1 StatusParcela.Pendente).1.parcelas =
        [parcelaQuatro 1 StatusParcela.Atrasada, parcelaQuatro 2 StatusParcela.Pago,
         parcelaQuatro 3 StatusParcela.Pago, parcelaQuatro 4 StatusParcela.Pago] ∧
      (patchParcelaStatus dbQuitado meioDia1503 1 StatusParcela.Pago).1.parcelas =
        [{ parcelaQuatro 1 StatusParcela.Pago with data_pagamento := some meioDia1503 },
         parcelaQuatro 2 StatusParcela.Pago, parcelaQuatro 3 StatusParcela.Pago,
         parcelaQuatro 4 StatusParcela.Pago] := by
  have hnd : (dbQuitado.parcelas.map (fun p => p.id)).Nodup := by
    simp [dbQuitado, parcelaQuatro]
  have hp0 : parcelaExistente dbQuitado 1 = some (parcelaQuatro 1 StatusParcela.Pago) := rfl
  have h := patchParcelaStatus_transicao dbQuitado meioDia1503 1
    (parcelaQuatro 1 StatusParcela.Pago) hnd hp0
  refine ⟨hnd, hp0, ?_, ?_⟩
  · rw [h.2.1.1]
    simp [dbQuitado, parcelaQuatro, meioDia1503, Data.antes]
  · rw [h.1.1]
    simp [dbQuitado, parcelaQuatro]

theorem derivarStatos_eq (db : DB) (idEmprestimo : Nat) :
    derivarStatos db idEmprestimo = statosDerivado db idEmprestimo := by
  have hiff : ((db.parcelas.filter (fun p => decide (p.id_emprestimo = idEmprestimo))).any
      (fun p => decide (p.status = StatusParcela.Atrasada))) = true ↔
      db.temAtrasada idEmprestimo := by
    simp [DB.temAtrasada, List.any_eq_true, and_assoc]
  unfold derivarStatos statosDerivado
  by_cases h : db.temAtrasada idEmprestimo
  · rw [if_pos h, if_pos (hiff.mpr h)]
  · rw [if_neg h, if_neg (fun h2 => h (hiff.mp h2))]

theorem statosDerivado_congr (db db1 : DB) (idEmprestimo : Nat)
    (h : db.parcelas = db1.parcelas) :
    statosDerivado db idEmprestimo = statosDerivado db1 idEmprestimo := by
  simp only [statosDerivado, DB.temAtrasada, h]

theorem patchParcelaStatus_resultado (db : DB) (agora : Instante) (idParcela : Nat)
    (status : StatusParcela) (p0 : Parcela)
    (hs : status = StatusParcela.Pago ∨ status = StatusParcela.Pendente)
    (hp0 : parcelaExistente db idParcela = some p0) :
    (∃ st, (patchParcelaStatus db agora idParcela status).2 =
      .ok (st, statosDerivado (patchParcelaStatus db agora idParcela status).1
        p0.id_emprestimo)) ∧
    (patchParcelaStatus db agora idParcela status).1.emprestimos =
      db.emprestimos.map (fun e => if e.id = p0.id_emprestimo then
        { e with statos :=
            (statosDerivado (patchParcelaStatus db agora idParcela status).1 p0.id_emprestimo) }
        else e) := by
  have key : ∀ (st : StatusParcela) (pg : Option Instante),
      alterarParcela db agora idParcela status =
        some (definirStatusParcela db idParcela st pg, st) →
      (∃ st, (patchParcelaStatus db agora idParcela status).2 =
        .ok (st, statosDerivado (patchParcelaStatus db agora idParcela status).1
          p0.id_emprestimo)) ∧
      (patchParcelaStatus db agora idParcela status).1.emprestimos =
        db.emprestimos.map (fun e => if e.id = p0.id_emprestimo then
          { e with statos :=
              (statosDerivado (patchParcelaStatus db agora idParcela status).1
                p0.id_emprestimo) }
          else e) := by
    intro st pg ha
    obtain ⟨h1, h2, h3⟩ := patchParcelaStatus_de_alterar db agora idParcela status p0 st pg
      hs hp0 ha
    have hX := statosDerivado_congr _ _ p0.id_emprestimo h2
    rw [hX, ← derivarStatos_eq]
    exact ⟨⟨st, h1⟩, h3⟩
  rcases hs with h | h
  · subst h
    exact key _ _ (alterarParcela_pago db agora idParcela)
  · subst h
    exact key _ _ (alterarParcela_pendente db agora idParcela p0 hp0)

/-- C8: when the handler is called with target `Pago` or `Pendente` on an installment
row that exists, it succeeds, and the `statusEmprestimo` it returns and the status
stored in the loan of that installment are both `Em Atraso` if that loan has at least
one `Atrasada` installment after the change and `Pendente` otherwise (whatever the
status of the loan was before). -/
theorem patchParcelaStatus_statos (db : DB) (agora : Instante) (idParcela : Nat)
    (status : StatusParcela) (p0 : Parcela)
    (hs : status = StatusParcela.Pago ∨ status = StatusParcela.Pendente)
    (hp0 : parcelaExistente db idParcela = some p0) :
    (∃ st, (patchParcelaStatus db agora idParcela status).2 =
      .ok (st, if (patchParcelaStatus db agora idParcela status).1.temAtrasada
          p0.id_emprestimo then StatusEmprestimo.EmAtraso else StatusEmprestimo.Pendente)) ∧
    ∀ e ∈ (patchParcelaStatus db agora idParcela status).1.emprestimos,
      e.id = p0.id_emprestimo →
      e.statos = if (patchParcelaStatus db agora idParcela status).1.temAtrasada
          p0.id_emprestimo then StatusEmprestimo.EmAtraso else StatusEmprestimo.Pendente := by
  obtain ⟨h1, h2⟩ := patchParcelaStatus_resultado db agora idParcela status p0 hs hp0
  refine ⟨h1, ?_⟩
  intro e he hid
  rw [h2, List.mem_map] at he
  obtain ⟨e1, _, rfl⟩ := he
  by_cases h : e1.id = p0.id_emprestimo
  · simp only [h, if_true]
    rfl
  · simp [h] at hid

/-- C8 at the example of the specification: paying installment 1 of the loan with four
pending installments leaves the loan `Pendente`. -/
theorem patchParcelaStatus_statos_exemplo :
    parcelaExistente dbQuatro 1 = some (parcelaQuatro 1 StatusParcela.Pendente) ∧
      (patchParcelaStatus dbQuatro meioDia0101 1 StatusParcela.Pago).2 =
        .ok (StatusParcela.Pago, StatusEmprestimo.Pendente) ∧
      ∀ e ∈ (patchParcelaStatus dbQuatro meioDia0101 1 StatusParcela.Pago).1.emprestimos,
        e.id = 1 → e.statos = StatusEmprestimo.Pendente := by
  have hp0 : parcelaExistente dbQuatro 1 = some (parcelaQuatro 1 StatusParcela.Pendente) := rfl
  have hn : ¬ (patchParcelaStatus dbQuatro meioDia0101 1 StatusParcela.Pago).1.temAtrasada
      (parcelaQuatro 1 StatusParcela.Pendente).id_emprestimo := by decide
  have h := patchParcelaStatus_statos dbQuatro meioDia0101 1 StatusParcela.Pago
    (parcelaQuatro 1 StatusParcela.Pendente) (Or.inl rfl) hp0
  rw [if_neg hn] at h
  refine ⟨hp0, rfl, h.2⟩

/-! ## Marking a loan as paid (`PATCH /emprestimos/:id/pago`) -/

/-- C9: `PATCH /emprestimos/:id/pago` answers with the validation failure exactly when
some installment row of the loan has a status other than `Pago`, and otherwise succeeds;
on failure the store is unchanged, on success the status of the loan becomes `Pago`
while every other loan row, every installment row and every customer row is unchanged. -/
theorem patchEmprestimoPago_correto (db : DB) (id : Nat) :
    ((patchEmprestimoPago db id).2 = .error .parcelasNaoPagas ↔
      ∃ p ∈ db.parcelas, p.id_emprestimo = id ∧ p.status ≠ StatusParcela.Pago) ∧
    ((patchEmprestimoPago db id).2 = .error .parcelasNaoPagas ∨
      (patchEmprestimoPago db id).2 = .ok ()) ∧
    ((patchEmprestimoPago db id).2 = .error .parcelasNaoPagas →
      (patchEmprestimoPago db id).1 = db) ∧
    ((patchEmprestimoPago db id).2 = .ok () →
      (patchEmprestimoPago db id).1.parcelas = db.parcelas ∧
      (patchEmprestimoPago db id).1.clientes = db.clientes ∧
      (patchEmprestimoPago db id).1.emprestimos = db.emprestimos.map (fun e =>
        if e.id = id then { e with statos := StatusEmprestimo.Pago } else e)) := by
  have hiff : (db.parcelas.filter (fun p => decide (p.id_emprestimo = id ∧
      p.status ≠ StatusParcela.Pago))).length > 0 ↔
      ∃ p ∈ db.parcelas, p.id_emprestimo = id ∧ p.status ≠ StatusParcela.Pago := by
    rw [gt_iff_lt, List.length_pos_iff_exists_mem]
    simp only [List.mem_filter, decide_eq_true_eq]
  unfold patchEmprestimoPago
  simp only []
  by_cases h : (db.parcelas.filter (fun p => decide (p.id_emprestimo = id ∧
      p.status ≠ StatusParcela.Pago))).length > 0
  · rw [if_pos h]
    refine ⟨⟨fun _ => hiff.mp h, fun _ => rfl⟩, Or.inl rfl, fun _ => rfl, ?_⟩
    intro hok
    simp at hok
  · rw [if_neg h]
    refine ⟨⟨?_, fun h2 => absurd (hiff.mpr h2) h⟩, Or.inr rfl, ?_, fun _ => ⟨rfl, rfl, rfl⟩⟩
    · intro hok; simp at hok
    · intro hok; simp at hok

/-- C9 at the example loan: with four pending installments the request is refused and
the store is unchanged; with four paid installments the loan becomes `Pago`. -/
theorem patchEmprestimoPago_correto_exemplo :
    (patchEmprestimoPago dbQuatro 1).2 = .error .parcelasNaoPagas ∧
      (patchEmprestimoPago dbQuatro 1).1 = dbQuatro ∧
      (patchEmprestimoPago (definirStatos dbQuitado 1 StatusEmprestimo.Pendente) 1).1.emprestimos =
        [emprestimoQuatro StatusEmprestimo.Pago] := by
  have h1 := patchEmprestimoPago_correto dbQuatro 1
  have h2 := patchEmprestimoPago_correto (definirStatos dbQuitado 1 StatusEmprestimo.Pendente) 1
  have hf : (patchEmprestimoPago dbQuatro 1).2 = .error .parcelasNaoPagas :=
    h1.1.mpr ⟨parcelaQuatro 1 StatusParcela.Pendente, by simp [dbQuatro], rfl, by decide⟩
  refine ⟨hf, h1.2.2.1 hf, ?_⟩
  rw [(h2.2.2.2 rfl).2.2]
  simp [definirStatos, dbQuitado, emprestimoQuatro]

/-! ## The status `Pago` of a loan -/

theorem varrerAtrasos_emprestimos (hoje : Data) (db : DB) :
    (varrerAtrasos hoje db).emprestimos =
      db.emprestimos.map (fun e =>
        if (marcarParcelasAtrasadas hoje db).temAtrasada e.id then
          { e with statos := StatusEmprestimo.EmAtraso }
        else e) := by
  unfold varrerAtrasos recontarEmprestimosAtrasados recontarAtrasos marcarEmprestimosEmAtraso
  simp only []
  apply List.map_congr_left
  intro e _
  have hiff : ((marcarParcelasAtrasadas hoje db).parcelas.any (fun p =>
      decide (e.id = p.id_emprestimo ∧ p.status = StatusParcela.Atrasada))) = true ↔
      (marcarParcelasAtrasadas hoje db).temAtrasada e.id := by
    simp only [DB.temAtrasada, List.any_eq_true, decide_eq_true_eq]
    constructor
    · rintro ⟨q, h1, h2, h3⟩; exact ⟨q, h1, h2.symm, h3⟩
    · rintro ⟨q, h1, h2, h3⟩; exact ⟨q, h1, h2.symm, h3⟩
  by_cases h : (marcarParcelasAtrasadas hoje db).temAtrasada e.id
  · rw [if_pos h, if_pos (hiff.mpr h)]
  · rw [if_neg h, if_neg (fun h2 => h (hiff.mp h2))]

theorem putEmprestimo_statos (db : DB) (id : Nat) (c : CorpoEmprestimo) :
    (putEmprestimo db id c).1.emprestimos.map (fun e => (e.id, e.statos)) =
      db.emprestimos.map (fun e => (e.id, e.statos)) := by
  unfold putEmprestimo
  split
  · rfl
  · split
    · rfl
    · split
      · rfl
      · unfold atualizarValores
        simp only []
        rw [(acrescentarParcelas_parcelas _ _ _ _ _ _).2.1,
          (removerUltimasParcelas_sublist _ _ _ _).2.2.1]
        unfold regravarEmprestimo
        simp only [List.map_map]
        apply List.map_congr_left
        intro e _
        by_cases h : e.id = id <;> simp [h]

/-- C10, refuted as stated: the paid-off example loan, whose status is `Pago`, becomes
`Pendente` when installment 1 is paid again, `Em Atraso` when installment 1 is un-paid
after its due date, and `Em Atraso` when a sweep runs after `PUT /emprestimos/1` has
appended a fifth installment that is then past due. -/
theorem pago_nao_absorvente :
    dbQuitado.emprestimos.map (fun e => (e.id, e.statos)) = [(1, StatusEmprestimo.Pago)] ∧
    (patchParcelaStatus dbQuitado meioDia0101 1 StatusParcela.Pago).1.emprestimos.map
      (fun e => (e.id, e.statos)) = [(1, StatusEmprestimo.Pendente)] ∧
    (patchParcelaStatus dbQuitado meioDia1503 1 StatusParcela.Pendente).1.emprestimos.map
      (fun e => (e.id, e.statos)) = [(1, StatusEmprestimo.EmAtraso)] ∧
    dbQuitadoCinco.emprestimos.map (fun e => (e.id, e.statos)) =
      [(1, StatusEmprestimo.Pago)] ∧
    dbQuitadoCinco.parcelas.map (fun p => (p.numero_parcela, p.data_vencimento, p.status)) =
      [(1, ⟨2024, 2, 1⟩, StatusParcela.Pago), (2, ⟨2024, 3, 1⟩, StatusParcela.Pago),
       (3, ⟨2024, 4, 1⟩, StatusParcela.Pago), (4, ⟨2024, 5, 1⟩, StatusParcela.Pago),
       (5, ⟨2024, 6, 1⟩, StatusParcela.Pendente)] ∧
    (atualizarParcelasAtrasadas ⟨dbQuitadoCinco, false⟩ meioDia1507).db.emprestimos.map
      (fun e => (e.id, e.statos)) = [(1, StatusEmprestimo.EmAtraso)] := by
  refine ⟨by decide, by decide, by decide, by decide, by decide, by decide⟩

/-- C10, amended: `PUT /emprestimos/:id` never changes the status of any loan, so a loan
that is `Pago` stays `Pago`; a sweep that runs (flag clear) rewrites the status of
exactly the loans that have an `Atrasada` installment after its first statement, to
`Em Atraso`, so a `Pago` loan without such an installment stays `Pago`, and a sweep that
finds the flag set changes nothing; a successful `PATCH /parcelas/:idParcela/status`
always overwrites the status of the loan of the installment with the derived status,
which is never `Pago`. -/
theorem pago_preservado :
    (∀ (db : DB) (id : Nat) (c : CorpoEmprestimo),
      (putEmprestimo db id c).1.emprestimos.map (fun e => (e.id, e.statos)) =
        db.emprestimos.map (fun e => (e.id, e.statos))) ∧
    (∀ (s : Servidor) (agora : Instante),
      (atualizarParcelasAtrasadas s agora).db.emprestimos =
        if s.atualizandoParcelas then s.db.emprestimos
        else s.db.emprestimos.map (fun e =>
          if (marcarParcelasAtrasadas agora.data s.db).temAtrasada e.id then
            { e with statos := StatusEmprestimo.EmAtraso }
          else e)) ∧
    (∀ (db : DB) (agora : Instante) (idParcela : Nat) (status : StatusParcela) (p0 : Parcela),
      (status = StatusParcela.Pago ∨ status = StatusParcela.Pendente) →
      parcelaExistente db idParcela = some p0 →
      ∀ e ∈ (patchParcelaStatus db agora idParcela status).1.emprestimos,
        e.id = p0.id_emprestimo →
        e.statos = statosDerivado (patchParcelaStatus db agora idParcela status).1
          p0.id_emprestimo ∧ e.statos ≠ StatusEmprestimo.Pago) := by
  refine ⟨putEmprestimo_statos, ?_, ?_⟩
  · intro s agora
    unfold atualizarParcelasAtrasadas
    by_cases h : s.atualizandoParcelas = true
    · rw [if_pos h, if_pos h]
    · rw [if_neg h, if_neg h]
      exact varrerAtrasos_emprestimos agora.data s.db
  · intro db agora idParcela status p0 hs hp0 e he hid
    rw [(patchParcelaStatus_resultado db agora idParcela status p0 hs hp0).2,
      List.mem_map] at he
    obtain ⟨e1, _, rfl⟩ := he
    by_cases h : e1.id = p0.id_emprestimo
    · rw [if_pos h]
      refine ⟨rfl, ?_⟩
      show statosDerivado _ _ ≠ StatusEmprestimo.Pago
      unfold statosDerivado
      split <;> simp
    · simp [h] at hid

/-- C10, amended, at the paid-off example loan: raising its count to five keeps it
`Pago`, a sweep on 2024-03-15 (no installment is `Atrasada`) keeps it `Pago`, and paying
installment 1 again makes it `Pendente`. -/
theorem pago_preservado_exemplo :
    dbQuitadoCinco.emprestimos.map (fun e => (e.id, e.statos)) =
      [(1, StatusEmprestimo.Pago)] ∧
    (atualizarParcelasAtrasadas ⟨dbQuitado, false⟩ meioDia1503).db.emprestimos =
      dbQuitado.emprestimos ∧
    ∀ e ∈ (patchParcelaStatus dbQuitado meioDia0101 1 StatusParcela.Pago).1.emprestimos,
      e.id = 1 → e.statos ≠ StatusEmprestimo.Pago := by
  refine ⟨?_, ?_, ?_⟩
  · rw [dbQuitadoCinco, pago_preservado.1 dbQuitado 1 corpoCinco]
    decide
  · rw [pago_preservado.2.1 ⟨dbQuitado, false⟩ meioDia1503]
    decide
  · intro e he hid
    exact (pago_preservado.2.2 dbQuitado meioDia0101 1 StatusParcela.Pago
      (parcelaQuatro 1 StatusParcela.Pago) (Or.inl rfl) rfl e he hid).2

/-! ## The overdue sweep (`atualizarParcelasAtrasadas`) -/

theorem db_eq_of (a b : DB) (h1 : a.clientes = b.clientes) (h2 : a.emprestimos = b.emprestimos)
    (h3 : a.parcelas = b.parcelas) (h4 : a.proxIdEmprestimo = b.proxIdEmprestimo)
    (h5 : a.proxIdParcela = b.proxIdParcela) (h6 : a.proxIdCliente = b.proxIdCliente) :
    a = b := by
  cases a; cases b; simp_all

theorem varrerAtrasos_parcelas (hoje : Data) (db : DB) :
    (varrerAtrasos hoje db).parcelas = (marcarParcelasAtrasadas hoje db).parcelas ∧
      (varrerAtrasos hoje db).proxIdEmprestimo = db.proxIdEmprestimo ∧
      (varrerAtrasos hoje db).proxIdParcela = db.proxIdParcela ∧
      (varrerAtrasos hoje db).proxIdCliente = db.proxIdCliente :=
  ⟨rfl, rfl, rfl, rfl⟩

/-- C17: one sweep run at instant `agora` with the flag clear, row by row.  An installment
is `Atrasada` afterwards exactly when it was `Atrasada` before or was `Pendente` with due
date strictly before the current date; a row that is not `Atrasada` afterwards is
unchanged, and nothing but the status of a row changes (so no due date, paid date or
amount).  A loan that has an `Atrasada` installment afterwards has status `Em Atraso`
(its other columns unchanged), and every other loan row is unchanged. -/
theorem atualizarParcelasAtrasadas_status (s : Servidor) (agora : Instante)
    (hflag : s.atualizandoParcelas = false) :
    List.Forall₂ (fun p q =>
        (q.status = StatusParcela.Atrasada ↔
          (p.status = StatusParcela.Atrasada ∨
            (p.status = StatusParcela.Pendente ∧ p.data_vencimento.antes agora.data))) ∧
        (q.status ≠ StatusParcela.Atrasada → q = p) ∧
        { q with status := p.status } = p)
      s.db.parcelas (atualizarParcelasAtrasadas s agora).db.parcelas ∧
    List.Forall₂ (fun e f =>
        ((atualizarParcelasAtrasadas s agora).db.temAtrasada e.id →
          f = { e with statos := StatusEmprestimo.EmAtraso }) ∧
        (¬ (atualizarParcelasAtrasadas s agora).db.temAtrasada e.id → f = e))
      s.db.emprestimos (atualizarParcelasAtrasadas s agora).db.emprestimos := by
  have hdb : (atualizarParcelasAtrasadas s agora).db = varrerAtrasos agora.data s.db := by
    unfold atualizarParcelasAtrasadas
    rw [hflag]
    rfl
  rw [hdb]
  constructor
  · rw [(varrerAtrasos_parcelas agora.data s.db).1]
    unfold marcarParcelasAtrasadas
    simp only []
    rw [List.forall₂_map_right_iff, List.forall₂_same]
    intro p _
    by_cases h : p.status = StatusParcela.Pendente ∧ p.data_vencimento.antes agora.data
    · rw [if_pos h]
      refine ⟨⟨fun _ => Or.inr h, fun _ => rfl⟩, fun hq => absurd rfl hq, ?_⟩
      cases p
      rfl
    · rw [if_neg h]
      refine ⟨⟨fun hq => Or.inl hq, ?_⟩, fun _ => rfl, ?_⟩
      · rintro (h1 | h1)
        · exact h1
        · exact absurd h1 h
      · cases p
        rfl
  · have ht : ∀ id, (varrerAtrasos agora.data s.db).temAtrasada id ↔
        (marcarParcelasAtrasadas agora.data s.db).temAtrasada id := fun id => Iff.rfl
    rw [varrerAtrasos_emprestimos, List.forall₂_map_right_iff, List.forall₂_same]
    intro e _
    by_cases h : (marcarParcelasAtrasadas agora.data s.db).temAtrasada e.id
    · rw [if_pos h]
      exact ⟨fun _ => rfl, fun hn => absurd ((ht e.id).mpr h) hn⟩
    · rw [if_neg h]
      exact ⟨fun hp => absurd ((ht e.id).mp hp) h, fun _ => rfl⟩

/-- C17 at the example of the specification: a sweep on 2024-06-01 over the loan with
four pending installments due from 2024-02-01 to 2024-05-01 makes the four `Atrasada`
and the loan `Em Atraso`. -/
theorem atualizarParcelasAtrasadas_status_exemplo :
    (atualizarParcelasAtrasadas ⟨dbQuatro, false⟩ meioDia0106).db.parcelas =
      [parcelaQuatro 1 StatusParcela.Atrasada, parcelaQuatro 2 StatusParcela.Atrasada,
       parcelaQuatro 3 StatusParcela.Atrasada, parcelaQuatro 4 StatusParcela.Atrasada] ∧
    (atualizarParcelasAtrasadas ⟨dbQuatro, false⟩ meioDia0106).db.emprestimos =
      [emprestimoQuatro StatusEmprestimo.EmAtraso] ∧
    List.Forall₂ (fun e f =>
        ((atualizarParcelasAtrasadas ⟨dbQuatro, false⟩ meioDia0106).db.temAtrasada e.id →
          f = { e with statos := StatusEmprestimo.EmAtraso }) ∧
        (¬ (atualizarParcelasAtrasadas ⟨dbQuatro, false⟩ meioDia0106).db.temAtrasada e.id →
          f = e))
      dbQuatro.emprestimos
      (atualizarParcelasAtrasadas ⟨dbQuatro, false⟩ meioDia0106).db.emprestimos :=
  ⟨by decide, by decide,
    (atualizarParcelasAtrasadas_status ⟨dbQuatro, false⟩ meioDia0106 rfl).2⟩

theorem juncaoAtrasadas_congr (db db1 : DB) (nome : String)
    (he : db.emprestimos = db1.emprestimos) (hp : db.parcelas = db1.parcelas) :
    juncaoAtrasadas db nome = juncaoAtrasadas db1 nome := by
  unfold juncaoAtrasadas emprestimosDe
  rw [he, hp]

theorem clienteVarrido_congr (db db1 : DB) (c : Cliente)
    (he : db.emprestimos = db1.emprestimos) (hp : db.parcelas = db1.parcelas) :
    clienteVarrido db c = clienteVarrido db1 c := by
  unfold clienteVarrido
  simp only [he, hp, juncaoAtrasadas_congr db db1 _ he hp]

theorem varrerAtrasos_linhas (hoje : Data) (db : DB) :
    (varrerAtrasos hoje db).parcelas = db.parcelas.map (parcelaVarrida hoje) ∧
    (varrerAtrasos hoje db).emprestimos =
      db.emprestimos.map (emprestimoVarrido (db.parcelas.map (parcelaVarrida hoje))) ∧
    (varrerAtrasos hoje db).clientes =
      db.clientes.map (clienteVarrido (varrerAtrasos hoje db)) := by
  refine ⟨rfl, rfl, ?_⟩
  have h : (varrerAtrasos hoje db).clientes =
      (db.clientes.map (fun c =>
        if (marcarEmprestimosEmAtraso (marcarParcelasAtrasadas hoje db)).emprestimos.any
            (fun e => decide (e.cliente = c.nome) &&
              (marcarEmprestimosEmAtraso (marcarParcelasAtrasadas hoje db)).parcelas.any
                (fun p => decide (p.id_emprestimo = e.id))) then
          { c with atrasos := (juncaoAtrasadas (marcarEmprestimosEmAtraso
              (marcarParcelasAtrasadas hoje db)) c.nome).length }
        else c)).map (fun c =>
        if (marcarEmprestimosEmAtraso (marcarParcelasAtrasadas hoje db)).emprestimos.any
            (fun e => decide (e.cliente = c.nome)) then
          { c with emprestimos_atrasados :=
              (((juncaoAtrasadas (marcarEmprestimosEmAtraso
                (marcarParcelasAtrasadas hoje db)) c.nome).map
                (fun ep => ep.1.id)).dedup).length }
        else c) := rfl
  rw [h, List.map_map]
  apply List.map_congr_left
  intro c _
  rw [clienteVarrido_congr (varrerAtrasos hoje db)
    (marcarEmprestimosEmAtraso (marcarParcelasAtrasadas hoje db)) c rfl rfl]
  rfl

theorem parcelaVarrida_idem (hoje : Data) (p : Parcela) :
    parcelaVarrida hoje (parcelaVarrida hoje p) = parcelaVarrida hoje p := by
  unfold parcelaVarrida
  by_cases h : p.status = StatusParcela.Pendente ∧ p.data_vencimento.antes hoje
  · simp [h]
  · simp [h]

theorem emprestimoVarrido_idem (ps : List Parcela) (e : Emprestimo) :
    emprestimoVarrido ps (emprestimoVarrido ps e) = emprestimoVarrido ps e := by
  unfold emprestimoVarrido
  by_cases h : ps.any (fun p => decide (e.id = p.id_emprestimo ∧
      p.status = StatusParcela.Atrasada)) = true
  · rw [if_pos h]
    exact if_pos h
  · rw [if_neg h]
    exact if_neg h

theorem clienteVarrido_idem (db : DB) (c : Cliente) :
    clienteVarrido db (clienteVarrido db c) = clienteVarrido db c := by
  unfold clienteVarrido
  simp only []
  split_ifs <;> simp_all

theorem varrerAtrasos_idem (hoje : Data) (db : DB) :
    varrerAtrasos hoje (varrerAtrasos hoje db) = varrerAtrasos hoje db := by
  have hP : (varrerAtrasos hoje (varrerAtrasos hoje db)).parcelas =
      (varrerAtrasos hoje db).parcelas := by
    rw [(varrerAtrasos_linhas hoje (varrerAtrasos hoje db)).1, (varrerAtrasos_linhas hoje db).1,
      List.map_map]
    apply List.map_congr_left
    intro p _
    exact parcelaVarrida_idem hoje p
  have hE : (varrerAtrasos hoje (varrerAtrasos hoje db)).emprestimos =
      (varrerAtrasos hoje db).emprestimos := by
    have h1 := (varrerAtrasos_linhas hoje (varrerAtrasos hoje db)).2.1
    rw [← (varrerAtrasos_linhas hoje (varrerAtrasos hoje db)).1, hP] at h1
    rw [h1]
    have h2 := (varrerAtrasos_linhas hoje db).2.1
    rw [← (varrerAtrasos_linhas hoje db).1] at h2
    rw [h2, List.map_map]
    apply List.map_congr_left
    intro e _
    exact emprestimoVarrido_idem _ e
  apply db_eq_of <;> try rfl
  · rw [(varrerAtrasos_linhas hoje (varrerAtrasos hoje db)).2.2,
      (varrerAtrasos_linhas hoje db).2.2, List.map_map]
    apply List.map_congr_left
    intro c _
    show clienteVarrido _ (clienteVarrido _ c) = _
    rw [clienteVarrido_congr (varrerAtrasos hoje (varrerAtrasos hoje db))
      (varrerAtrasos hoje db) _ hE hP]
    exact clienteVarrido_idem _ c
  · exact hE
  · exact hP

/-- C19: the sweep is idempotent.  Running its statements a second time for the same
current date leaves every installment, loan and customer row as the first run left it;
the same holds for two calls of `atualizarParcelasAtrasadas` at the same instant with the
flag released in between. -/
theorem varredura_idempotente (db : DB) (agora : Instante) :
    varrerAtrasos agora.data (varrerAtrasos agora.data db) = varrerAtrasos agora.data db ∧
    atualizarParcelasAtrasadas
        (liberarAtualizacao (atualizarParcelasAtrasadas ⟨db, false⟩ agora)) agora =
      atualizarParcelasAtrasadas ⟨db, false⟩ agora := by
  refine ⟨varrerAtrasos_idem agora.data db, ?_⟩
  have h1 : atualizarParcelasAtrasadas ⟨db, false⟩ agora =
      ⟨varrerAtrasos agora.data db, true⟩ := rfl
  have h2 : atualizarParcelasAtrasadas
      (liberarAtualizacao ⟨varrerAtrasos agora.data db, true⟩) agora =
      ⟨varrerAtrasos agora.data (varrerAtrasos agora.data db), true⟩ := rfl
  rw [h1, h2, varrerAtrasos_idem]

/-- C20: a call of `atualizarParcelasAtrasadas` that finds the flag set goes through no
state at all and returns the server as it was (flag, installments, loans, customers).  A
call that finds the flag clear first sets the flag, the store still untouched, and the
flag stays set in every later state of the call, the last of which is its result. -/
theorem guarda_de_reentrada (s : Servidor) (agora : Instante) :
    (s.atualizandoParcelas = true →
      tracoAtualizacao s agora = [] ∧ atualizarParcelasAtrasadas s agora = s) ∧
    (s.atualizandoParcelas = false →
      (tracoAtualizacao s agora).head? = some { s with atualizandoParcelas := true } ∧
      (∀ x ∈ tracoAtualizacao s agora, x.atualizandoParcelas = true) ∧
      (tracoAtualizacao s agora).getLast? = some (atualizarParcelasAtrasadas s agora)) := by
  constructor
  · intro h
    unfold tracoAtualizacao atualizarParcelasAtrasadas
    rw [if_pos h, if_pos h]
    exact ⟨rfl, rfl⟩
  · intro h
    unfold tracoAtualizacao atualizarParcelasAtrasadas
    simp only [h, Bool.false_eq_true, if_false]
    refine ⟨rfl, ?_, rfl⟩
    intro x hx
    simp only [List.mem_cons, List.mem_singleton, List.not_mem_nil, or_false] at hx
    rcases hx with rfl | rfl | rfl | rfl | rfl <;> rfl

/-- C20 at the example store: with the flag set a call on 2024-06-01 changes nothing;
with the flag clear the first state of the call has the flag set and the store of the
example untouched. -/
theorem guarda_de_reentrada_exemplo :
    atualizarParcelasAtrasadas ⟨dbQuatro, true⟩ meioDia0106 = ⟨dbQuatro, true⟩ ∧
    (tracoAtualizacao ⟨dbQuatro, false⟩ meioDia0106).head? = some ⟨dbQuatro, true⟩ :=
  ⟨((guarda_de_reentrada ⟨dbQuatro, true⟩ meioDia0106).1 rfl).2,
    ((guarda_de_reentrada ⟨dbQuatro, false⟩ meioDia0106).2 rfl).1⟩

/-! ## Counting overdue installments and loans -/

theorem countP_or_disjunto {α : Type} (f g : α → Bool) :
    ∀ (l : List α), (∀ a ∈ l, ¬ (f a = true ∧ g a = true)) →
      l.countP (fun a => f a || g a) = l.countP f + l.countP g := by
  intro l
  induction l with
  | nil => intro _; rfl
  | cons a l ih =>
    intro h
    have ih1 := ih (fun b hb => h b (List.mem_cons_of_mem a hb))
    have ha := h a (List.mem_cons_self a l)
    simp only [List.countP_cons, ih1]
    cases hf : f a <;> cases hg : g a <;> simp_all <;> omega

theorem length_juncao (ps : List Parcela) :
    ∀ (es : List Emprestimo), (es.map (fun e => e.id)).Nodup →
      (es.flatMap (fun e => (ps.filter (fun p => decide (p.id_emprestimo = e.id ∧
        p.status = StatusParcela.Atrasada))).map (fun p => (e, p)))).length =
      (ps.filter (fun p => decide (p.status = StatusParcela.Atrasada ∧
        ∃ e ∈ es, e.id = p.id_emprestimo))).length := by
  intro es
  induction es with
  | nil => intro _; simp
  | cons e es ih =>
    intro hnd
    rw [List.map_cons, List.nodup_cons] at hnd
    rw [List.flatMap_cons, List.length_append, List.length_map, ih hnd.2]
    rw [← List.countP_eq_length_filter, ← List.countP_eq_length_filter,
      ← List.countP_eq_length_filter]
    have hdisj : ∀ p ∈ ps, ¬ (decide (p.id_emprestimo = e.id ∧
        p.status = StatusParcela.Atrasada) = true ∧
        decide (p.status = StatusParcela.Atrasada ∧
          ∃ e1 ∈ es, e1.id = p.id_emprestimo) = true) := by
      intro p _ hp
      simp only [decide_eq_true_eq] at hp
      obtain ⟨⟨h1, _⟩, _, e1, he1, h2⟩ := hp
      exact hnd.1 (List.mem_map.mpr ⟨e1, he1, h2.trans h1⟩)
    rw [← countP_or_disjunto _ _ ps hdisj]
    apply List.countP_congr
    intro p _
    simp only [List.mem_cons, Bool.or_eq_true, decide_eq_true_eq, exists_eq_or_imp]
    constructor
    · rintro (⟨h1, h2⟩ | ⟨h1, h2⟩)
      · exact ⟨h2, Or.inl h1.symm⟩
      · exact ⟨h1, Or.inr h2⟩
    · rintro ⟨h1, h2 | h2⟩
      · exact Or.inl ⟨h2.symm, h1⟩
      · exact Or.inr ⟨h1, h2⟩

theorem length_juncaoAtrasadas (db : DB) (nome : String)
    (hnd : (db.emprestimos.map (fun e => e.id)).Nodup) :
    (juncaoAtrasadas db nome).length = atrasosDe db nome := by
  unfold juncaoAtrasadas atrasosDe
  apply length_juncao
  unfold emprestimosDe
  exact hnd.sublist ((List.filter_sublist _).map _)

theorem dedup_juncaoAtrasadas (db : DB) (nome : String) :
    (((juncaoAtrasadas db nome).map (fun ep => ep.1.id)).dedup).length =
      emprestimosAtrasadosDe db nome := by
  unfold emprestimosAtrasadosDe
  rw [← List.card_toFinset, ← List.card_toFinset]
  congr 1
  ext x
  simp only [List.mem_toFinset, List.mem_map, juncaoAtrasadas, List.mem_flatMap,
    List.mem_filter, decide_eq_true_eq, DB.temAtrasada, Prod.exists]
  constructor
  · rintro ⟨e, p, ⟨e1, he1, p1, ⟨hp1, h1, h2⟩, heq⟩, rfl⟩
    simp only [Prod.mk.injEq] at heq
    obtain ⟨rfl, rfl⟩ := heq
    exact ⟨e1, ⟨he1, p1, hp1, h1, h2⟩, rfl⟩
  · rintro ⟨e, ⟨he, p, hp, h1, h2⟩, rfl⟩
    exact ⟨e, p, ⟨e, he, p, ⟨hp, h1, h2⟩, rfl⟩, rfl⟩

theorem clienteVarrido_contadores (db : DB) (c : Cliente) :
    (db.temParcela c.nome →
      (clienteVarrido db c).atrasos = ((juncaoAtrasadas db c.nome).length : Int)) ∧
    (¬ db.temParcela c.nome → (clienteVarrido db c).atrasos = c.atrasos) ∧
    (db.temEmprestimo c.nome →
      (clienteVarrido db c).emprestimos_atrasados =
        ((((juncaoAtrasadas db c.nome).map (fun ep => ep.1.id)).dedup).length : Int)) ∧
    (¬ db.temEmprestimo c.nome →
      (clienteVarrido db c).emprestimos_atrasados = c.emprestimos_atrasados) ∧
    { clienteVarrido db c with
      atrasos := c.atrasos, emprestimos_atrasados := c.emprestimos_atrasados } = c := by
  have h3 : (db.emprestimos.any (fun e => decide (e.cliente = c.nome) &&
      db.parcelas.any (fun p => decide (p.id_emprestimo = e.id)))) = true ↔
      db.temParcela c.nome := by
    simp [DB.temParcela]
  have h4 : (db.emprestimos.any (fun e => decide (e.cliente = c.nome))) = true ↔
      db.temEmprestimo c.nome := by
    simp [DB.temEmprestimo]
  unfold clienteVarrido
  simp only []
  by_cases a3 : db.temParcela c.nome <;> by_cases a4 : db.temEmprestimo c.nome
  all_goals
    first
    | rw [if_pos (h3.mpr a3)]
    | rw [if_neg (fun h => a3 (h3.mp h))]
  all_goals
    first
    | rw [if_pos (h4.mpr a4)]
    | rw [if_neg (fun h => a4 (h4.mp h))]
  all_goals
    refine ⟨fun h => ?_, fun h => ?_, fun h => ?_, fun h => ?_, ?_⟩
  all_goals first | rfl | exact absurd h a3 | exact absurd h a4 | exact absurd a3 h | exact absurd a4 h

/-- C18, refuted as stated: in the example store after a sweep, four payments and the
deletion of the loan, customer "Ana" has no loan left, yet a further sweep leaves her
delinquent-installment counter at 4 (the number of `Atrasada` installments on her loans
is 0). -/
theorem varredura_nao_reconta_sem_emprestimos :
    dbAposQuitarEApagar.emprestimos = [] ∧ dbAposQuitarEApagar.parcelas = [] ∧
    dbAposQuitarEApagar.clientes.map (fun c => (c.nome, c.atrasos)) = [("Ana", 4)] ∧
    (atualizarParcelasAtrasadas ⟨dbAposQuitarEApagar, false⟩ meioDia1507).db.clientes.map
      (fun c => (c.nome, c.atrasos)) = [("Ana", 4)] ∧
    atrasosDe (atualizarParcelasAtrasadas ⟨dbAposQuitarEApagar, false⟩ meioDia1507).db "Ana"
      = 0 := by
  refine ⟨by decide, by decide, by decide, by decide, by decide⟩

theorem emprestimoVarrido_id (ps : List Parcela) (e : Emprestimo) :
    (emprestimoVarrido ps e).id = e.id ∧ (emprestimoVarrido ps e).cliente = e.cliente := by
  unfold emprestimoVarrido
  split <;> exact ⟨rfl, rfl⟩

theorem varrerAtrasos_ids (hoje : Data) (db : DB) :
    (varrerAtrasos hoje db).emprestimos.map (fun e => e.id) =
      db.emprestimos.map (fun e => e.id) := by
  rw [(varrerAtrasos_linhas hoje db).2.1, List.map_map]
  apply List.map_congr_left
  intro e _
  exact (emprestimoVarrido_id _ e).1

/-- C18, amended: after a sweep that ran (flag clear, loan ids unique), row by row of
`clientes`: a customer that has a loan with at least one installment row has the
delinquent-installment counter equal to the number of `Atrasada` installments on the
loans of that customer, and a customer that has a loan has the overdue-loan counter equal
to the number of distinct loans of that customer with an `Atrasada` installment; the
sweep leaves the delinquent-installment counter of a customer without such a loan and
the overdue-loan counter of a customer without loans as they were, and changes no other
column of `clientes`. -/
theorem varredura_contadores (s : Servidor) (agora : Instante)
    (hflag : s.atualizandoParcelas = false)
    (hnd : (s.db.emprestimos.map (fun e => e.id)).Nodup) :
    List.Forall₂ (fun c d =>
        ((atualizarParcelasAtrasadas s agora).db.temParcela c.nome →
          d.atrasos = (atrasosDe (atualizarParcelasAtrasadas s agora).db c.nome : Int)) ∧
        (¬ (atualizarParcelasAtrasadas s agora).db.temParcela c.nome →
          d.atrasos = c.atrasos) ∧
        ((atualizarParcelasAtrasadas s agora).db.temEmprestimo c.nome →
          d.emprestimos_atrasados =
            (emprestimosAtrasadosDe (atualizarParcelasAtrasadas s agora).db c.nome : Int)) ∧
        (¬ (atualizarParcelasAtrasadas s agora).db.temEmprestimo c.nome →
          d.emprestimos_atrasados = c.emprestimos_atrasados) ∧
        { d with atrasos := c.atrasos, emprestimos_atrasados := c.emprestimos_atrasados } = c)
      s.db.clientes (atualizarParcelasAtrasadas s agora).db.clientes := by
  have hdb : (atualizarParcelasAtrasadas s agora).db = varrerAtrasos agora.data s.db := by
    unfold atualizarParcelasAtrasadas
    rw [hflag]
    rfl
  rw [hdb]
  have hnd1 : ((varrerAtrasos agora.data s.db).emprestimos.map (fun e => e.id)).Nodup := by
    rw [varrerAtrasos_ids]; exact hnd
  rw [(varrerAtrasos_linhas agora.data s.db).2.2, List.forall₂_map_right_iff,
    List.forall₂_same]
  intro c _
  have h := clienteVarrido_contadores (varrerAtrasos agora.data s.db) c
  rw [length_juncaoAtrasadas _ _ hnd1, dedup_juncaoAtrasadas] at h
  exact h

/-- C18, amended, at the example of the specification: after the sweep of 2024-06-01
the four installments are `Atrasada` and the counters of "Ana" are 4 overdue
installments (from 0) and 1 overdue loan. -/
theorem varredura_contadores_exemplo :
    (dbQuatro.emprestimos.map (fun e => e.id)).Nodup ∧
    dbQuatro.clientes.map (fun c => (c.nome, c.atrasos, c.emprestimos_atrasados)) =
      [("Ana", 0, 0)] ∧
    (atualizarParcelasAtrasadas ⟨dbQuatro, false⟩ meioDia0106).db.clientes.map
      (fun c => (c.nome, c.atrasos, c.emprestimos_atrasados)) = [("Ana", 4, 1)] ∧
    atrasosDe (atualizarParcelasAtrasadas ⟨dbQuatro, false⟩ meioDia0106).db "Ana" = 4 ∧
    List.Forall₂ (fun c d =>
        ((atualizarParcelasAtrasadas ⟨dbQuatro, false⟩ meioDia0106).db.temParcela c.nome →
          d.atrasos =
            (atrasosDe (atualizarParcelasAtrasadas ⟨dbQuatro, false⟩ meioDia0106).db c.nome :
              Int)))
      dbQuatro.clientes
      (atualizarParcelasAtrasadas ⟨dbQuatro, false⟩ meioDia0106).db.clientes := by
  have hnd : (dbQuatro.emprestimos.map (fun e => e.id)).Nodup := by decide
  refine ⟨hnd, by decide, by decide, by decide, ?_⟩
  exact (varredura_contadores ⟨dbQuatro, false⟩ meioDia0106 rfl hnd).imp (fun _ _ h => h.1)

/-! ## Customer rollups on an installment toggle -/

/-- C11, the code at the failing input: paying installment 1 of the example loan
(principal 1000, repayable 1200, 4 installments, customer "Ana" with id 1) succeeds and
leaves the stored profit of "Ana" at 0, where the share is 50; un-paying the installment
in the store where the 50 are booked leaves the profit at 50. -/
theorem lucro_nao_ajustado :
    (patchParcelaStatus dbQuatro meioDia0101 1 StatusParcela.Pago).2 =
      .ok (StatusParcela.Pago, StatusEmprestimo.Pendente) ∧
    dbQuatro.clientes.map (fun c => (c.id, c.nome, c.lucro_total)) = [(1, "Ana", 0)] ∧
    (patchParcelaStatus dbQuatro meioDia0101 1 StatusParcela.Pago).1.clientes.map
      (fun c => (c.id, c.nome, c.lucro_total)) = [(1, "Ana", 0)] ∧
    (patchParcelaStatus dbUmaPaga meioDia0101 1 StatusParcela.Pendente).2 =
      .ok (StatusParcela.Pendente, StatusEmprestimo.Pendente) ∧
    (patchParcelaStatus dbUmaPaga meioDia0101 1 StatusParcela.Pendente).1.clientes.map
      (fun c => (c.id, c.nome, c.lucro_total)) = [(1, "Ana", 50)] := by
  refine ⟨rfl, by decide, by decide, rfl, by decide⟩

/-- C12, refuted as stated: un-paying installment 1 of the paid-off example loan on
2024-03-15 makes it the only `Atrasada` installment of the loan, and the counters of
"Ana" stay at 0 overdue loans and 0 overdue installments; paying the only `Atrasada`
installment of `dbUmaAtrasada` leaves her overdue-installment counter at 1. -/
theorem contadores_nao_acompanham :
    (patchParcelaStatus dbQuitado meioDia1503 1 StatusParcela.Pendente).1.parcelas.map
      (fun p => p.status) = [StatusParcela.Atrasada, StatusParcela.Pago, StatusParcela.Pago,
        StatusParcela.Pago] ∧
    dbQuitado.clientes.map (fun c => (c.nome, c.emprestimos_atrasados, c.atrasos)) =
      [("Ana", 0, 0)] ∧
    (patchParcelaStatus dbQuitado meioDia1503 1 StatusParcela.Pendente).1.clientes.map
      (fun c => (c.nome, c.emprestimos_atrasados, c.atrasos)) = [("Ana", 0, 0)] ∧
    dbUmaAtrasada.parcelas.map (fun p => p.status) = [StatusParcela.Atrasada,
      StatusParcela.Pendente, StatusParcela.Pendente, StatusParcela.Pendente] ∧
    dbUmaAtrasada.clientes.map (fun c => (c.nome, c.emprestimos_atrasados, c.atrasos)) =
      [("Ana", 1, 1)] ∧
    (patchParcelaStatus dbUmaAtrasada meioDia1502 1 StatusParcela.Pago).1.parcelas.map
      (fun p => p.status) = [StatusParcela.Pago, StatusParcela.Pendente,
        StatusParcela.Pendente, StatusParcela.Pendente] ∧
    (patchParcelaStatus dbUmaAtrasada meioDia1502 1 StatusParcela.Pago).1.clientes.map
      (fun c => (c.nome, c.atrasos)) = [("Ana", 1)] := by
  refine ⟨by decide, by decide, by decide, by decide, by decide, by decide, by decide⟩

theorem ajustarCliente_contadores (db : DB) (emp : Emprestimo) (idEmprestimo : Nat)
    (status st : StatusParcela) :
    List.Forall₂ (fun c d =>
        d.atrasos = c.atrasos ∧
        (d.emprestimos_atrasados = c.emprestimos_atrasados ∨
          (status = StatusParcela.Pago ∧
            d.emprestimos_atrasados = max (c.emprestimos_atrasados - 1) 0)) ∧
        (db.temAtrasada idEmprestimo → d.emprestimos_atrasados = c.emprestimos_atrasados))
      db.clientes (ajustarCliente db emp idEmprestimo status st).clientes := by
  have hiff : (db.parcelas.filter (fun p => decide (p.id_emprestimo = idEmprestimo ∧
      p.status = StatusParcela.Atrasada))).length = 0 ↔ ¬ db.temAtrasada idEmprestimo := by
    rw [List.length_eq_zero, List.filter_eq_nil_iff]
    simp only [decide_eq_true_eq, DB.temAtrasada, not_exists, not_and]
  unfold ajustarCliente
  simp only []
  split
  · rename_i hs
    split
    · rename_i h0
      have hn := hiff.mp h0
      rw [List.map_map, List.forall₂_map_right_iff, List.forall₂_same]
      intro c _
      simp only [Function.comp]
      cases hsel : clienteSelecionado emp.cliente c
      · simp [hsel]
      · simp only [if_true]
        split <;> simp [hs, hn]
    · rw [List.forall₂_map_right_iff, List.forall₂_same]
      intro c _
      cases hsel : clienteSelecionado emp.cliente c <;> simp [hsel]
  · split
    · rw [List.forall₂_map_right_iff, List.forall₂_same]
      intro c _
      cases hsel : clienteSelecionado emp.cliente c <;> simp [hsel]
    · rw [List.forall₂_same]
      intro c _
      simp

theorem alterarParcela_forma (db db1 : DB) (agora : Instante) (idParcela : Nat)
    (status st : StatusParcela) (h : alterarParcela db agora idParcela status = some (db1, st)) :
    ∃ pg, db1 = definirStatusParcela db idParcela st pg := by
  unfold alterarParcela at h
  split at h
  · simp only [Option.some.injEq, Prod.mk.injEq] at h
    exact ⟨some agora, by rw [← h.1, ← h.2]⟩
  · split at h
    · simp at h
    · simp only [Option.some.injEq, Prod.mk.injEq] at h
      exact ⟨none, by rw [← h.1, ← h.2]⟩

theorem patchParcelaStatus_clientes (db : DB) (agora : Instante) (idParcela : Nat)
    (status : StatusParcela) :
    (patchParcelaStatus db agora idParcela status).1.clientes = db.clientes ∨
    ∃ db1 st parcela emp,
      alterarParcela db agora idParcela status = some (db1, st) ∧
      parcelaExistente db1 idParcela = some parcela ∧
      (patchParcelaStatus db agora idParcela status).1.clientes =
        (ajustarCliente (definirStatos db1 parcela.id_emprestimo
          (derivarStatos db1 parcela.id_emprestimo)) emp parcela.id_emprestimo status
          st).clientes ∧
      (patchParcelaStatus db agora idParcela status).1.parcelas = db1.parcelas := by
  unfold patchParcelaStatus
  split
  · exact Or.inl rfl
  · split
    · exact Or.inl rfl
    · rename_i db1 st ha
      obtain ⟨pg, hdb1⟩ := alterarParcela_forma db db1 agora idParcela status st ha
      split
      · left
        rw [hdb1]
        rfl
      · rename_i parcela resto hf
        simp only []
        split
        · left
          rw [hdb1]
          rfl
        · rename_i emp resto2 hf2
          right
          refine ⟨db1, st, parcela, emp, ha, ?_, rfl, ?_⟩
          · unfold parcelaExistente
            rw [hf]
            rfl
          · exact (ajustarCliente_parcelas _ _ _ _ _).1

/-- C12, amended: whatever the call of `PATCH /parcelas/:idParcela/status`, row by row of
`clientes` the overdue-installment counter is unchanged, and the overdue-loan counter is
unchanged unless the target is `Pago`, in which case it is unchanged or lowered by one
(not below zero); when the loan of the installment still has an `Atrasada` installment
after the call, no overdue-loan counter changes. -/
theorem patchParcelaStatus_contadores (db : DB) (agora : Instante) (idParcela : Nat)
    (status : StatusParcela) :
    List.Forall₂ (fun c d =>
        d.atrasos = c.atrasos ∧
        (d.emprestimos_atrasados = c.emprestimos_atrasados ∨
          (status = StatusParcela.Pago ∧
            d.emprestimos_atrasados = max (c.emprestimos_atrasados - 1) 0)))
      db.clientes (patchParcelaStatus db agora idParcela status).1.clientes ∧
    (∀ p0, parcelaExistente db idParcela = some p0 →
      (patchParcelaStatus db agora idParcela status).1.temAtrasada p0.id_emprestimo →
      List.Forall₂ (fun c d => d.emprestimos_atrasados = c.emprestimos_atrasados)
        db.clientes (patchParcelaStatus db agora idParcela status).1.clientes) := by
  rcases patchParcelaStatus_clientes db agora idParcela status with h |
    ⟨db1, st, parcela, emp, ha, hp, hc, hps⟩
  · rw [h]
    constructor
    · rw [List.forall₂_same]
      intro c _
      exact ⟨rfl, Or.inl rfl⟩
    · intro p0 _ _
      rw [List.forall₂_same]
      intro c _
      rfl
  · obtain ⟨pg, hdb1⟩ := alterarParcela_forma db db1 agora idParcela status st ha
    have hcont := ajustarCliente_contadores (definirStatos db1 parcela.id_emprestimo
      (derivarStatos db1 parcela.id_emprestimo)) emp parcela.id_emprestimo status st
    have hcl : (definirStatos db1 parcela.id_emprestimo
        (derivarStatos db1 parcela.id_emprestimo)).clientes = db.clientes := by
      rw [hdb1]; rfl
    rw [hcl, ← hc] at hcont
    constructor
    · exact hcont.imp (fun _ _ h => ⟨h.1, h.2.1⟩)
    · intro p0 hp0 ht
      have hpar : parcela.id_emprestimo = p0.id_emprestimo := by
        have h1 := parcelaExistente_definirStatusParcela db idParcela p0 st pg hp0
        rw [← hdb1, hp] at h1
        simp only [Option.some.injEq] at h1
        rw [h1]
      have ht1 : (definirStatos db1 parcela.id_emprestimo
          (derivarStatos db1 parcela.id_emprestimo)).temAtrasada parcela.id_emprestimo := by
        unfold DB.temAtrasada at ht ⊢
        rw [hps, ← hpar] at ht
        exact ht
      exact hcont.imp (fun _ _ h => h.2.2 ht1)

/-- C12, amended, at the counterexample stores: un-paying installment 1 of the paid-off
loan and paying the `Atrasada` installment of `dbUmaAtrasada` both leave the
overdue-installment counter of every customer row as it was. -/
theorem patchParcelaStatus_contadores_exemplo :
    List.Forall₂ (fun c d => d.atrasos = c.atrasos) dbQuitado.clientes
      (patchParcelaStatus dbQuitado meioDia1503 1 StatusParcela.Pendente).1.clientes ∧
    List.Forall₂ (fun c d => d.atrasos = c.atrasos) dbUmaAtrasada.clientes
      (patchParcelaStatus dbUmaAtrasada meioDia1502 1 StatusParcela.Pago).1.clientes :=
  ⟨(patchParcelaStatus_contadores dbQuitado meioDia1503 1 StatusParcela.Pendente).1.imp
      (fun _ _ h => h.1),
    (patchParcelaStatus_contadores dbUmaAtrasada meioDia1502 1 StatusParcela.Pago).1.imp
      (fun _ _ h => h.1)⟩

/-! ## Deleting a loan (`DELETE /emprestimos/:id`) -/

theorem foldl_max_spec : ∀ (xs : List ℚ) (x : ℚ),
    xs.foldl max x ∈ x :: xs ∧ ∀ y ∈ x :: xs, y ≤ xs.foldl max x := by
  intro xs
  induction xs with
  | nil => intro x; simp
  | cons a t ih =>
    intro x
    obtain ⟨h1, h2⟩ := ih (max x a)
    rw [List.foldl_cons]
    constructor
    · rcases List.mem_cons.mp h1 with h | h
      · rw [h]
        rcases max_choice x a with hm | hm
        · rw [hm]; exact List.mem_cons_self _ _
        · rw [hm]; exact List.mem_cons_of_mem _ (List.mem_cons_self _ _)
      · exact List.mem_cons_of_mem _ (List.mem_cons_of_mem _ h)
    · intro y hy
      have hmax := h2 (max x a) (List.mem_cons_self _ _)
      rcases List.mem_cons.mp hy with h | h
      · rw [h]; exact le_trans (le_max_left x a) hmax
      · rcases List.mem_cons.mp h with h | h
        · rw [h]; exact le_trans (le_max_right x a) hmax
        · exact h2 y (List.mem_cons_of_mem _ h)

theorem maxOuZero_spec (l : List ℚ) (hl : l ≠ []) :
    maxOuZero l ∈ l ∧ ∀ y ∈ l, y ≤ maxOuZero l := by
  cases l with
  | nil => exact absurd rfl hl
  | cons x xs => exact foldl_max_spec xs x

theorem maxOuZero_nonneg (l : List ℚ) (h : ∀ y ∈ l, 0 ≤ y) : 0 ≤ maxOuZero l := by
  cases l with
  | nil => exact le_refl 0
  | cons x xs => exact h _ (foldl_max_spec xs x).1

theorem deleteEmprestimo_eq (db : DB) (id : Nat) (e0 : Emprestimo) (c0 : Cliente)
    (he : emprestimoExistente db id = some e0)
    (hc : clienteDoNome db e0.cliente = some c0) :
    deleteEmprestimo db id =
      ({ db with
          clientes := db.clientes.map (gravarRollups (novosValores db id e0 c0
            (db.parcelas.filter (fun p => decide (p.id_emprestimo = id)))) c0.id)
          parcelas := db.parcelas.filter (fun p => decide (p.id_emprestimo ≠ id))
          emprestimos := db.emprestimos.filter (fun e => decide (e.id ≠ id)) }, .ok ()) := by
  unfold emprestimoExistente at he
  unfold clienteDoNome at hc
  unfold deleteEmprestimo
  split
  · rename_i h; rw [h] at he; simp at he
  · rename_i e1 r1 h
    rw [h] at he
    simp only [List.head?_cons, Option.some.injEq] at he
    subst he
    split
    · rename_i h2; rw [h2] at hc; simp at hc
    · rename_i c1 r2 h2
      rw [h2] at hc
      simp only [List.head?_cons, Option.some.injEq] at hc
      subst hc
      rfl

theorem novosValores_naoNegativo (db : DB) (id : Nat) (e0 : Emprestimo) (c0 : Cliente)
    (ps : List Parcela) (h0 : c0.agregados.naoNegativo)
    (hprin : ∀ e ∈ db.emprestimos, e.cliente = e0.cliente → 0 ≤ e.valoremprestado) :
    (novosValores db id e0 c0 ps).agregados.naoNegativo := by
  obtain ⟨h1, h2, h3, h4, h5, h6, h7, h8⟩ := h0
  simp only [Cliente.agregados] at h1 h2 h3 h4 h5 h6 h7 h8
  have hmax : 0 ≤ maxOuZero ((db.emprestimos.filter (fun e => decide
      (e.cliente = e0.cliente ∧ e.id ≠ id))).map (fun e => e.valoremprestado)) := by
    apply maxOuZero_nonneg
    intro y hy
    simp only [List.mem_map, List.mem_filter, decide_eq_true_eq] at hy
    obtain ⟨e, ⟨he, hcl, _⟩, rfl⟩ := hy
    exact hprin e he hcl
  unfold novosValores Agregados.naoNegativo Cliente.agregados
  simp only []
  generalize maxOuZero ((db.emprestimos.filter (fun e => decide
      (e.cliente = e0.cliente ∧ e.id ≠ id))).map (fun e => e.valoremprestado)) = m at hmax ⊢
  split_ifs <;> simp [h1, h2, h3, h4, h5, h6, h7, h8, hmax]

theorem gravarRollups_agregados (v : Cliente) (idCliente : Nat) (c : Cliente) :
    (c.id = idCliente → (gravarRollups v idCliente c).agregados = v.agregados) ∧
    (c.id ≠ idCliente → gravarRollups v idCliente c = c) ∧
    (gravarRollups v idCliente c).id = c.id ∧ (gravarRollups v idCliente c).nome = c.nome := by
  unfold gravarRollups
  by_cases h : c.id = idCliente
  · rw [if_pos h]
    exact ⟨fun _ => rfl, fun hn => absurd h hn, rfl, rfl⟩
  · rw [if_neg h]
    exact ⟨fun hp => absurd hp h, fun _ => rfl, rfl, rfl⟩

/-- C16: when `DELETE /emprestimos/:id` finds the loan (with a positive installment
count) and the customer row of its name, the stored rollups of that row are all non-negative and the loans of the name have
non-negative principal, then the handler succeeds and every row of `clientes` with the id
of that customer has all eight rollups non-negative afterwards, whatever is subtracted;
the rows with another id are unchanged. -/
theorem deleteEmprestimo_nao_negativo (db : DB) (id : Nat) (e0 : Emprestimo) (c0 : Cliente)
    (he : emprestimoExistente db id = some e0)
    (hc : clienteDoNome db e0.cliente = some c0) (_hn : 0 < e0.parcelas)
    (h0 : c0.agregados.naoNegativo)
    (hprin : ∀ e ∈ db.emprestimos, e.cliente = e0.cliente → 0 ≤ e.valoremprestado) :
    (deleteEmprestimo db id).2 = .ok () ∧
    (∀ d ∈ (deleteEmprestimo db id).1.clientes, d.id = c0.id → d.agregados.naoNegativo) ∧
    (∀ d ∈ (deleteEmprestimo db id).1.clientes, d.id ≠ c0.id → d ∈ db.clientes) := by
  rw [deleteEmprestimo_eq db id e0 c0 he hc]
  refine ⟨rfl, ?_, ?_⟩
  · intro d hd hid
    simp only [List.mem_map] at hd
    obtain ⟨c, _, rfl⟩ := hd
    have hg := gravarRollups_agregados (novosValores db id e0 c0
      (db.parcelas.filter (fun p => decide (p.id_emprestimo = id)))) c0.id c
    rw [hg.2.2.1] at hid
    rw [hg.1 hid]
    exact novosValores_naoNegativo db id e0 c0 _ h0 hprin
  · intro d hd hid
    simp only [List.mem_map] at hd
    obtain ⟨c, hcm, rfl⟩ := hd
    have hg := gravarRollups_agregados (novosValores db id e0 c0
      (db.parcelas.filter (fun p => decide (p.id_emprestimo = id)))) c0.id c
    rw [hg.2.2.1] at hid
    rw [hg.2.1 hid]
    exact hcm

/-- C16 at the example store, where the rollups of "Ana" are all 0 although she has a
loan of 1000: deleting the loan subtracts more than is stored and every rollup stays at
0. -/
theorem deleteEmprestimo_nao_negativo_exemplo :
    emprestimoExistente dbQuatro 1 = some (emprestimoQuatro StatusEmprestimo.Pendente) ∧
    clienteDoNome dbQuatro "Ana" = some (clienteZerado 1 "Ana") ∧
    (clienteZerado 1 "Ana").agregados.naoNegativo ∧
    (deleteEmprestimo dbQuatro 1).1.clientes = [clienteZerado 1 "Ana"] ∧
    ∀ d ∈ (deleteEmprestimo dbQuatro 1).1.clientes, d.id = 1 → d.agregados.naoNegativo := by
  have h0 : (clienteZerado 1 "Ana").agregados.naoNegativo := by
    simp [Agregados.naoNegativo, Cliente.agregados, clienteZerado]
  have hprin : ∀ e ∈ dbQuatro.emprestimos,
      e.cliente = (emprestimoQuatro StatusEmprestimo.Pendente).cliente →
      0 ≤ e.valoremprestado := by
    intro e he _
    simp only [dbQuatro, List.mem_singleton] at he
    rw [he]
    simp [emprestimoQuatro]
  have h := deleteEmprestimo_nao_negativo dbQuatro 1 (emprestimoQuatro StatusEmprestimo.Pendente)
    (clienteZerado 1 "Ana") rfl rfl (by decide) h0 hprin
  refine ⟨rfl, rfl, h0, ?_, h.2.1⟩
  rw [deleteEmprestimo_eq dbQuatro 1 (emprestimoQuatro StatusEmprestimo.Pendente)
    (clienteZerado 1 "Ana") rfl rfl]
  simp [dbQuatro, gravarRollups, novosValores, clienteZerado, emprestimoQuatro, maxOuZero,
    parcelaQuatro]

/-! ## Customer rollups on loan creation (`POST /emprestimos`) -/

theorem juncaoAtrasadasAgora_eq (db : DB) (agora : Instante) (nome : String)
    (hat : db.atrasadasVencidas agora) :
    juncaoAtrasadasAgora db agora nome = juncaoAtrasadas db nome := by
  unfold juncaoAtrasadasAgora juncaoAtrasadas
  congr 1
  funext e
  congr 1
  apply List.filter_congr
  intro p hp
  by_cases h1 : p.id_emprestimo = e.id
  · by_cases h2 : p.status = StatusParcela.Atrasada
    · simp [h1, h2, hat p hp h2]
    · simp [h1, h2]
  · have h3 : ¬ e.id = p.id_emprestimo := fun h => h1 h.symm
    simp [h1, h3]

theorem recalcularCliente_agregados (db : DB) (agora : Instante) (x : Cliente)
    (hnd : (db.emprestimos.map (fun e => e.id)).Nodup) (hat : db.atrasadasVencidas agora) :
    (recalcularCliente db agora x).agregados = agregacao db x.nome ∧
    (recalcularCliente db agora x).id = x.id ∧ (recalcularCliente db agora x).nome = x.nome := by
  refine ⟨?_, rfl, rfl⟩
  unfold recalcularCliente agregacao Cliente.agregados
  simp only [juncaoAtrasadasAgora_eq db agora x.nome hat, length_juncaoAtrasadas db x.nome hnd,
    dedup_juncaoAtrasadas]

theorem recalcularCliente_congr (db db1 : DB) (agora : Instante) (x : Cliente)
    (he : db.emprestimos = db1.emprestimos) (hp : db.parcelas = db1.parcelas) :
    recalcularCliente db agora x = recalcularCliente db1 agora x := by
  unfold recalcularCliente juncaoAtrasadasAgora emprestimosDe parcelasPagasDe
  simp only [he, hp]

theorem postEmprestimos_forma (db : DB) (agora : Instante) (c : CorpoEmprestimo)
    (c0 : Cliente) (hc : camposFaltando c = false)
    (hcli : clienteDoNome db c.cliente = some c0) (hk : db.chavesEmprestimos) :
    ∃ st,
      (postEmprestimos db agora c).1.emprestimos =
        db.emprestimos ++ [novoEmprestimo db c st] ∧
      (postEmprestimos db agora c).1.parcelas =
        db.parcelas ++ gerarParcelas db.proxIdEmprestimo c.valorpagar c.parcelas
          c.dataemprestimo agora db.proxIdParcela ∧
      (postEmprestimos db agora c).1.clientes =
        db.clientes.map (fun x =>
          if x.id = c0.id then recalcularCliente (postEmprestimos db agora c).1 agora x
          else x) ∧
      (postEmprestimos db agora c).1.proxIdEmprestimo = db.proxIdEmprestimo + 1 ∧
      (postEmprestimos db agora c).1.proxIdCliente = db.proxIdCliente := by
  unfold clienteDoNome at hcli
  have hold : ∀ (st : StatusEmprestimo), db.emprestimos.map (fun e =>
      if e.id = db.proxIdEmprestimo then { e with statos := st } else e) = db.emprestimos := by
    intro st
    conv_rhs => rw [← List.map_id db.emprestimos]
    apply List.map_congr_left
    intro e he
    have := hk.2 e he
    rw [if_neg (by omega)]
    rfl
  unfold postEmprestimos
  rw [hc]
  simp only [Bool.false_eq_true, if_false]
  split
  · rename_i h; rw [h] at hcli; simp at hcli
  · rename_i c1 r1 h
    rw [h] at hcli
    simp only [List.head?_cons, Option.some.injEq] at hcli
    subst hcli
    simp only []
    split
    · refine ⟨StatusEmprestimo.EmAtraso, ?_, rfl, ?_, rfl, rfl⟩
      · simp only [definirStatos, List.map_append, hold, List.map_cons, List.map_nil, if_true]
        rfl
      · apply List.map_congr_left
        intro x _
        split
        · exact recalcularCliente_congr _ _ agora x rfl rfl
        · rfl
    · refine ⟨StatusEmprestimo.Pendente, rfl, rfl, ?_, rfl, rfl⟩
      apply List.map_congr_left
      intro x _
      split
      · exact recalcularCliente_congr _ _ agora x rfl rfl
      · rfl

theorem clienteDoNome_mem (db : DB) (nome : String) (c0 : Cliente)
    (h : clienteDoNome db nome = some c0) : c0 ∈ db.clientes ∧ c0.nome = nome := by
  unfold clienteDoNome at h
  have hm := List.mem_of_mem_head? h
  rw [List.mem_filter] at hm
  exact ⟨hm.1, by simpa using hm.2⟩

theorem gerarParcelas_atrasadas (emprestimoId : Nat) (R : ℚ) (n : Nat) (base : Data)
    (agora : Instante) (proxId : Nat) :
    ∀ p ∈ gerarParcelas emprestimoId R n base agora proxId,
      p.id_emprestimo = emprestimoId ∧
      (p.status = StatusParcela.Atrasada → p.data_vencimento.meiaNoite.antes agora) ∧
      p.status ≠ StatusParcela.Pago := by
  intro p hp
  rw [gerarParcelas_eq_map] at hp
  simp only [List.mem_map, List.mem_range] at hp
  obtain ⟨j, _, rfl⟩ := hp
  refine ⟨rfl, ?_, ?_⟩
  · simp only [novaParcelaCriacao]
    split
    · rename_i h; exact fun _ => h
    · intro h; simp at h
  · simp only [novaParcelaCriacao]
    split <;> simp

theorem postEmprestimos_invariantes (db : DB) (agora : Instante) (c : CorpoEmprestimo)
    (c0 : Cliente) (hc : camposFaltando c = false)
    (hcli : clienteDoNome db c.cliente = some c0) (hk : db.chavesEmprestimos)
    (hat : db.atrasadasVencidas agora) :
    (postEmprestimos db agora c).1.chavesEmprestimos ∧
    (postEmprestimos db agora c).1.atrasadasVencidas agora := by
  obtain ⟨st, hE, hP, _, hX, _⟩ := postEmprestimos_forma db agora c c0 hc hcli hk
  refine ⟨⟨?_, ?_⟩, ?_⟩
  · rw [hE, List.map_append, List.nodup_append]
    refine ⟨hk.1, by simp, ?_⟩
    intro a ha hb
    simp only [List.mem_map] at ha
    obtain ⟨e, he, rfl⟩ := ha
    simp only [List.map_cons, List.map_nil, List.mem_singleton, novoEmprestimo] at hb
    have := hk.2 e he
    omega
  · intro e he
    rw [hE] at he
    rw [hX]
    rcases List.mem_append.mp he with h | h
    · have := hk.2 e h
      omega
    · simp only [List.mem_singleton] at h
      rw [h]
      simp [novoEmprestimo]
  · intro p hp
    rw [hP] at hp
    rcases List.mem_append.mp hp with h | h
    · exact hat p h
    · exact (gerarParcelas_atrasadas _ _ _ _ _ _ p h).2.1

/-- C14: when `POST /emprestimos` is given the required fields and finds the customer row
of the name, in a store whose loan ids are unique and counter-issued and whose
`Atrasada` installments are all past due at `agora`, it succeeds and every row of
`clientes` with the id of that customer stores exactly the full aggregation over the
loans and installments of its name in the resulting store: number of loans, numbers of
`Pendente` and of `Pago` loans, sum of principals, profit, largest principal, number of
distinct loans with an `Atrasada` installment and number of `Atrasada` installments.  For
the customer of the request the stored largest amount is the greatest principal among
the loans of the name. -/
theorem postEmprestimos_agregados (db : DB) (agora : Instante) (c : CorpoEmprestimo)
    (c0 : Cliente) (hc : camposFaltando c = false)
    (hcli : clienteDoNome db c.cliente = some c0) (hk : db.chavesEmprestimos)
    (hat : db.atrasadasVencidas agora) :
    (∃ r, (postEmprestimos db agora c).2 = .ok r) ∧
    (∃ d ∈ (postEmprestimos db agora c).1.clientes, d.id = c0.id ∧ d.nome = c.cliente) ∧
    (∀ d ∈ (postEmprestimos db agora c).1.clientes, d.id = c0.id →
      d.agregados = agregacao (postEmprestimos db agora c).1 d.nome) ∧
    (∀ d ∈ (postEmprestimos db agora c).1.clientes, d.id = c0.id → d.nome = c.cliente →
      (∃ e ∈ emprestimosDe (postEmprestimos db agora c).1 d.nome,
        e.valoremprestado = d.maior_valor_emprestado) ∧
      ∀ e ∈ emprestimosDe (postEmprestimos db agora c).1 d.nome,
        e.valoremprestado ≤ d.maior_valor_emprestado) := by
  obtain ⟨hc0m, hc0n⟩ := clienteDoNome_mem db c.cliente c0 hcli
  obtain ⟨st, hE, hP, hC, hX, _⟩ := postEmprestimos_forma db agora c c0 hc hcli hk
  obtain ⟨hk1, hat1⟩ := postEmprestimos_invariantes db agora c c0 hc hcli hk hat
  have hrow : ∀ d ∈ (postEmprestimos db agora c).1.clientes, d.id = c0.id →
      ∃ x ∈ db.clientes, x.id = c0.id ∧
        d = recalcularCliente (postEmprestimos db agora c).1 agora x := by
    intro d hd hid
    rw [hC, List.mem_map] at hd
    obtain ⟨x, hx, hdx⟩ := hd
    by_cases h : x.id = c0.id
    · rw [if_pos h] at hdx
      exact ⟨x, hx, h, hdx.symm⟩
    · rw [if_neg h] at hdx
      rw [← hdx] at hid
      exact absurd hid h
  have hagg : ∀ d ∈ (postEmprestimos db agora c).1.clientes, d.id = c0.id →
      d.agregados = agregacao (postEmprestimos db agora c).1 d.nome := by
    intro d hd hid
    obtain ⟨x, _, _, rfl⟩ := hrow d hd hid
    have h := recalcularCliente_agregados (postEmprestimos db agora c).1 agora x hk1.1 hat1
    rw [h.1, h.2.2]
  refine ⟨(postEmprestimos_parcelas db agora c hc ⟨c0, hc0m, hc0n⟩).2, ?_, hagg, ?_⟩
  · refine ⟨recalcularCliente (postEmprestimos db agora c).1 agora c0, ?_, rfl, hc0n⟩
    rw [hC]
    refine List.mem_map.mpr ⟨c0, hc0m, ?_⟩
    rw [if_pos rfl]
  · intro d hd hid hnome
    have hm := congrArg Agregados.maior_valor_emprestado (hagg d hd hid)
    simp only [Cliente.agregados, agregacao] at hm
    have hne : (emprestimosDe (postEmprestimos db agora c).1 d.nome).map
        (fun e => e.valoremprestado) ≠ [] := by
      intro h
      have hmem : novoEmprestimo db c st ∈ emprestimosDe (postEmprestimos db agora c).1 d.nome := by
        unfold emprestimosDe
        rw [hE, List.mem_filter]
        exact ⟨by simp, by simp [novoEmprestimo, hnome]⟩
      have := List.mem_map_of_mem (fun e => e.valoremprestado) hmem
      rw [h] at this
      simp at this
    obtain ⟨h1, h2⟩ := maxOuZero_spec _ hne
    rw [← hm] at h1 h2
    constructor
    · simp only [List.mem_map] at h1
      exact h1
    · intro e he
      exact h2 _ (List.mem_map_of_mem _ he)

/-- C14 at the example of the specification: after the loan of 1000 (repayable 1200, 4
installments) is created for "Ana" on 2024-01-01, her row stores 1 loan, 1 pending, 0
paid, 0 overdue loans, 1000 lent, profit 0, 0 overdue installments and largest amount
1000. -/
theorem postEmprestimos_agregados_exemplo :
    camposFaltando corpoAna = false ∧
    clienteDoNome dbAna corpoAna.cliente = some (clienteZerado 1 "Ana") ∧
    dbAna.chavesEmprestimos ∧ dbAna.atrasadasVencidas meioDia0101 ∧
    (∀ d ∈ (postEmprestimos dbAna meioDia0101 corpoAna).1.clientes, d.id = 1 →
      d.agregados = agregacao (postEmprestimos dbAna meioDia0101 corpoAna).1 d.nome) ∧
    (postEmprestimos dbAna meioDia0101 corpoAna).1.clientes.map (fun d => d.agregados) =
      [{ total_emprestimos_feitos := 1, emprestimos_pendentes := 1, emprestimos_pagos := 0,
         emprestimos_atrasados := 0, total_valor_emprestado := 1000, lucro_total := 0,
         atrasos := 0, maior_valor_emprestado := 1000 }] := by
  have hk : dbAna.chavesEmprestimos := by decide
  have hat : dbAna.atrasadasVencidas meioDia0101 := by decide
  have h := postEmprestimos_agregados dbAna meioDia0101 corpoAna (clienteZerado 1 "Ana")
    camposFaltando_corpoAna rfl hk hat
  refine ⟨camposFaltando_corpoAna, rfl, hk, hat, h.2.2.1, ?_⟩
  obtain ⟨st, hE, hP, hC, _, _⟩ := postEmprestimos_forma dbAna meioDia0101 corpoAna
    (clienteZerado 1 "Ana") camposFaltando_corpoAna rfl hk
  have hst : (postEmprestimos dbAna meioDia0101 corpoAna).1.emprestimos.map (fun e => e.statos) =
      [StatusEmprestimo.Pendente] := by decide
  rw [hE] at hst
  simp only [dbAna, List.nil_append, List.map_cons, List.map_nil, novoEmprestimo,
    List.cons.injEq, and_true] at hst
  clear h
  generalize (postEmprestimos dbAna meioDia0101 corpoAna).1 = r at hE hP hC ⊢
  rw [hC]
  simp [dbAna, clienteZerado, recalcularCliente, Cliente.agregados, emprestimosDe, hE, hP,
    novoEmprestimo, corpoAna, hst, parcelasPagasDe, gerarParcelas_eq_map, novaParcelaCriacao,
    maxOuZero, juncaoAtrasadasAgora, List.range_succ, setMonth, getMonth, rolarDia, diasNoMes,
    bissexto, Data.meiaNoite, Instante.antes, Data.antes, meioDia0101]

/-! ## Customer rollups on loan deletion (`DELETE /emprestimos/:id`) -/

theorem agregacao_congr (db db1 : DB) (nome : String)
    (he : db.emprestimos = db1.emprestimos) (hp : db.parcelas = db1.parcelas) :
    agregacao db nome = agregacao db1 nome := by
  unfold agregacao emprestimosAtrasadosDe atrasosDe DB.temAtrasada emprestimosDe parcelasPagasDe
  simp only [he, hp]

theorem perm_cons_filter_id (L : List Emprestimo) (e0 : Emprestimo)
    (hnd : (L.map (fun e => e.id)).Nodup) (hm : e0 ∈ L) :
    L.Perm (e0 :: L.filter (fun e => decide (e.id ≠ e0.id))) := by
  induction L with
  | nil => simp at hm
  | cons a t ih =>
    rw [List.map_cons, List.nodup_cons] at hnd
    by_cases ha : a = e0
    · subst ha
      have hself : t.filter (fun e => decide (e.id ≠ a.id)) = t := by
        rw [List.filter_eq_self]
        intro e he
        have hne : e.id ≠ a.id := by
          intro h
          apply hnd.1
          rw [← h]
          exact List.mem_map_of_mem (fun e => e.id) he
        simpa using hne
      rw [List.filter_cons, if_neg (by simp), hself]
    · have hmt : e0 ∈ t := by
        rcases List.mem_cons.mp hm with h | h
        · exact absurd h.symm ha
        · exact h
      have hne : a.id ≠ e0.id := by
        intro h
        apply hnd.1
        rw [h]
        exact List.mem_map_of_mem (fun e => e.id) hmt
      rw [List.filter_cons, if_pos (by simpa using hne)]
      exact ((ih hnd.2 hmt).cons a).trans (List.Perm.swap _ _ _)

theorem emprestimosDe_perm (db : DB) (e0 : Emprestimo)
    (hnd : (db.emprestimos.map (fun e => e.id)).Nodup) (hm : e0 ∈ db.emprestimos) :
    (emprestimosDe db e0.cliente).Perm
      (e0 :: emprestimosDe (db.semEmprestimo e0.id) e0.cliente) := by
  unfold emprestimosDe DB.semEmprestimo
  have h := (perm_cons_filter_id db.emprestimos e0 hnd hm).filter
    (fun e => decide (e.cliente = e0.cliente))
  rw [List.filter_cons, if_pos (by simp)] at h
  exact h

theorem parcelasPagasDe_sem (db : DB) (id i : Nat) (h : i ≠ id) :
    parcelasPagasDe (db.semEmprestimo id) i = parcelasPagasDe db i := by
  unfold parcelasPagasDe DB.semEmprestimo
  simp only [List.filter_filter]
  congr 1
  apply List.filter_congr
  intro p _
  by_cases h1 : p.id_emprestimo = i
  · have : p.id_emprestimo ≠ id := by rw [h1]; exact h
    simp [h1, this, h]
  · simp [h1]

theorem temAtrasada_sem (db : DB) (id i : Nat) (h : i ≠ id) :
    (db.semEmprestimo id).temAtrasada i ↔ db.temAtrasada i := by
  unfold DB.temAtrasada DB.semEmprestimo
  constructor
  · rintro ⟨q, hq, h1, h2⟩
    exact ⟨q, (List.mem_filter.mp hq).1, h1, h2⟩
  · rintro ⟨q, hq, h1, h2⟩
    refine ⟨q, List.mem_filter.mpr ⟨hq, ?_⟩, h1, h2⟩
    have : q.id_emprestimo ≠ id := by rw [h1]; exact h
    simpa using this

theorem mem_emprestimosDe_sem (db : DB) (id : Nat) (nome : String) (e : Emprestimo) :
    e ∈ emprestimosDe (db.semEmprestimo id) nome ↔ e ∈ emprestimosDe db nome ∧ e.id ≠ id := by
  unfold emprestimosDe DB.semEmprestimo
  simp only [List.mem_filter, decide_eq_true_eq]
  tauto

theorem maxOuZero_eq_of (l : List ℚ) (x : ℚ) (hx : x ∈ l) (hub : ∀ y ∈ l, y ≤ x) :
    maxOuZero l = x := by
  have hne : l ≠ [] := by
    intro h; rw [h] at hx; simp at hx
  obtain ⟨h1, h2⟩ := maxOuZero_spec l hne
  exact le_antisymm (hub _ h1) (h2 _ hx)

theorem maxOuZero_perm (l l1 : List ℚ) (h : l.Perm l1) : maxOuZero l = maxOuZero l1 := by
  by_cases hne : l1 = []
  · rw [hne] at h
    rw [h.eq_nil, hne]
  · obtain ⟨h1, h2⟩ := maxOuZero_spec l1 hne
    exact maxOuZero_eq_of l _ (h.mem_iff.mpr h1) (fun y hy => h2 y (h.mem_iff.mp hy))

theorem temAtrasada_iff_pos (db : DB) (id : Nat) :
    db.temAtrasada id ↔
      0 < ((db.parcelas.filter (fun p => decide (p.id_emprestimo = id))).filter
        (fun p => decide (p.status = StatusParcela.Atrasada))).length := by
  unfold DB.temAtrasada
  rw [List.length_pos_iff_exists_mem]
  simp only [List.mem_filter, decide_eq_true_eq]
  constructor
  · rintro ⟨q, hq, h1, h2⟩
    exact ⟨q, ⟨hq, h1⟩, h2⟩
  · rintro ⟨q, ⟨hq, h1⟩, h2⟩
    exact ⟨q, hq, h1, h2⟩

theorem atrasosDe_remover (db : DB) (e0 : Emprestimo) (hm : e0 ∈ db.emprestimos) :
    atrasosDe db e0.cliente = atrasosDe (db.semEmprestimo e0.id) e0.cliente +
      ((db.parcelas.filter (fun p => decide (p.id_emprestimo = e0.id))).filter
        (fun p => decide (p.status = StatusParcela.Atrasada))).length := by
  have hsem : ∀ p : Parcela, p.id_emprestimo ≠ e0.id →
      ((∃ e ∈ emprestimosDe (db.semEmprestimo e0.id) e0.cliente, e.id = p.id_emprestimo) ↔
        ∃ e ∈ emprestimosDe db e0.cliente, e.id = p.id_emprestimo) := by
    intro p hp
    constructor
    · rintro ⟨e, he, h⟩
      exact ⟨e, ((mem_emprestimosDe_sem db e0.id e0.cliente e).mp he).1, h⟩
    · rintro ⟨e, he, h⟩
      exact ⟨e, (mem_emprestimosDe_sem db e0.id e0.cliente e).mpr ⟨he, by rw [h]; exact hp⟩, h⟩
  have hm0 : e0 ∈ emprestimosDe db e0.cliente := by
    unfold emprestimosDe
    exact List.mem_filter.mpr ⟨hm, by simp⟩
  unfold atrasosDe
  have hparc : (db.semEmprestimo e0.id).parcelas =
      db.parcelas.filter (fun p => decide (p.id_emprestimo ≠ e0.id)) := rfl
  rw [hparc]
  simp only [List.filter_filter, ← List.countP_eq_length_filter]
  rw [← countP_or_disjunto]
  · apply List.countP_congr
    intro p _
    by_cases h1 : p.id_emprestimo = e0.id
    · have hex : ∃ e ∈ emprestimosDe db e0.cliente, e.id = e0.id := ⟨e0, hm0, rfl⟩
      simp [h1, hex]
    · have := hsem p h1
      simp [h1, this]
  · intro p _
    by_cases h1 : p.id_emprestimo = e0.id <;> simp [h1]

theorem emprestimosAtrasadosDe_nodup (db : DB) (nome : String)
    (hnd : (db.emprestimos.map (fun e => e.id)).Nodup) :
    emprestimosAtrasadosDe db nome =
      ((emprestimosDe db nome).filter (fun e => decide (db.temAtrasada e.id))).length := by
  unfold emprestimosAtrasadosDe
  rw [List.Nodup.dedup, List.length_map]
  unfold emprestimosDe
  exact hnd.sublist (((List.filter_sublist _).trans (List.filter_sublist _)).map _)

theorem agregacao_remover_estados (db : DB) (e0 : Emprestimo)
    (hnd : (db.emprestimos.map (fun e => e.id)).Nodup) (hm : e0 ∈ db.emprestimos) :
    (agregacao db e0.cliente).total_emprestimos_feitos =
      (agregacao (db.semEmprestimo e0.id) e0.cliente).total_emprestimos_feitos + 1 ∧
    (agregacao db e0.cliente).emprestimos_pendentes =
      (agregacao (db.semEmprestimo e0.id) e0.cliente).emprestimos_pendentes +
        (if e0.statos = StatusEmprestimo.Pendente then 1 else 0) ∧
    (agregacao db e0.cliente).emprestimos_pagos =
      (agregacao (db.semEmprestimo e0.id) e0.cliente).emprestimos_pagos +
        (if e0.statos = StatusEmprestimo.Pago then 1 else 0) := by
  have hperm := emprestimosDe_perm db e0 hnd hm
  refine ⟨?_, ?_, ?_⟩
  · simp only [agregacao]
    rw [hperm.length_eq, List.length_cons]
    push_cast
    rfl
  · simp only [agregacao]
    rw [(hperm.filter _).length_eq, List.filter_cons]
    split_ifs with h1 h2 h2
    · simp
    · simp at h1; exact absurd h1 h2
    · simp at h1; exact absurd h2 h1
    · simp
  · simp only [agregacao]
    rw [(hperm.filter _).length_eq, List.filter_cons]
    split_ifs with h1 h2 h2
    · simp
    · simp at h1; exact absurd h1 h2
    · simp at h1; exact absurd h2 h1
    · simp

theorem agregacao_remover_valores (db : DB) (e0 : Emprestimo)
    (hnd : (db.emprestimos.map (fun e => e.id)).Nodup) (hm : e0 ∈ db.emprestimos) :
    (agregacao db e0.cliente).total_valor_emprestado =
      (agregacao (db.semEmprestimo e0.id) e0.cliente).total_valor_emprestado +
        e0.valoremprestado ∧
    (agregacao db e0.cliente).lucro_total =
      (agregacao (db.semEmprestimo e0.id) e0.cliente).lucro_total +
        (e0.valorpagar - e0.valoremprestado) / (e0.parcelas : ℚ) *
          (parcelasPagasDe db e0.id : ℚ) := by
  have hperm := emprestimosDe_perm db e0 hnd hm
  refine ⟨?_, ?_⟩
  · simp only [agregacao]
    rw [(hperm.map _).sum_eq, List.map_cons, List.sum_cons, add_comm]
  · simp only [agregacao]
    rw [(hperm.map _).sum_eq, List.map_cons, List.sum_cons, add_comm]
    congr 2
    apply List.map_congr_left
    intro e he
    rw [parcelasPagasDe_sem db e0.id e.id
      ((mem_emprestimosDe_sem db e0.id e0.cliente e).mp he).2]

theorem agregacao_remover_atrasos (db : DB) (e0 : Emprestimo)
    (hnd : (db.emprestimos.map (fun e => e.id)).Nodup) (hm : e0 ∈ db.emprestimos) :
    (agregacao db e0.cliente).atrasos =
      (agregacao (db.semEmprestimo e0.id) e0.cliente).atrasos +
        (((db.parcelas.filter (fun p => decide (p.id_emprestimo = e0.id))).filter
          (fun p => decide (p.status = StatusParcela.Atrasada))).length : Int) ∧
    (agregacao db e0.cliente).emprestimos_atrasados =
      (agregacao (db.semEmprestimo e0.id) e0.cliente).emprestimos_atrasados +
        (if 0 < ((db.parcelas.filter (fun p => decide (p.id_emprestimo = e0.id))).filter
          (fun p => decide (p.status = StatusParcela.Atrasada))).length then 1 else 0) := by
  have hperm := emprestimosDe_perm db e0 hnd hm
  have hnd1 : ((db.semEmprestimo e0.id).emprestimos.map (fun e => e.id)).Nodup :=
    hnd.sublist ((List.filter_sublist _).map _)
  refine ⟨?_, ?_⟩
  · simp only [agregacao]
    rw [atrasosDe_remover db e0 hm]
    push_cast
    rfl
  · simp only [agregacao]
    rw [emprestimosAtrasadosDe_nodup db e0.cliente hnd,
      emprestimosAtrasadosDe_nodup (db.semEmprestimo e0.id) e0.cliente hnd1,
      (hperm.filter _).length_eq, List.filter_cons]
    have hrest : (emprestimosDe (db.semEmprestimo e0.id) e0.cliente).filter
          (fun e => decide (db.temAtrasada e.id)) =
        (emprestimosDe (db.semEmprestimo e0.id) e0.cliente).filter
          (fun e => decide ((db.semEmprestimo e0.id).temAtrasada e.id)) := by
      apply List.filter_congr
      intro e he
      have := temAtrasada_sem db e0.id e.id
        ((mem_emprestimosDe_sem db e0.id e0.cliente e).mp he).2
      simp only [this]
    rw [hrest]
    have hiff := temAtrasada_iff_pos db e0.id
    by_cases ht : db.temAtrasada e0.id
    · rw [if_pos (by simpa using ht), if_pos (hiff.mp ht), List.length_cons]
      push_cast
      rfl
    · rw [if_neg (by simpa using ht), if_neg (fun h => ht (hiff.mpr h))]
      simp

theorem agregacao_remover_maior (db : DB) (e0 : Emprestimo)
    (hnd : (db.emprestimos.map (fun e => e.id)).Nodup) (hm : e0 ∈ db.emprestimos) :
    (agregacao (db.semEmprestimo e0.id) e0.cliente).maior_valor_emprestado =
      maxOuZero ((db.emprestimos.filter (fun e => decide
        (e.cliente = e0.cliente ∧ e.id ≠ e0.id))).map (fun e => e.valoremprestado)) ∧
    (e0.valoremprestado ≠ (agregacao db e0.cliente).maior_valor_emprestado →
      (agregacao (db.semEmprestimo e0.id) e0.cliente).maior_valor_emprestado =
        (agregacao db e0.cliente).maior_valor_emprestado) := by
  have hperm := emprestimosDe_perm db e0 hnd hm
  refine ⟨?_, ?_⟩
  · simp only [agregacao, emprestimosDe, DB.semEmprestimo, List.filter_filter]
    congr 2
    apply List.filter_congr
    intro e _
    by_cases h1 : e.cliente = e0.cliente <;> by_cases h2 : e.id = e0.id <;> simp [h1, h2]
  · intro hne
    simp only [agregacao] at hne ⊢
    have hp := maxOuZero_perm _ _ (hperm.map (fun e => e.valoremprestado))
    rw [List.map_cons] at hp
    obtain ⟨h1, h2⟩ := maxOuZero_spec (e0.valoremprestado ::
      (emprestimosDe (db.semEmprestimo e0.id) e0.cliente).map (fun e => e.valoremprestado))
      (by simp)
    rw [← hp] at h1 h2
    rcases List.mem_cons.mp h1 with h | h
    · exact absurd h.symm hne
    · exact maxOuZero_eq_of _ _ h (fun y hy => h2 y (List.mem_cons_of_mem _ hy))

theorem parcelasPagasDe_eq (db : DB) (id : Nat) :
    parcelasPagasDe db id =
      ((db.parcelas.filter (fun p => decide (p.id_emprestimo = id))).filter
        (fun p => decide (p.status = StatusParcela.Pago))).length := by
  unfold parcelasPagasDe
  rw [List.filter_filter]
  congr 2
  funext p
  by_cases h1 : p.id_emprestimo = id <;> by_cases h2 : p.status = StatusParcela.Pago <;>
    simp [h1, h2]

theorem novosValores_agregados (db : DB) (e0 : Emprestimo) (c0 : Cliente)
    (hnd : (db.emprestimos.map (fun e => e.id)).Nodup) (hm : e0 ∈ db.emprestimos)
    (hcons : c0.agregados = agregacao db e0.cliente)
    (hst : e0.statos ≠ StatusEmprestimo.EmAtraso)
    (hv : 0 ≤ (agregacao (db.semEmprestimo e0.id) e0.cliente).total_valor_emprestado)
    (hl : 0 ≤ (agregacao (db.semEmprestimo e0.id) e0.cliente).lucro_total) :
    (novosValores db e0.id e0 c0
        (db.parcelas.filter (fun p => decide (p.id_emprestimo = e0.id)))).agregados =
      agregacao (db.semEmprestimo e0.id) e0.cliente := by
  obtain ⟨hT, hP, hG⟩ := agregacao_remover_estados db e0 hnd hm
  obtain ⟨hV, hL⟩ := agregacao_remover_valores db e0 hnd hm
  obtain ⟨hA, hO⟩ := agregacao_remover_atrasos db e0 hnd hm
  obtain ⟨hM1, hM2⟩ := agregacao_remover_maior db e0 hnd hm
  rw [parcelasPagasDe_eq] at hL
  have n1 : 0 ≤ (agregacao (db.semEmprestimo e0.id) e0.cliente).total_emprestimos_feitos := by
    simp [agregacao]
  have n2 : 0 ≤ (agregacao (db.semEmprestimo e0.id) e0.cliente).emprestimos_pendentes := by
    simp [agregacao]
  have n3 : 0 ≤ (agregacao (db.semEmprestimo e0.id) e0.cliente).emprestimos_pagos := by
    simp [agregacao]
  have n4 : 0 ≤ (agregacao (db.semEmprestimo e0.id) e0.cliente).emprestimos_atrasados := by
    simp [agregacao]
  have n5 : 0 ≤ (agregacao (db.semEmprestimo e0.id) e0.cliente).atrasos := by
    simp [agregacao]
  rw [← hcons] at hT hP hG hV hL hA hO hM2
  unfold novosValores
  rw [← hM1]
  simp only [Cliente.agregados] at hT hP hG hV hL hA hO hM2
  generalize agregacao (db.semEmprestimo e0.id) e0.cliente = B at *
  generalize ((db.parcelas.filter (fun p => decide (p.id_emprestimo = e0.id))).filter
    (fun p => decide (p.status = StatusParcela.Atrasada))).length = k at *
  generalize ((db.parcelas.filter (fun p => decide (p.id_emprestimo = e0.id))).filter
    (fun p => decide (p.status = StatusParcela.Pago))).length = kp at *
  obtain ⟨b1, b2, b3, b4, b5, b6, b7, b8⟩ := B
  simp only [] at hT hP hG hV hL hA hO hM2 hv hl n1 n2 n3 n4 n5
  unfold Cliente.agregados
  simp only [Agregados.mk.injEq]
  have hO1 : 0 < k → c0.emprestimos_atrasados = b4 + 1 := by
    intro h; rw [hO, if_pos h]
  have hO0 : ¬ 0 < k → c0.emprestimos_atrasados = b4 := by
    intro h; rw [hO, if_neg h, add_zero]
  have hTV : max (c0.total_valor_emprestado - e0.valoremprestado) 0 = b5 := by
    rw [hV, add_sub_cancel_right, max_eq_left hv]
  have hLT : max (c0.lucro_total - (e0.valorpagar - e0.valoremprestado) / (e0.parcelas : ℚ) *
      (kp : ℚ)) 0 = b6 := by
    rw [hL, add_sub_cancel_right, max_eq_left hl]
  clear hO hV hL hv hl
  cases hs : e0.statos
  case EmAtraso => exact absurd hs hst
  all_goals
    simp only [hs, reduceCtorEq, if_true, if_false, true_or, or_false, false_or] at hP hG ⊢
    by_cases hk : k > 0
    all_goals by_cases hmx : e0.valoremprestado = c0.maior_valor_emprestado
    all_goals
      have h1 := hO1
      have h0 := hO0
      first
        | rw [if_pos hmx]
        | rw [if_neg hmx]
      simp only [hk, if_true, if_false]
      refine ⟨by omega, by omega, by omega, by omega, hTV, hLT, by omega, ?_⟩
      first | trivial | exact (hM2 hmx).symm

theorem emprestimoExistente_mem (db : DB) (id : Nat) (e0 : Emprestimo)
    (h : emprestimoExistente db id = some e0) : e0 ∈ db.emprestimos ∧ e0.id = id := by
  unfold emprestimoExistente at h
  have hm := List.mem_of_mem_head? h
  rw [List.mem_filter] at hm
  exact ⟨hm.1, by simpa using hm.2⟩

/-- C15: when `DELETE /emprestimos/:id` finds a loan whose status is not `Em Atraso` and
whose installment count is positive, loan ids are unique, the customer row of the name of
the loan stores exactly the full aggregation over the loans and installments of that
name, and the aggregation over the remaining loans has a total lent and a profit that are
not negative, then the handler succeeds and afterwards the row of that customer stores
exactly the full aggregation over the remaining loans and installments, which is the
aggregation in the store without the loan and its installments. -/
theorem deleteEmprestimo_agregados (db : DB) (id : Nat) (e0 : Emprestimo) (c0 : Cliente)
    (he : emprestimoExistente db id = some e0)
    (hc : clienteDoNome db e0.cliente = some c0)
    (hnd : (db.emprestimos.map (fun e => e.id)).Nodup)
    (hcons : c0.agregados = agregacao db c0.nome)
    (hst : e0.statos ≠ StatusEmprestimo.EmAtraso)
    (_hn : 0 < e0.parcelas)
    (hv : 0 ≤ (agregacao (db.semEmprestimo id) e0.cliente).total_valor_emprestado)
    (hl : 0 ≤ (agregacao (db.semEmprestimo id) e0.cliente).lucro_total) :
    (deleteEmprestimo db id).2 = .ok () ∧
    (∃ d ∈ (deleteEmprestimo db id).1.clientes, d.id = c0.id ∧ d.nome = e0.cliente) ∧
    (∀ d ∈ (deleteEmprestimo db id).1.clientes, d.id = c0.id → d.nome = e0.cliente →
      d.agregados = agregacao (deleteEmprestimo db id).1 d.nome) ∧
    agregacao (deleteEmprestimo db id).1 e0.cliente =
      agregacao (db.semEmprestimo id) e0.cliente := by
  obtain ⟨hm, hid⟩ := emprestimoExistente_mem db id e0 he
  obtain ⟨hc0m, hc0n⟩ := clienteDoNome_mem db e0.cliente c0 hc
  subst hid
  rw [hc0n] at hcons
  have hnv := novosValores_agregados db e0 c0 hnd hm hcons hst hv hl
  have hag : ∀ nome, agregacao (deleteEmprestimo db e0.id).1 nome =
      agregacao (db.semEmprestimo e0.id) nome := by
    intro nome
    apply agregacao_congr
    · rw [deleteEmprestimo_eq db e0.id e0 c0 he hc]; rfl
    · rw [deleteEmprestimo_eq db e0.id e0 c0 he hc]; rfl
  have hcl : (deleteEmprestimo db e0.id).1.clientes =
      db.clientes.map (gravarRollups (novosValores db e0.id e0 c0
        (db.parcelas.filter (fun p => decide (p.id_emprestimo = e0.id)))) c0.id) := by
    rw [deleteEmprestimo_eq db e0.id e0 c0 he hc]
  refine ⟨?_, ?_, ?_, hag _⟩
  · rw [deleteEmprestimo_eq db e0.id e0 c0 he hc]
  · rw [hcl]
    refine ⟨_, List.mem_map_of_mem _ hc0m, ?_, ?_⟩
    · exact (gravarRollups_agregados _ c0.id c0).2.2.1
    · rw [(gravarRollups_agregados _ c0.id c0).2.2.2]
      exact hc0n
  · intro d hd hdi hdn
    rw [hcl, List.mem_map] at hd
    obtain ⟨c, _, rfl⟩ := hd
    have hg := gravarRollups_agregados (novosValores db e0.id e0 c0
      (db.parcelas.filter (fun p => decide (p.id_emprestimo = e0.id)))) c0.id c
    rw [hg.2.2.1] at hdi
    rw [hg.1 hdi, hdn, hag, hnv]

theorem agregados_dbDuas : ∀ c ∈ dbDuas.clientes, c.agregados = agregacao dbDuas c.nome := by
  intro c hc
  simp only [dbDuas, List.mem_singleton] at hc
  subst hc
  simp [agregacao, Cliente.agregados, clienteZerado, emprestimosDe, dbDuas, emprestimoQuatro,
    emprestimoDois, parcelasPagasDe, parcelaQuatro, parcelaDois, maxOuZero,
    emprestimosAtrasadosDe, atrasosDe, DB.temAtrasada]
  norm_num

/-- C15 at the ledger of two loans: deleting the second loan (`Pendente`, principal 500)
leaves in the row of "Ana" 1 loan, 0 pending, 0 paid, 1 overdue loan, 1000 lent, profit
0, 1 overdue installment and largest amount 1000, which is the full aggregation over
the remaining loan. -/
theorem deleteEmprestimo_agregados_exemplo :
    emprestimoExistente dbDuas 2 = some emprestimoDois ∧
    (∃ c0, clienteDoNome dbDuas emprestimoDois.cliente = some c0 ∧ c0.id = 1 ∧
      c0.agregados = agregacao dbDuas c0.nome) ∧
    (dbDuas.emprestimos.map (fun e => e.id)).Nodup ∧
    emprestimoDois.statos ≠ StatusEmprestimo.EmAtraso ∧ 0 < emprestimoDois.parcelas ∧
    0 ≤ (agregacao (dbDuas.semEmprestimo 2) emprestimoDois.cliente).total_valor_emprestado ∧
    0 ≤ (agregacao (dbDuas.semEmprestimo 2) emprestimoDois.cliente).lucro_total ∧
    (∀ d ∈ (deleteEmprestimo dbDuas 2).1.clientes, d.id = 1 → d.nome = "Ana" →
      d.agregados = agregacao (deleteEmprestimo dbDuas 2).1 d.nome) ∧
    (deleteEmprestimo dbDuas 2).1.clientes.map (fun d => d.agregados) =
      [{ total_emprestimos_feitos := 1, emprestimos_pendentes := 0, emprestimos_pagos := 0,
         emprestimos_atrasados := 1, total_valor_emprestado := 1000, lucro_total := 0,
         atrasos := 1, maior_valor_emprestado := 1000 }] := by
  have hcons := agregados_dbDuas _ (List.mem_singleton.mpr rfl)
  have hv : 0 ≤ (agregacao (dbDuas.semEmprestimo 2) emprestimoDois.cliente).total_valor_emprestado := by
    simp [agregacao, emprestimosDe, DB.semEmprestimo, dbDuas, emprestimoQuatro, emprestimoDois]
  have hl : 0 ≤ (agregacao (dbDuas.semEmprestimo 2) emprestimoDois.cliente).lucro_total := by
    simp [agregacao, emprestimosDe, DB.semEmprestimo, dbDuas, emprestimoQuatro, emprestimoDois,
      parcelasPagasDe, parcelaQuatro, parcelaDois]
  have h := deleteEmprestimo_agregados dbDuas 2 emprestimoDois _ rfl rfl (by decide) hcons
    (by decide) (by decide) hv hl
  refine ⟨rfl, ⟨_, rfl, rfl, hcons⟩, by decide, by decide, by decide, hv, hl, h.2.2.1, ?_⟩
  rw [deleteEmprestimo_eq dbDuas 2 emprestimoDois _ rfl rfl]
  simp [dbDuas, gravarRollups, novosValores, clienteZerado, emprestimoDois, maxOuZero,
    Cliente.agregados, parcelaQuatro, parcelaDois]
  norm_num

/-- C15 does not hold as stated.  In the ledger of two loans the row of "Ana" stores the
full aggregation, and deleting the `Em Atraso` loan 1 lowers the stored pending count
from 1 to 0 although the remaining loan is `Pendente` (aggregation: 1).  In the ledger
with a loss-making loan the row of "Ana" stores the full aggregation (900 lent, profit
100), and deleting loan 2 leaves 0 lent and profit 0 stored, although the aggregation
over the remaining loan is -100 lent and profit -100. -/
theorem apagar_diverge_da_agregacao :
    (∀ c ∈ dbDuas.clientes, c.agregados = agregacao dbDuas c.nome) ∧
    (emprestimoExistente dbDuas 1).map (fun e => (e.cliente, e.statos)) =
      some ("Ana", StatusEmprestimo.EmAtraso) ∧
    (deleteEmprestimo dbDuas 1).2 = .ok () ∧
    (deleteEmprestimo dbDuas 1).1.clientes.map (fun c => (c.nome, c.emprestimos_pendentes)) =
      [("Ana", 0)] ∧
    (agregacao (deleteEmprestimo dbDuas 1).1 "Ana").emprestimos_pendentes = 1 ∧
    (∀ c ∈ dbPrejuizo.clientes, c.agregados = agregacao dbPrejuizo c.nome) ∧
    (emprestimoExistente dbPrejuizo 2).map (fun e => (e.cliente, e.statos)) =
      some ("Ana", StatusEmprestimo.Pendente) ∧
    (deleteEmprestimo dbPrejuizo 2).2 = .ok () ∧
    (deleteEmprestimo dbPrejuizo 2).1.clientes.map
      (fun c => (c.nome, c.total_valor_emprestado, c.lucro_total)) = [("Ana", 0, 0)] ∧
    (agregacao (deleteEmprestimo dbPrejuizo 2).1 "Ana").total_valor_emprestado = -100 ∧
    (agregacao (deleteEmprestimo dbPrejuizo 2).1 "Ana").lucro_total = -100 := by
  have he : emprestimoExistente dbPrejuizo 2 = some
      { id := 2, cliente := "Ana", valoremprestado := 1000, valorpagar := 1200, parcelas := 1,
        dataemprestimo := ⟨2024, 1, 1⟩, obs := "", statos := StatusEmprestimo.Pendente } := rfl
  refine ⟨agregados_dbDuas, rfl, rfl, by decide, by decide, ?_, rfl, rfl, ?_, ?_, ?_⟩
  · intro c hc
    simp only [dbPrejuizo, List.mem_singleton] at hc
    subst hc
    simp [agregacao, Cliente.agregados, clienteZerado, emprestimosDe, dbPrejuizo,
      parcelasPagasDe, maxOuZero, emprestimosAtrasadosDe, atrasosDe, DB.temAtrasada]
    norm_num
  · rw [deleteEmprestimo_eq dbPrejuizo 2 _ _ he rfl]
    simp [dbPrejuizo, gravarRollups, novosValores, clienteZerado, maxOuZero]
    norm_num
  · rw [deleteEmprestimo_eq dbPrejuizo 2 _ _ he rfl]
    simp [agregacao, emprestimosDe, dbPrejuizo]
  · rw [deleteEmprestimo_eq dbPrejuizo 2 _ _ he rfl]
    simp [agregacao, emprestimosDe, dbPrejuizo, parcelasPagasDe]
    norm_num

/-! ## Consistency of the stored rollups along a history -/

theorem antes_de_ateOuIgual (a t x : Instante) (h1 : a.antes t) (h2 : t.ateOuIgual x) :
    a.antes x := by
  obtain ⟨⟨a1, a2, a3⟩, a4⟩ := a
  obtain ⟨⟨t1, t2, t3⟩, t4⟩ := t
  obtain ⟨⟨x1, x2, x3⟩, x4⟩ := x
  simp only [Instante.ateOuIgual, Instante.antes, Data.antes, Data.mk.injEq] at *
  omega

theorem filter_id_unico (l : List Cliente) (c : Cliente)
    (hnd : (l.map (fun c => c.id)).Nodup) (hc : c ∈ l) :
    l.filter (fun x => decide (x.id = c.id)) = [c] := by
  induction l with
  | nil => simp at hc
  | cons a t ih =>
    rw [List.map_cons, List.nodup_cons] at hnd
    by_cases ha : a = c
    · subst ha
      have hnil : t.filter (fun x => decide (x.id = a.id)) = [] := by
        rw [List.filter_eq_nil_iff]
        intro x hx
        have hne : x.id ≠ a.id := by
          intro h
          apply hnd.1
          rw [← h]
          exact List.mem_map_of_mem (fun c => c.id) hx
        simpa using hne
      rw [List.filter_cons, if_pos (by simp), hnil]
    · have hmt : c ∈ t := by
        rcases List.mem_cons.mp hc with h | h
        · exact absurd h.symm ha
        · exact h
      have hne : a.id ≠ c.id := by
        intro h
        apply hnd.1
        rw [h]
        exact List.mem_map_of_mem (fun c => c.id) hmt
      rw [List.filter_cons, if_neg (by simpa using hne)]
      exact ih hnd.2 hmt

theorem consistente_de_integro (db : DB) (agora : Instante) (hi : db.integro)
    (hat : db.atrasadasVencidas agora) : db.consistente agora := by
  obtain ⟨hid, _, _, hk, _, hag⟩ := hi
  intro c hc
  have hf := filter_id_unico db.clientes c hid hc
  have h := hag c hc
  unfold getClienteStats
  rw [hf]
  simp only [Except.toOption, Option.some.injEq]
  have h1 := congrArg Agregados.total_emprestimos_feitos h
  have h2 := congrArg Agregados.emprestimos_pendentes h
  have h3 := congrArg Agregados.emprestimos_pagos h
  have h4 := congrArg Agregados.emprestimos_atrasados h
  have h5 := congrArg Agregados.total_valor_emprestado h
  have h6 := congrArg Agregados.lucro_total h
  have h8 := congrArg Agregados.maior_valor_emprestado h
  simp only [Cliente.agregados, agregacao] at h1 h2 h3 h4 h5 h6 h8
  rw [juncaoAtrasadasAgora_eq db agora c.nome hat, dedup_juncaoAtrasadas]
  unfold Cliente.estatisticas
  rw [← h1, ← h2, ← h3, ← h4, ← h5, ← h6, ← h8]

theorem agregacao_acrescimo (db db1 : DB) (nome : String) (e1 : Emprestimo)
    (novas : List Parcela)
    (hE : db1.emprestimos = db.emprestimos ++ [e1]) (hP : db1.parcelas = db.parcelas ++ novas)
    (hn : e1.cliente ≠ nome) (hid : ∀ e ∈ db.emprestimos, e.id ≠ e1.id)
    (hnovas : ∀ p ∈ novas, p.id_emprestimo = e1.id ∧ p.status ≠ StatusParcela.Pago) :
    agregacao db1 nome = agregacao db nome := by
  have hes : emprestimosDe db1 nome = emprestimosDe db nome := by
    unfold emprestimosDe
    rw [hE, List.filter_append]
    simp [hn]
  have hmem : ∀ e ∈ emprestimosDe db nome, e.id ≠ e1.id := by
    intro e he
    unfold emprestimosDe at he
    exact hid e (List.mem_filter.mp he).1
  have hpg : ∀ i, parcelasPagasDe db1 i = parcelasPagasDe db i := by
    intro i
    unfold parcelasPagasDe
    rw [hP, List.filter_append]
    have hnil : novas.filter (fun p => decide (p.id_emprestimo = i ∧
        p.status = StatusParcela.Pago)) = [] := by
      rw [List.filter_eq_nil_iff]
      intro p hp
      have := (hnovas p hp).2
      simp [this]
    rw [hnil, List.append_nil]
  have hat : atrasosDe db1 nome = atrasosDe db nome := by
    unfold atrasosDe
    rw [hes, hP, List.filter_append]
    have hnil : novas.filter (fun p => decide (p.status = StatusParcela.Atrasada ∧
        ∃ e ∈ emprestimosDe db nome, e.id = p.id_emprestimo)) = [] := by
      rw [List.filter_eq_nil_iff]
      intro p hp
      have h1 := (hnovas p hp).1
      have : ¬ ∃ e ∈ emprestimosDe db nome, e.id = p.id_emprestimo := by
        rintro ⟨e, he, h⟩
        exact hmem e he (h.trans h1)
      simp [this]
    rw [hnil, List.append_nil]
  have htem : ∀ e ∈ emprestimosDe db nome, (db1.temAtrasada e.id ↔ db.temAtrasada e.id) := by
    intro e he
    unfold DB.temAtrasada
    rw [hP]
    constructor
    · rintro ⟨q, hq, h1, h2⟩
      rcases List.mem_append.mp hq with h | h
      · exact ⟨q, h, h1, h2⟩
      · exact absurd ((hnovas q h).1.symm.trans h1).symm (hmem e he)
    · rintro ⟨q, hq, h1, h2⟩
      exact ⟨q, List.mem_append_left _ hq, h1, h2⟩
  have hea : emprestimosAtrasadosDe db1 nome = emprestimosAtrasadosDe db nome := by
    unfold emprestimosAtrasadosDe
    rw [hes]
    congr 3
    apply List.filter_congr
    intro e he
    simp only [htem e he]
  unfold agregacao
  simp only [hes, hpg, hat, hea]

theorem postClientes_forma (db : DB) (nome obs : String) :
    (postClientes db nome obs).1 = db ∨
    ((∀ x ∈ db.clientes, x.nome ≠ nome) ∧
      (postClientes db nome obs).1 = { db with
        clientes := db.clientes ++ [novoCliente db.proxIdCliente nome obs]
        proxIdCliente := db.proxIdCliente + 1 }) := by
  unfold postClientes
  split
  · exact Or.inl rfl
  · rename_i h
    refine Or.inr ⟨?_, rfl⟩
    intro x hx hn
    have : x ∈ db.clientes.filter (fun x => decide (x.nome = nome)) :=
      List.mem_filter.mpr ⟨hx, by simpa using hn⟩
    rw [h] at this
    simp at this

theorem agregacao_sem_emprestimos (db : DB) (nome : String)
    (h : ∀ e ∈ db.emprestimos, e.cliente ≠ nome) :
    agregacao db nome =
      { total_emprestimos_feitos := 0, emprestimos_pendentes := 0, emprestimos_pagos := 0,
        emprestimos_atrasados := 0, total_valor_emprestado := 0, lucro_total := 0,
        atrasos := 0, maior_valor_emprestado := 0 } := by
  have hes : emprestimosDe db nome = [] := by
    unfold emprestimosDe
    rw [List.filter_eq_nil_iff]
    intro e he
    simpa using h e he
  unfold agregacao emprestimosAtrasadosDe atrasosDe
  rw [hes]
  simp [maxOuZero]

theorem postClientes_integro (db : DB) (nome obs : String) (hi : db.integro) :
    (postClientes db nome obs).1.integro := by
  rcases postClientes_forma db nome obs with h | ⟨hnovo, h⟩
  · rw [h]; exact hi
  · rw [h]
    obtain ⟨hid, hlt, hnm, hk, hcli, hag⟩ := hi
    refine ⟨?_, ?_, ?_, hk, ?_, ?_⟩
    · simp only [List.map_append, List.map_cons, List.map_nil]
      rw [List.nodup_append]
      refine ⟨hid, by simp, ?_⟩
      intro a ha hb
      simp only [List.mem_map] at ha
      obtain ⟨x, hx, rfl⟩ := ha
      simp only [List.mem_singleton, novoCliente] at hb
      have := hlt x hx
      omega
    · intro c hc
      simp only [List.mem_append, List.mem_singleton] at hc
      rcases hc with hc | hc
      · have := hlt c hc
        simp only
        omega
      · rw [hc]
        simp [novoCliente]
    · simp only [List.map_append, List.map_cons, List.map_nil]
      rw [List.nodup_append]
      refine ⟨hnm, by simp, ?_⟩
      intro a ha hb
      simp only [List.mem_map] at ha
      obtain ⟨x, hx, rfl⟩ := ha
      simp only [List.mem_singleton, novoCliente] at hb
      exact hnovo x hx hb
    · intro e he
      obtain ⟨c, hc, hn⟩ := hcli e he
      exact ⟨c, List.mem_append_left _ hc, hn⟩
    · intro c hc
      simp only [List.mem_append, List.mem_singleton] at hc
      refine Eq.trans ?_ (agregacao_congr db _ c.nome rfl rfl)
      rcases hc with hc | hc
      · exact hag c hc
      · rw [hc, agregacao_sem_emprestimos]
        · rfl
        · intro e he hn
          obtain ⟨x, hx, hxn⟩ := hcli e he
          exact hnovo x hx (hxn.trans hn)

theorem postClientes_parcelas (db : DB) (nome obs : String) :
    (postClientes db nome obs).1.parcelas = db.parcelas := by
  rcases postClientes_forma db nome obs with h | ⟨_, h⟩ <;> rw [h]

theorem postEmprestimos_falha (db : DB) (agora : Instante) (c : CorpoEmprestimo)
    (h : camposFaltando c = true ∨ clienteDoNome db c.cliente = none) :
    (postEmprestimos db agora c).1 = db := by
  unfold postEmprestimos
  by_cases hc : camposFaltando c = true
  · rw [if_pos hc]
  · rcases h with h | h
    · exact absurd h hc
    · rw [if_neg hc]
      unfold clienteDoNome at h
      rw [List.head?_eq_none_iff] at h
      rw [h]

theorem postEmprestimos_integro (db : DB) (agora : Instante) (c : CorpoEmprestimo)
    (hi : db.integro) (hat : db.atrasadasVencidas agora) :
    (postEmprestimos db agora c).1.integro ∧
    ∀ x, agora.ateOuIgual x → db.atrasadasVencidas x →
      (postEmprestimos db agora c).1.atrasadasVencidas x := by
  by_cases hc : camposFaltando c = true
  · rw [postEmprestimos_falha db agora c (Or.inl hc)]
    exact ⟨hi, fun _ _ h => h⟩
  cases hcli : clienteDoNome db c.cliente with
  | none =>
    rw [postEmprestimos_falha db agora c (Or.inr hcli)]
    exact ⟨hi, fun _ _ h => h⟩
  | some c0 =>
    have hc : camposFaltando c = false := by simpa using hc
    obtain ⟨hid, hlt, hnm, hk, hclis, hag⟩ := hi
    obtain ⟨hc0m, hc0n⟩ := clienteDoNome_mem db c.cliente c0 hcli
    obtain ⟨st, hE, hP, hC, hX, hXC⟩ := postEmprestimos_forma db agora c c0 hc hcli hk
    obtain ⟨hk1, hat1⟩ := postEmprestimos_invariantes db agora c c0 hc hcli hk hat
    have hrow : ∀ x, (if x.id = c0.id then recalcularCliente (postEmprestimos db agora c).1 agora x
        else x).id = x.id ∧
        (if x.id = c0.id then recalcularCliente (postEmprestimos db agora c).1 agora x
        else x).nome = x.nome := by
      intro x
      split <;> exact ⟨rfl, rfl⟩
    have hids : (postEmprestimos db agora c).1.clientes.map (fun c => c.id) =
        db.clientes.map (fun c => c.id) := by
      rw [hC, List.map_map]
      apply List.map_congr_left
      intro x _
      exact (hrow x).1
    have hnms : (postEmprestimos db agora c).1.clientes.map (fun c => c.nome) =
        db.clientes.map (fun c => c.nome) := by
      rw [hC, List.map_map]
      apply List.map_congr_left
      intro x _
      exact (hrow x).2
    have hnomes : ∀ nome, (∃ x ∈ db.clientes, x.nome = nome) →
        ∃ d ∈ (postEmprestimos db agora c).1.clientes, d.nome = nome := by
      intro nome ⟨x, hx, hn⟩
      have : nome ∈ (postEmprestimos db agora c).1.clientes.map (fun c => c.nome) := by
        rw [hnms, ← hn]
        exact List.mem_map_of_mem (fun c => c.nome) hx
      simpa using this
    refine ⟨⟨?_, ?_, ?_, hk1, ?_, ?_⟩, ?_⟩
    · rw [hids]; exact hid
    · intro d hd
      have : d.id ∈ (postEmprestimos db agora c).1.clientes.map (fun c => c.id) :=
        List.mem_map_of_mem (fun c => c.id) hd
      rw [hids] at this
      simp only [List.mem_map] at this
      obtain ⟨x, hx, hxd⟩ := this
      rw [hXC, ← hxd]
      exact hlt x hx
    · rw [hnms]; exact hnm
    · intro e he
      rw [hE] at he
      rcases List.mem_append.mp he with h | h
      · exact hnomes _ (hclis e h)
      · simp only [List.mem_singleton] at h
        rw [h]
        exact hnomes _ ⟨c0, hc0m, hc0n⟩
    · intro d hd
      rw [hC, List.mem_map] at hd
      obtain ⟨x, hx, rfl⟩ := hd
      by_cases h : x.id = c0.id
      · rw [if_pos h]
        have hr := recalcularCliente_agregados (postEmprestimos db agora c).1 agora x hk1.1 hat1
        rw [hr.1, hr.2.2]
      · rw [if_neg h]
        have hne : x.nome ≠ c.cliente := by
          intro hn
          apply h
          have := List.inj_on_of_nodup_map hnm hx hc0m (hn.trans hc0n.symm)
          rw [this]
        rw [hag x hx]
        symm
        apply agregacao_acrescimo db _ x.nome (novoEmprestimo db c st) _ hE hP
        · exact fun h => hne h.symm
        · intro e he
          have := hk.2 e he
          simp only [novoEmprestimo]
          omega
        · intro p hp
          have := gerarParcelas_atrasadas _ _ _ _ _ _ p hp
          exact ⟨this.1, this.2.2⟩
    · intro x hx hatx p hp
      rw [hP] at hp
      rcases List.mem_append.mp hp with h | h
      · exact hatx p h
      · intro hs
        exact antes_de_ateOuIgual _ _ _ ((gerarParcelas_atrasadas _ _ _ _ _ _ p h).2.1 hs) hx

theorem executar_integro : ∀ (h : List (Instante × Pedido)) (db : DB) (fim : Instante),
    db.integro → (∀ x ∈ h, x.2.criacao = true) → cronologica h fim →
    (∀ t ∈ h.map (fun x => x.1) ++ [fim], db.atrasadasVencidas t) →
    (executar db h).integro ∧ (executar db h).atrasadasVencidas fim := by
  intro h
  induction h with
  | nil =>
    intro db fim hi _ _ hat
    exact ⟨hi, hat fim (by simp)⟩
  | cons x r ih =>
    intro db fim hi hcr hord hat
    unfold cronologica at hord
    rw [List.map_cons, List.cons_append, List.pairwise_cons] at hord
    obtain ⟨hx, hord⟩ := hord
    have hatx := hat x.1 (by simp)
    have hcrx := hcr x (List.mem_cons_self _ _)
    have hcrr : ∀ y ∈ r, y.2.criacao = true := fun y hy => hcr y (List.mem_cons_of_mem _ hy)
    have hatr : ∀ t ∈ r.map (fun x => x.1) ++ [fim], db.atrasadasVencidas t := by
      intro t ht
      apply hat
      rw [List.map_cons, List.cons_append]
      exact List.mem_cons_of_mem _ ht
    obtain ⟨t, p⟩ := x
    cases p with
    | criarCliente nome obs =>
      refine ih _ fim (postClientes_integro db nome obs hi) hcrr hord ?_
      intro t1 ht1 q hq
      simp only [atender, postClientes_parcelas] at hq
      exact hatr t1 ht1 q hq
    | criarEmprestimo c =>
      obtain ⟨h1, h2⟩ := postEmprestimos_integro db t c hi hatx
      refine ih _ fim h1 hcrr hord ?_
      intro t1 ht1
      exact h2 t1 (hx t1 ht1) (hatr t1 ht1)
    | editarEmprestimo _ _ => simp [Pedido.criacao] at hcrx
    | apagarEmprestimo _ => simp [Pedido.criacao] at hcrx
    | alterarStatusParcela _ _ => simp [Pedido.criacao] at hcrx
    | marcarPago _ => simp [Pedido.criacao] at hcrx
    | varrer => simp [Pedido.criacao] at hcrx

/-- C13: in the state reached from the empty ledger by any history of createCustomer and
createLoan requests served in chronological order, at any instant `fim` not before the
requests, `GET /clientes/stats/:id` answers for every customer row with exactly the
stored values: total loans, pending loans, paid loans, overdue loans, total lent, total
profit and largest amount lent. -/
theorem criacao_mantem_consistencia (h : List (Instante × Pedido)) (fim : Instante)
    (hcr : ∀ x ∈ h, x.2.criacao = true) (hord : cronologica h fim) :
    (executar dbVazio h).consistente fim := by
  have hi : dbVazio.integro := by decide
  have hat : ∀ t ∈ h.map (fun x => x.1) ++ [fim], dbVazio.atrasadasVencidas t := by
    intro t _ p hp
    simp [dbVazio] at hp
  obtain ⟨h1, h2⟩ := executar_integro h dbVazio fim hi hcr hord hat
  exact consistente_de_integro _ fim h1 h2

/-- C13 at the example history: after customer "Ana" and the example loan were created
on 2024-01-01, the answer of `GET /clientes/stats/1` on 2024-02-15 is the stored row: 1
loan, 1 pending, 0 paid, 1000 lent, profit 0, largest amount 1000, 0 overdue loans. -/
theorem criacao_mantem_consistencia_exemplo :
    (∀ x ∈ historiaCriacao, x.2.criacao = true) ∧ cronologica historiaCriacao meioDia1502 ∧
    (executar dbVazio historiaCriacao).consistente meioDia1502 ∧
    (getClienteStats (executar dbVazio historiaCriacao) meioDia1502 1).toOption =
      some { id := 1, nome := "Ana", obs := "", total_emprestimos_feitos := 1,
             emprestimos_pendentes := 1, emprestimos_pagos := 0, total_valor_emprestado := 1000,
             lucro_total := 0, maior_valor_emprestado := 1000, emprestimos_atrasados := 0 } :=
  ⟨by decide, by decide,
    criacao_mantem_consistencia historiaCriacao meioDia1502 (by decide) (by decide),
    by decide!⟩

/-- C13 does not hold for the other five operations.  Each block is a chronological
history from the empty ledger whose state is consistent before its last request and not
after it: the sweep turns the loan `Em Atraso` and leaves the stored pending count at 1
(recomputed: 0); editLoan raises the principal to 2000 and leaves the stored total lent
at 1000; setInstallmentStatus pays the only overdue installment, the loan becomes
`Pendente` and the stored pending count stays 0 (recomputed: 1); markLoanPaid sets the
loan `Pago` and leaves the stored counts at 1 pending and 0 paid (recomputed: 0 and 1);
deleteLoan of the `Em Atraso` loan lowers the stored pending count to 0 although the
remaining loan is `Pendente` (recomputed: 1). -/
theorem consistencia_nao_invariante :
    (cronologica (historiaCriacao ++ [(meioDia1502, .varrer)]) meioDia1502 ∧
      (executar dbVazio historiaCriacao).consistente meioDia1502 ∧
      (executar dbVazio (historiaCriacao ++ [(meioDia1502, .varrer)])).clientes.map
        (fun c => (c.id, c.emprestimos_pendentes)) = [(1, 1)] ∧
      (getClienteStats (executar dbVazio (historiaCriacao ++ [(meioDia1502, .varrer)]))
        meioDia1502 1).toOption.map (fun s => s.emprestimos_pendentes) = some 0) ∧
    (cronologica (historiaCriacao ++ [(meioDia0101, .editarEmprestimo 1 corpoDobro)])
        meioDia0101 ∧
      (executar dbVazio historiaCriacao).consistente meioDia0101 ∧
      (executar dbVazio (historiaCriacao ++
        [(meioDia0101, .editarEmprestimo 1 corpoDobro)])).clientes.map
        (fun c => (c.id, c.total_valor_emprestado)) = [(1, 1000)] ∧
      (getClienteStats (executar dbVazio (historiaCriacao ++
        [(meioDia0101, .editarEmprestimo 1 corpoDobro)]))
        meioDia0101 1).toOption.map (fun s => s.total_valor_emprestado) = some 2000) ∧
    (cronologica (historiaTardia ++ [(meioDia1502, .alterarStatusParcela 1 StatusParcela.Pago)])
        meioDia1502 ∧
      (executar dbVazio historiaTardia).consistente meioDia1502 ∧
      (executar dbVazio (historiaTardia ++
        [(meioDia1502, .alterarStatusParcela 1 StatusParcela.Pago)])).clientes.map
        (fun c => (c.id, c.emprestimos_pendentes)) = [(1, 0)] ∧
      (getClienteStats (executar dbVazio (historiaTardia ++
        [(meioDia1502, .alterarStatusParcela 1 StatusParcela.Pago)]))
        meioDia1502 1).toOption.map (fun s => s.emprestimos_pendentes) = some 1) ∧
    (cronologica (historiaQuitada ++ [(meioDia0101, .marcarPago 1)]) meioDia0101 ∧
      (executar dbVazio historiaQuitada).consistente meioDia0101 ∧
      (executar dbVazio (historiaQuitada ++ [(meioDia0101, .marcarPago 1)])).clientes.map
        (fun c => (c.id, c.emprestimos_pendentes, c.emprestimos_pagos)) = [(1, 1, 0)] ∧
      (getClienteStats (executar dbVazio (historiaQuitada ++ [(meioDia0101, .marcarPago 1)]))
        meioDia0101 1).toOption.map (fun s => (s.emprestimos_pendentes, s.emprestimos_pagos)) =
        some (0, 1)) ∧
    (cronologica (historiaDuas ++ [(meioDia1502, .apagarEmprestimo 1)]) meioDia1502 ∧
      (executar dbVazio historiaDuas).consistente meioDia1502 ∧
      (executar dbVazio (historiaDuas ++ [(meioDia1502, .apagarEmprestimo 1)])).clientes.map
        (fun c => (c.id, c.emprestimos_pendentes)) = [(1, 0)] ∧
      (getClienteStats (executar dbVazio (historiaDuas ++ [(meioDia1502, .apagarEmprestimo 1)]))
        meioDia1502 1).toOption.map (fun s => s.emprestimos_pendentes) = some 1) := by
  refine ⟨⟨by decide, by decide!, by decide!, by decide!⟩,
    ⟨by decide, by decide!, by decide!, by decide!⟩,
    ⟨by decide, by decide!, by decide!, by decide!⟩,
    ⟨by decide, by decide!, by decide!, by decide!⟩,
    ⟨by decide, by decide!, by decide!, by decide!⟩⟩

/-! ## Marking a missing loan as paid (`PATCH /emprestimos/:id/pago`) -/

theorem definirStatos_ausente (db : DB) (id : Nat) (st : StatusEmprestimo)
    (h : ∀ e ∈ db.emprestimos, e.id ≠ id) : definirStatos db id st = db := by
  have hm : db.emprestimos.map (fun e => if e.id = id then { e with statos := st } else e) =
      db.emprestimos := by
    conv_rhs => rw [← List.map_id db.emprestimos]
    apply List.map_congr_left
    intro e he
    rw [if_neg (h e he)]
    rfl
  exact db_eq_of _ _ rfl hm rfl rfl rfl rfl

theorem emprestimoExistente_none (db : DB) (id : Nat) (h : emprestimoExistente db id = none) :
    ∀ e ∈ db.emprestimos, e.id ≠ id := by
  unfold emprestimoExistente at h
  rw [List.head?_eq_none_iff, List.filter_eq_nil_iff] at h
  intro e he
  simpa using h e he

/-- C21: `PATCH /emprestimos/:id/pago` has no not-found answer.  For an id that refers to
no loan the store is left as it was, and the answer is never the 404 of a missing loan:
when no installment row points to that id (as in every store whose installments all
belong to a loan) the handler answers with success. -/
theorem patchEmprestimoPago_id_ausente (db : DB) (id : Nat)
    (hnone : emprestimoExistente db id = none) :
    (patchEmprestimoPago db id).1 = db ∧
    (patchEmprestimoPago db id).2 ≠ .error .emprestimoNaoEncontrado ∧
    ((∀ p ∈ db.parcelas, ∃ e ∈ db.emprestimos, e.id = p.id_emprestimo) →
      patchEmprestimoPago db id = (db, .ok ())) := by
  have hne := emprestimoExistente_none db id hnone
  have hd := definirStatos_ausente db id StatusEmprestimo.Pago hne
  unfold patchEmprestimoPago
  simp only []
  refine ⟨?_, ?_, ?_⟩
  · split
    · rfl
    · exact hd
  · split
    · simp
    · simp
  · intro href
    have hnil : db.parcelas.filter (fun p => decide (p.id_emprestimo = id ∧
        p.status ≠ StatusParcela.Pago)) = [] := by
      rw [List.filter_eq_nil_iff]
      intro p hp
      obtain ⟨e, he, hid⟩ := href p hp
      have : p.id_emprestimo ≠ id := by
        rw [← hid]
        exact hne e he
      simp [this]
    rw [hnil, hd]
    rfl

/-- C21 at the example store: loan id 7 does not exist, and marking it as paid answers
with success and changes nothing. -/
theorem patchEmprestimoPago_id_ausente_exemplo :
    emprestimoExistente dbQuatro 7 = none ∧
    (∀ p ∈ dbQuatro.parcelas, ∃ e ∈ dbQuatro.emprestimos, e.id = p.id_emprestimo) ∧
    patchEmprestimoPago dbQuatro 7 = (dbQuatro, .ok ()) := by
  have href : ∀ p ∈ dbQuatro.parcelas, ∃ e ∈ dbQuatro.emprestimos, e.id = p.id_emprestimo := by
    decide
  exact ⟨rfl, href, (patchEmprestimoPago_id_ausente dbQuatro 7 rfl).2.2 href⟩

/-! ## Status of the installments appended by `PUT /emprestimos/:id` -/

theorem putEmprestimo_acrescimo (db : DB) (id : Nat) (c : CorpoEmprestimo) (e0 : Emprestimo)
    (hc : camposFaltando c = false) (hcli : ∃ x ∈ db.clientes, x.nome = c.cliente)
    (hemp : emprestimoExistente db id = some e0) (hk : db.chavesParcelas)
    (hgt : e0.parcelas < c.parcelas) :
    (putEmprestimo db id c).1.parcelas =
      db.parcelas.map (fun p => if p.id_emprestimo = id then
        { p with valor_parcela := toFixed2 (quocienteDuplo c.valorpagar c.parcelas) } else p) ++
      (List.range (c.parcelas - e0.parcelas)).map (fun j =>
        novaParcelaEdicao id (quocienteDuplo c.valorpagar c.parcelas) c.dataemprestimo
          (db.proxIdParcela + j) (e0.parcelas + 1 + j)) := by
  have hpar := putEmprestimo_parcelas db id c e0 hc hcli hemp hk
  have hrem : (removerUltimasParcelas (regravarEmprestimo db id c) id e0.parcelas
      c.parcelas).parcelas = db.parcelas := by
    unfold removerUltimasParcelas
    simp only []
    rw [if_neg (by omega)]
    rfl
  rw [hrem, List.map_append, List.map_map] at hpar
  have hnovas : ((fun p : Parcela => if p.id_emprestimo = id then
        { p with valor_parcela := toFixed2 (quocienteDuplo c.valorpagar c.parcelas) } else p) ∘
      fun j => novaParcelaEdicao id (quocienteDuplo c.valorpagar c.parcelas) c.dataemprestimo
        (db.proxIdParcela + j) (e0.parcelas + 1 + j)) =
      fun j => novaParcelaEdicao id (quocienteDuplo c.valorpagar c.parcelas) c.dataemprestimo
        (db.proxIdParcela + j) (e0.parcelas + 1 + j) := by
    funext j
    simp [novaParcelaEdicao]
  rw [hnovas] at hpar
  exact hpar

/-- C22: when `PUT /emprestimos/:id`, received at any instant `agora`, raises the
installment count of an existing loan, the rows it appends carry the sequence numbers
after the old count and every one of them is `Pendente` with no paid date, whatever its
due date; the rows that were there keep their status. -/
theorem putEmprestimo_novas_pendentes (db : DB) (agora : Instante) (id : Nat)
    (c : CorpoEmprestimo) (e0 : Emprestimo)
    (hc : camposFaltando c = false) (hcli : ∃ x ∈ db.clientes, x.nome = c.cliente)
    (hemp : emprestimoExistente db id = some e0) (hk : db.chavesParcelas)
    (hgt : e0.parcelas < c.parcelas) :
    ∃ novas,
      (atender db agora (.editarEmprestimo id c)).parcelas =
        db.parcelas.map (fun p => if p.id_emprestimo = id then
          { p with valor_parcela := toFixed2 (quocienteDuplo c.valorpagar c.parcelas) } else p)
        ++ novas ∧
      novas.map (fun p => (p.id_emprestimo, p.numero_parcela)) =
        (List.range' (e0.parcelas + 1) (c.parcelas - e0.parcelas)).map (fun i => (id, i)) ∧
      ∀ p ∈ novas, p.status = StatusParcela.Pendente ∧ p.data_pagamento = none := by
  refine ⟨_, putEmprestimo_acrescimo db id c e0 hc hcli hemp hk hgt, ?_, ?_⟩
  · rw [List.range'_eq_map_range, List.map_map, List.map_map]
    apply List.map_congr_left
    intro j _
    simp [novaParcelaEdicao]
  · intro p hp
    simp only [List.mem_map] at hp
    obtain ⟨j, _, rfl⟩ := hp
    exact ⟨rfl, rfl⟩

/-- C22 at the example loan extended from 4 to 5 installments on 2024-07-15: the row
appended is number 5, due on 2024-06-01, and it is `Pendente`. -/
theorem putEmprestimo_novas_pendentes_exemplo :
    camposFaltando corpoCinco = false ∧ (∃ x ∈ dbQuatro.clientes, x.nome = corpoCinco.cliente) ∧
    emprestimoExistente dbQuatro 1 = some (emprestimoQuatro StatusEmprestimo.Pendente) ∧
    dbQuatro.chavesParcelas ∧
    (emprestimoQuatro StatusEmprestimo.Pendente).parcelas < corpoCinco.parcelas ∧
    ∃ novas,
      (atender dbQuatro meioDia1507 (.editarEmprestimo 1 corpoCinco)).parcelas =
        dbQuatro.parcelas.map (fun p => if p.id_emprestimo = 1 then
          { p with valor_parcela :=
              toFixed2 (quocienteDuplo corpoCinco.valorpagar corpoCinco.parcelas) } else p)
        ++ novas ∧
      novas.map (fun p => (p.id_emprestimo, p.numero_parcela)) =
        (List.range' ((emprestimoQuatro StatusEmprestimo.Pendente).parcelas + 1)
          (corpoCinco.parcelas - (emprestimoQuatro StatusEmprestimo.Pendente).parcelas)).map
          (fun i => (1, i)) ∧
      ∀ p ∈ novas, p.status = StatusParcela.Pendente ∧ p.data_pagamento = none := by
  have hc : camposFaltando corpoCinco = false := by decide!
  have hcli : ∃ x ∈ dbQuatro.clientes, x.nome = corpoCinco.cliente := by decide
  have hk : dbQuatro.chavesParcelas := by decide
  have hgt : (emprestimoQuatro StatusEmprestimo.Pendente).parcelas < corpoCinco.parcelas := by
    decide
  exact ⟨hc, hcli, rfl, hk, hgt,
    putEmprestimo_novas_pendentes dbQuatro meioDia1507 1 corpoCinco
      (emprestimoQuatro StatusEmprestimo.Pendente) hc hcli rfl hk hgt⟩

/-- C22 does not hold as stated.  The example loan (origination 2024-01-01) is extended
from 4 to 5 installments on 2024-07-15: the appended installment 5 is due on 2024-06-01,
which is in the past at the time of the edit, by the instant as well as by the calendar
date, and it is stored `Pendente`; the rule of the schedule generator gives `Atrasada` for
that due date at that instant. -/
theorem putEmprestimo_nova_vencida :
    ((atender dbQuatro meioDia1507 (.editarEmprestimo 1 corpoCinco)).parcelas.drop 4).map
      (fun p => (p.numero_parcela, p.data_vencimento, p.status)) =
      [(5, ⟨2024, 6, 1⟩, StatusParcela.Pendente)] ∧
    (⟨2024, 6, 1⟩ : Data).meiaNoite.antes meioDia1507 ∧
    (⟨2024, 6, 1⟩ : Data).antes meioDia1507.data ∧
    ((novaParcelaCriacao 1 (quocienteDuplo corpoCinco.valorpagar corpoCinco.parcelas)
      corpoCinco.dataemprestimo meioDia1507 5 5).data_vencimento,
     (novaParcelaCriacao 1 (quocienteDuplo corpoCinco.valorpagar corpoCinco.parcelas)
      corpoCinco.dataemprestimo meioDia1507 5 5).status) =
      (⟨2024, 6, 1⟩, StatusParcela.Atrasada) := by
  refine ⟨by decide!, by decide, by decide, by decide!⟩

/-! ## The three overdue rules -/

theorem meiaNoite_antes_iff (d : Data) (t : Instante) :
    d.meiaNoite.antes t ↔ d.antes t.data ∨ (d = t.data ∧ 0 < t.ms) := by
  unfold Instante.antes Data.meiaNoite
  exact Iff.rfl

theorem parcelaVarrida_criada (emprestimoId : Nat) (vp : ℚ) (base : Data) (agora : Instante)
    (id i : Nat) :
    parcelaVarrida agora.data (novaParcelaCriacao emprestimoId vp base agora id i) =
      novaParcelaCriacao emprestimoId vp base agora id i := by
  unfold parcelaVarrida
  split
  · rename_i h
    obtain ⟨h1, h2⟩ := h
    have h3 : (novaParcelaCriacao emprestimoId vp base agora id i).data_vencimento.meiaNoite.antes
        agora := (meiaNoite_antes_iff _ _).mpr (Or.inl h2)
    simp only [novaParcelaCriacao] at h1 h3
    rw [if_pos h3] at h1
    simp at h1
  · rfl

/-- C23: the three overdue tests as coded, which differ on the creation day.  For a loan
created at instant `agora`, an installment is created `Atrasada` exactly when its due
date is strictly before the calendar date of `agora`, or is that date itself with `agora`
after midnight, and `Pendente` otherwise.  The sweep run at
`agora` maps every row through the row-level rule, which turns a `Pendente` row into
`Atrasada` exactly when its due date is strictly before the calendar date of `agora`;
the unpay action at `agora` answers `Atrasada` exactly under that same condition.  A
sweep run at `agora` right after the creation leaves every installment of the new loan
as it was created. -/
theorem atraso_criacao_varredura_reversao (db : DB) (agora : Instante) (c : CorpoEmprestimo)
    (hc : camposFaltando c = false) (hcli : ∃ x ∈ db.clientes, x.nome = c.cliente) :
    (∀ p ∈ parcelasCriadas db agora c,
      (p.status = StatusParcela.Atrasada ↔
        p.data_vencimento.antes agora.data ∨
          (p.data_vencimento = agora.data ∧ 0 < agora.ms)) ∧
      (p.status = StatusParcela.Pendente ↔
        ¬ (p.data_vencimento.antes agora.data ∨
          (p.data_vencimento = agora.data ∧ 0 < agora.ms)))) ∧
    (∀ db1 : DB, (atender db1 agora .varrer).parcelas =
      db1.parcelas.map (parcelaVarrida agora.data)) ∧
    (∀ q : Parcela, q.status = StatusParcela.Pendente →
      ((parcelaVarrida agora.data q).status = StatusParcela.Atrasada ↔
        q.data_vencimento.antes agora.data)) ∧
    (∀ (db1 : DB) (idParcela : Nat) (p0 : Parcela),
      parcelaExistente db1 idParcela = some p0 →
      ∃ l, (patchParcelaStatus db1 agora idParcela StatusParcela.Pendente).2 =
        .ok ((if p0.data_vencimento.antes agora.data then StatusParcela.Atrasada
          else StatusParcela.Pendente), l)) ∧
    (atender (atender db agora (.criarEmprestimo c)) agora .varrer).parcelas.drop
      db.parcelas.length = parcelasCriadas db agora c := by
  refine ⟨?_, ?_, ?_, ?_, ?_⟩
  · intro p hp
    rw [parcelasCriadas_eq db agora c hc hcli] at hp
    simp only [List.mem_map] at hp
    obtain ⟨j, _, rfl⟩ := hp
    rw [← meiaNoite_antes_iff]
    simp only [novaParcelaCriacao]
    split <;> simp [*]
  · intro db1
    exact (varrerAtrasos_linhas agora.data db1).1
  · intro q hq
    unfold parcelaVarrida
    by_cases h : q.data_vencimento.antes agora.data
    · simp [hq, h]
    · simp [hq, h]
  · intro db1 idParcela p0 hp0
    exact ⟨_, (patchParcelaStatus_de_alterar db1 agora idParcela StatusParcela.Pendente p0 _ _
      (Or.inr rfl) hp0 (alterarParcela_pendente db1 agora idParcela p0 hp0)).1⟩
  · have hsw : (atender (atender db agora (.criarEmprestimo c)) agora .varrer).parcelas =
        (postEmprestimos db agora c).1.parcelas.map (parcelaVarrida agora.data) :=
      (varrerAtrasos_linhas agora.data _).1
    rw [hsw, parcelasCriadas_eq db agora c hc hcli, (postEmprestimos_parcelas db agora c hc hcli).1,
      gerarParcelas_eq_map, List.map_append, List.map_map]
    have hlen : db.parcelas.length = (db.parcelas.map (parcelaVarrida agora.data)).length := by
      rw [List.length_map]
    rw [hlen, List.drop_left]
    apply List.map_congr_left
    intro j _
    exact parcelaVarrida_criada _ _ _ _ _ _

/-- C23 at the loan created at noon of 2024-02-15 with origination 2024-01-15: the
installment due on the creation day is created `Atrasada`, the other three `Pendente`,
and a sweep at that same instant leaves the four rows as they were created. -/
theorem atraso_criacao_varredura_reversao_exemplo :
    camposFaltando corpoDia15 = false ∧ (∃ x ∈ dbAna.clientes, x.nome = corpoDia15.cliente) ∧
    (parcelasCriadas dbAna meioDia1502 corpoDia15).map
      (fun p => (p.numero_parcela, p.data_vencimento, p.status)) =
      [(1, ⟨2024, 2, 15⟩, StatusParcela.Atrasada), (2, ⟨2024, 3, 15⟩, StatusParcela.Pendente),
       (3, ⟨2024, 4, 15⟩, StatusParcela.Pendente), (4, ⟨2024, 5, 15⟩, StatusParcela.Pendente)] ∧
    (atender (atender dbAna meioDia1502 (.criarEmprestimo corpoDia15)) meioDia1502
      .varrer).parcelas.drop dbAna.parcelas.length =
      parcelasCriadas dbAna meioDia1502 corpoDia15 := by
  have hc : camposFaltando corpoDia15 = false := by decide!
  have hcli : ∃ x ∈ dbAna.clientes, x.nome = corpoDia15.cliente := by decide
  exact ⟨hc, hcli, by decide!,
    (atraso_criacao_varredura_reversao dbAna meioDia1502 corpoDia15 hc hcli).2.2.2.2⟩

/-- C23 fails on the creation day.  A loan with origination 2024-01-15 is created at noon
of 2024-02-15: its first installment is due on the creation day, which is not strictly
before the calendar date of the creation, and it is created `Atrasada`, not `Pendente`.
At that same instant the unpay action on this installment answers `Pendente`, and a
sweep then leaves it `Pendente`. -/
theorem criada_atrasada_no_dia_do_vencimento :
    (parcelasCriadas dbAna meioDia1502 corpoDia15).map
      (fun p => (p.id, p.data_vencimento, p.status)) =
      [(1, ⟨2024, 2, 15⟩, StatusParcela.Atrasada), (2, ⟨2024, 3, 15⟩, StatusParcela.Pendente),
       (3, ⟨2024, 4, 15⟩, StatusParcela.Pendente), (4, ⟨2024, 5, 15⟩, StatusParcela.Pendente)] ∧
    meioDia1502.data = ⟨2024, 2, 15⟩ ∧
    ¬ (⟨2024, 2, 15⟩ : Data).antes meioDia1502.data ∧
    (patchParcelaStatus dbDia15 meioDia1502 1 StatusParcela.Pendente).2.toOption.map
      (fun r => r.1) = some StatusParcela.Pendente ∧
    (atender (atender dbDia15 meioDia1502 (.alterarStatusParcela 1 StatusParcela.Pendente))
      meioDia1502 .varrer).parcelas.map (fun p => (p.id, p.data_vencimento, p.status)) =
      [(1, ⟨2024, 2, 15⟩, StatusParcela.Pendente), (2, ⟨2024, 3, 15⟩, StatusParcela.Pendente),
       (3, ⟨2024, 4, 15⟩, StatusParcela.Pendente), (4, ⟨2024, 5, 15⟩, StatusParcela.Pendente)] := by
  refine ⟨by decide!, rfl, by decide, by decide!, by decide!⟩

end Backg
